import Mathlib

/-!
Forge workout tracker: store, workout CRUD and handlers.

A shallow embedding of `internal/models/models.go`, `internal/database/db.go`,
`internal/handlers`, `internal/middleware/auth.go` and `internal/seeder/seeder.go`.

* The SQLite database is a record of four tables (lists of rows in rowid
  order) together with the `sqlite_sequence` counters of the AUTOINCREMENT
  keys.  Each SQL statement of `db.go` is a function on that record; the
  constraints that can make a statement fail (the FOREIGN KEY clauses, with
  `_foreign_keys=on`) are checked by the statement.
* A transaction (`db.Begin`) carries the committed database and a pending
  copy; `tx.Exec` works on the pending copy, `Commit` installs it and
  `Rollback` drops it.  Reads made through `db` see the committed database.
* `time.Time` is a record of civil fields, nanoseconds and zone offset.  The
  text kept in a DATETIME column is represented by the fields it spells and
  rendered by `RFC3339Text.text` / `SqlTimestamp.text` where the text itself
  is compared.
* REAL values and Go `float64` values are IEEE 754 binary64 numbers (`Float64`): every
  operation returns its exact result rounded to nearest, ties to even.  The
  float64 additions inside SQLite's `SUM` belong to the engine, so the aggregate is a
  parameter of `GetReport`.
* `auth.GenerateToken`, `auth.ValidateToken` and the bcrypt functions are
  parameters of the handlers that call them.
* Failures of the storage engine other than constraint violations (I/O
  errors, a closed database) are outside the model.
-/

namespace Forge

/-! ## Time values and their text forms -/

/-- Go `time.Time`: wall-clock fields, nanoseconds within the second and zone
offset in minutes east of UTC. -/
structure Time where
  year : Nat
  month : Nat
  day : Nat
  hour : Nat
  minute : Nat
  second : Nat
  nsec : Nat
  offset : Int
deriving DecidableEq, Repr

/-- Text produced by `Format(time.RFC3339)`, layout `2006-01-02T15:04:05Z07:00`:
whole seconds and the zone offset, no fractional second. -/
structure RFC3339Text where
  year : Nat
  month : Nat
  day : Nat
  hour : Nat
  minute : Nat
  second : Nat
  offset : Int
deriving DecidableEq, Repr

/-- Text produced by SQLite `CURRENT_TIMESTAMP`, `YYYY-MM-DD HH:MM:SS` in UTC. -/
structure SqlTimestamp where
  year : Nat
  month : Nat
  day : Nat
  hour : Nat
  minute : Nat
  second : Nat
deriving DecidableEq, Repr

/-- `t.Format(time.RFC3339)`: the layout has no fractional-second field, so the
nanoseconds are not written. -/
def Format (t : Time) : RFC3339Text :=
  { year := t.year, month := t.month, day := t.day, hour := t.hour,
    minute := t.minute, second := t.second, offset := t.offset }

/-- `time.Parse(time.RFC3339, s)` on a stored text (the error is discarded in
`db.go`; every stored text was written by `Format`). -/
def Parse (s : RFC3339Text) : Time :=
  { year := s.year, month := s.month, day := s.day, hour := s.hour,
    minute := s.minute, second := s.second, nsec := 0, offset := s.offset }

/-- Scan of a `CURRENT_TIMESTAMP` column into a `time.Time` (UTC). -/
def scanTimestamp (s : SqlTimestamp) : Time :=
  { year := s.year, month := s.month, day := s.day, hour := s.hour,
    minute := s.minute, second := s.second, nsec := 0, offset := 0 }

/-- Decimal digit character of `n % 10`. -/
def digitChar (n : Nat) : Char := Char.ofNat (48 + n % 10)

/-- Two-digit zero-padded decimal. -/
def pad2 (n : Nat) : List Char := [digitChar (n / 10), digitChar n]

/-- Four-digit zero-padded decimal. -/
def pad4 (n : Nat) : List Char :=
  [digitChar (n / 1000), digitChar (n / 100), digitChar (n / 10), digitChar n]

/-- Zone suffix of the RFC 3339 layout: `Z` for UTC, otherwise `±hh:mm`. -/
def zoneText (offset : Int) : List Char :=
  if offset = 0 then ['Z']
  else (if offset < 0 then '-' else '+') ::
    (pad2 (offset.natAbs / 60) ++ ':' :: pad2 (offset.natAbs % 60))

/-- The characters of an RFC 3339 text. -/
def RFC3339Text.text (s : RFC3339Text) : String :=
  String.mk (pad4 s.year ++ '-' :: pad2 s.month ++ '-' :: pad2 s.day ++ 'T' ::
    pad2 s.hour ++ ':' :: pad2 s.minute ++ ':' :: pad2 s.second ++ zoneText s.offset)

/-- The characters of a `CURRENT_TIMESTAMP` text. -/
def SqlTimestamp.text (s : SqlTimestamp) : String :=
  String.mk (pad4 s.year ++ '-' :: pad2 s.month ++ '-' :: pad2 s.day ++ ' ' ::
    pad2 s.hour ++ ':' :: pad2 s.minute ++ ':' :: pad2 s.second)

/-! ## float64 -/

/-- IEEE 754 binary64, the `float64` of Go and the REAL of SQLite.  A finite value is
`m * 2 ^ e`, negated when `neg` is set, with `m < 2 ^ 53` and `-1074 ≤ e ≤ 971`, and with
`2 ^ 52 ≤ m` unless `e = -1074`; zero is `finite false 0 (-1074)` (the sign of a zero is
not represented). -/
inductive Float64 where
  | finite (neg : Bool) (m : Nat) (e : Int)
  | inf (neg : Bool)
  | nan
deriving DecidableEq, Repr

namespace Float64

/-- The value `0`. -/
def zero : Float64 := .finite false 0 (-1074)

/-- The number of binary digits of `n` after the first, found within `fuel` halvings. -/
def log2 : Nat → Nat → Nat
  | 0, _ => 0
  | fuel + 1, n => if n < 2 then 0 else log2 fuel (n / 2) + 1

/-- The integer `l` with `2 ^ l ≤ n / d < 2 ^ (l + 1)`, for positive `n` and `d`. -/
def floorLog2 (n d : Nat) : Int :=
  let l : Int := (log2 n n : Int) - (log2 d d : Int)
  if d * 2 ^ l.toNat ≤ n * 2 ^ (-l).toNat then l else l - 1

/-- The integer nearest to `n / d`, the even one of two equally near. -/
def roundHalfEven (n d : Nat) : Nat :=
  let q := n / d
  let r := n % d
  if 2 * r < d then q
  else if d < 2 * r then q + 1
  else if q % 2 = 0 then q else q + 1

/-- Rounding to nearest, ties to even: the `float64` for the exact value `n / d`, negated
when `neg` is set.  Every arithmetic operation returns its exact result rounded so. -/
def round (neg : Bool) (n d : Nat) : Float64 :=
  if n = 0 then zero
  else
    let e : Int := max (-1074) (floorLog2 n d - 52)
    let q := roundHalfEven (n * 2 ^ (-e).toNat) (d * 2 ^ e.toNat)
    if q = 0 then zero
    else if q = 2 ^ 53 then (if 971 < e + 1 then .inf neg else .finite neg (2 ^ 52) (e + 1))
    else if 971 < e then .inf neg
    else .finite neg q e

/-- Conversion of an integer, as in `float64(n)`. -/
def ofInt (i : Int) : Float64 := round (decide (i < 0)) i.natAbs 1

instance (n : Nat) : OfNat Float64 n := ⟨ofInt n⟩

/-- The integer `k` with value `k * 2 ^ x`, for a finite value with exponent at least `x`. -/
def scaled (neg : Bool) (m : Nat) (e x : Int) : Int :=
  let k : Int := m * 2 ^ (e - x).toNat
  if neg then -k else k

/-- Multiplication `x * y`. -/
def mul : Float64 → Float64 → Float64
  | .nan, _ => .nan
  | _, .nan => .nan
  | .inf s, .inf t => .inf (xor s t)
  | .inf s, .finite t k _ => if k = 0 then .nan else .inf (xor s t)
  | .finite s m _, .inf t => if m = 0 then .nan else .inf (xor s t)
  | .finite s m e, .finite t k f =>
    round (xor s t) (m * k * 2 ^ (e + f).toNat) (2 ^ (-(e + f)).toNat)

/-- Addition `x + y`. -/
def add : Float64 → Float64 → Float64
  | .nan, _ => .nan
  | _, .nan => .nan
  | .inf s, .inf t => if s = t then .inf s else .nan
  | .inf s, .finite _ _ _ => .inf s
  | .finite _ _ _, .inf t => .inf t
  | .finite s m e, .finite t k f =>
    let x := min e f
    let c := scaled s m e x + scaled t k f x
    round (decide (c < 0)) (c.natAbs * 2 ^ x.toNat) (2 ^ (-x).toNat)

/-- Division `x / y`. -/
def div : Float64 → Float64 → Float64
  | .nan, _ => .nan
  | _, .nan => .nan
  | .inf _, .inf _ => .nan
  | .inf s, .finite t _ _ => .inf (xor s t)
  | .finite _ _ _, .inf _ => zero
  | .finite s m e, .finite t k f =>
    if k = 0 then (if m = 0 then .nan else .inf s)
    else round (xor s t) (m * 2 ^ (e - f).toNat) (k * 2 ^ (f - e).toNat)

/-- Comparison `x < y`. -/
def lt : Float64 → Float64 → Bool
  | .nan, _ => false
  | _, .nan => false
  | .inf s, .inf t => s && !t
  | .inf s, .finite _ _ _ => s
  | .finite _ _ _, .inf t => !t
  | .finite s m e, .finite t k f =>
    decide (scaled s m e (min e f) < scaled t k f (min e f))

/-- Comparison `x ≤ y`. -/
def le : Float64 → Float64 → Bool
  | .nan, _ => false
  | _, .nan => false
  | .inf s, .inf t => s || !t
  | .inf s, .finite _ _ _ => s
  | .finite _ _ _, .inf t => !t
  | .finite s m e, .finite t k f =>
    decide (scaled s m e (min e f) ≤ scaled t k f (min e f))

/-- Not a number. -/
def isNaN : Float64 → Bool
  | .nan => true
  | _ => false

/-- A finite value: neither an infinity nor `nan`. -/
def isFinite : Float64 → Bool
  | .finite _ _ _ => true
  | _ => false

/-- The bounds on the parts of a finite value. -/
def WellFormed : Float64 → Prop
  | .finite neg m e =>
    m < 2 ^ 53 ∧ -1074 ≤ e ∧ e ≤ 971 ∧ (2 ^ 52 ≤ m ∨ e = -1074) ∧ (m = 0 → neg = false)
  | _ => True

/-- The rational value of a finite `float64` (`0` for the others). -/
def toRat : Float64 → Rat
  | .finite neg m e => (if neg then -(m : Rat) else m) * (2 : Rat) ^ e
  | _ => 0

end Float64

/-! ## models.go -/

/-- The `models.User` record (the password hash is not serialised). -/
structure User where
  ID : Int
  Name : String
  Email : String
  PasswordHash : String
  CreatedAt : Time
deriving DecidableEq, Repr

/-- Row of `exercises` and the `models.Exercise` scanned from it. -/
structure Exercise where
  ID : Int
  Name : String
  Description : String
  Category : String
  MuscleGroup : String
deriving DecidableEq, Repr

/-- The `models.WorkoutExercise` record. -/
structure WorkoutExercise where
  ID : Int
  WorkoutID : Int
  ExerciseID : Int
  Sets : Int
  Reps : Int
  WeightKg : Float64
  DurationSec : Int
  Notes : String
  Exercise : Option Exercise
deriving DecidableEq, Repr

/-- The `models.Workout` record. -/
structure Workout where
  ID : Int
  UserID : Int
  Title : String
  Description : String
  Comment : String
  Status : String
  ScheduledAt : Option Time
  CompletedAt : Option Time
  CreatedAt : Time
  UpdatedAt : Time
  Exercises : List WorkoutExercise
deriving DecidableEq, Repr

/-- The `models.WorkoutExerciseRequest` record. -/
structure WorkoutExerciseRequest where
  ExerciseID : Int
  Sets : Int
  Reps : Int
  WeightKg : Float64
  DurationSec : Int
  Notes : String
deriving DecidableEq, Repr

/-- The `models.CreateWorkoutRequest` record. -/
structure CreateWorkoutRequest where
  Title : String
  Description : String
  ScheduledAt : Option Time
  Exercises : List WorkoutExerciseRequest
deriving DecidableEq, Repr

/-- The `models.UpdateWorkoutRequest` record: a nil pointer or nil slice is `none`. -/
structure UpdateWorkoutRequest where
  Title : Option String
  Description : Option String
  Comment : Option String
  Status : Option String
  ScheduledAt : Option Time
  Exercises : Option (List WorkoutExerciseRequest)
deriving DecidableEq, Repr

/-- The `models.RegisterRequest` record. -/
structure RegisterRequest where
  Name : String
  Email : String
  Password : String
deriving DecidableEq, Repr

/-- The `models.LoginRequest` record. -/
structure LoginRequest where
  Email : String
  Password : String
deriving DecidableEq, Repr

/-- The `models.WorkoutReport` record. -/
structure WorkoutReport where
  TotalWorkouts : Int
  CompletedWorkouts : Int
  TotalVolumeKg : Float64
  AvgWorkoutsPerWeek : Float64
  MostUsedExercise : String
  Workouts : List Workout
deriving DecidableEq, Repr

/-! ## The database (schema of `Migrate`) -/

/-- Row of `users`. -/
structure UserRow where
  id : Int
  name : String
  email : String
  password_hash : String
  created_at : SqlTimestamp
deriving DecidableEq, Repr

/-- Row of `workouts`. -/
structure WorkoutRow where
  id : Int
  user_id : Int
  title : String
  description : String
  comment : String
  status : String
  scheduled_at : Option RFC3339Text
  completed_at : Option RFC3339Text
  created_at : SqlTimestamp
  updated_at : SqlTimestamp
deriving DecidableEq, Repr

/-- Row of `workout_exercises`. -/
structure WorkoutExerciseRow where
  id : Int
  workout_id : Int
  exercise_id : Int
  sets : Int
  reps : Int
  weight_kg : Float64
  duration_sec : Int
  notes : String
deriving DecidableEq, Repr

/-- The database file: the four tables in rowid order and the
`sqlite_sequence` counter of each AUTOINCREMENT key. -/
structure DB where
  users : List UserRow
  exercises : List Exercise
  workouts : List WorkoutRow
  workout_exercises : List WorkoutExerciseRow
  seq_users : Int
  seq_exercises : Int
  seq_workouts : Int
  seq_workout_exercises : Int
deriving DecidableEq, Repr

/-- The database right after `Migrate` on a new file. -/
def DB.empty : DB :=
  { users := [], exercises := [], workouts := [], workout_exercises := [],
    seq_users := 0, seq_exercises := 0, seq_workouts := 0, seq_workout_exercises := 0 }

/-- Largest value of an integer column, `0` on an empty table. -/
def maxRowid (ids : List Int) : Int := ids.foldl max 0

/-- Key chosen by AUTOINCREMENT: one more than the larger of the table's
largest rowid and its `sqlite_sequence` counter. -/
def nextRowid (seq : Int) (ids : List Int) : Int := max seq (maxRowid ids) + 1

/-! ## Reads of `db.go` -/

/-- Scan of the columns of a `workouts` row, as in `GetWorkoutByID` and `ListWorkouts`. -/
def scanWorkout (r : WorkoutRow) (exercises : List WorkoutExercise) : Workout :=
  { ID := r.id, UserID := r.user_id, Title := r.title, Description := r.description,
    Comment := r.comment, Status := r.status,
    ScheduledAt := r.scheduled_at.map Parse,
    CompletedAt := r.completed_at.map Parse,
    CreatedAt := scanTimestamp r.created_at, UpdatedAt := scanTimestamp r.updated_at,
    Exercises := exercises }

/-- One joined row of `getWorkoutExercises`. -/
def scanWorkoutExercise (we : WorkoutExerciseRow) (e : Exercise) : WorkoutExercise :=
  { ID := we.id, WorkoutID := we.workout_id, ExerciseID := we.exercise_id,
    Sets := we.sets, Reps := we.reps, WeightKg := we.weight_kg,
    DurationSec := we.duration_sec, Notes := we.notes, Exercise := some e }

/-- `getWorkoutExercises`: `workout_exercises we JOIN exercises e ON e.id = we.exercise_id
WHERE we.workout_id = ?`. -/
def getWorkoutExercises (db : DB) (workoutID : Int) : List WorkoutExercise :=
  (db.workout_exercises.filter (fun we => we.workout_id == workoutID)).flatMap fun we =>
    (db.exercises.filter (fun e => e.ID == we.exercise_id)).map (scanWorkoutExercise we)

/-- `GetWorkoutByID`: the row `WHERE id = ? AND user_id = ?`; `none` is the
`nil, nil` returned on `sql.ErrNoRows`. -/
def GetWorkoutByID (db : DB) (id userID : Int) : Option Workout :=
  match db.workouts.find? (fun r => r.id == id && r.user_id == userID) with
  | none => none
  | some r => some (scanWorkout r (getWorkoutExercises db id))

/-- `ListWorkouts` sort key: `COALESCE(scheduled_at, created_at)`, a text. -/
def orderKey (r : WorkoutRow) : String :=
  match r.scheduled_at with
  | some s => s.text
  | none => r.created_at.text

/-- `ORDER BY COALESCE(scheduled_at, created_at) ASC`: texts compare character by
character; rows with equal keys keep their rowid order. -/
def orderByKey (rows : List WorkoutRow) : List WorkoutRow :=
  rows.insertionSort (fun a b => ¬ (orderKey b).data < (orderKey a).data)

/-- `ListWorkouts`: rows `WHERE user_id = ?`, `AND status = ?` when the filter is
not empty, ordered, each with its exercise entries. -/
def ListWorkouts (db : DB) (userID : Int) (status : String) : List Workout :=
  let rows := db.workouts.filter fun r =>
    r.user_id == userID && (if status != "" then r.status == status else true)
  (orderByKey rows).map fun r => scanWorkout r (getWorkoutExercises db r.id)

/-! ## Statements and transactions -/

/-- What `sql.Result` reports of an executed statement. -/
structure Result where
  LastInsertId : Int
  RowsAffected : Nat
deriving DecidableEq, Repr

/-- Error text of SQLite for a violated FOREIGN KEY clause. -/
def fkError : String := "FOREIGN KEY constraint failed"

/-- `INSERT INTO workouts (user_id, title, description, scheduled_at, status)
VALUES (?, ?, ?, ?, 'pending')`; the other columns take their defaults. -/
def insertWorkout (userID : Int) (title description : String)
    (scheduledStr : Option RFC3339Text) (ts : SqlTimestamp) (db : DB) :
    Except String (DB × Result) :=
  if db.users.any (fun u => u.id == userID) then
    let wid := nextRowid db.seq_workouts (db.workouts.map fun r => r.id)
    let row : WorkoutRow :=
      { id := wid, user_id := userID, title := title, description := description,
        comment := "", status := "pending", scheduled_at := scheduledStr,
        completed_at := none, created_at := ts, updated_at := ts }
    .ok ({ db with workouts := db.workouts ++ [row], seq_workouts := wid },
         { LastInsertId := wid, RowsAffected := 1 })
  else .error fkError

/-- `INSERT INTO workout_exercises (workout_id, exercise_id, sets, reps, weight_kg,
duration_sec, notes) VALUES (?,?,?,?,?,?,?)`. -/
def insertWorkoutExercise (workoutID : Int) (e : WorkoutExerciseRequest) (db : DB) :
    Except String (DB × Result) :=
  if db.workouts.any (fun r => r.id == workoutID) &&
      db.exercises.any (fun x => x.ID == e.ExerciseID) then
    let weid := nextRowid db.seq_workout_exercises (db.workout_exercises.map fun r => r.id)
    let row : WorkoutExerciseRow :=
      { id := weid, workout_id := workoutID, exercise_id := e.ExerciseID, sets := e.Sets,
        reps := e.Reps, weight_kg := e.WeightKg, duration_sec := e.DurationSec,
        notes := e.Notes }
    .ok ({ db with workout_exercises := db.workout_exercises ++ [row],
                   seq_workout_exercises := weid },
         { LastInsertId := weid, RowsAffected := 1 })
  else .error fkError

/-- `UPDATE workouts SET title=?, description=?, comment=?, status=?, scheduled_at=?,
completed_at=?, updated_at=CURRENT_TIMESTAMP WHERE id=? AND user_id=?`. -/
def updateWorkout (title desc comment status : String)
    (scheduledStr completedStr : Option RFC3339Text) (id userID : Int) (ts : SqlTimestamp)
    (db : DB) : Except String (DB × Result) :=
  let hit : WorkoutRow → Bool := fun r => r.id == id && r.user_id == userID
  .ok ({ db with workouts := db.workouts.map fun r =>
           if hit r then
             { r with title := title, description := desc, comment := comment,
                      status := status, scheduled_at := scheduledStr,
                      completed_at := completedStr, updated_at := ts }
           else r },
       { LastInsertId := 0, RowsAffected := db.workouts.countP hit })

/-- `DELETE FROM workout_exercises WHERE workout_id = ?`. -/
def deleteWorkoutExercises (id : Int) (db : DB) : Except String (DB × Result) :=
  .ok ({ db with workout_exercises :=
           db.workout_exercises.filter fun we => !(we.workout_id == id) },
       { LastInsertId := 0,
         RowsAffected := db.workout_exercises.countP fun we => we.workout_id == id })

/-- `DELETE FROM workouts WHERE id = ? AND user_id = ?`; the entries of a deleted
workout go with it (`ON DELETE CASCADE`). -/
def deleteWorkout (id userID : Int) (db : DB) : Except String (DB × Result) :=
  let hit : WorkoutRow → Bool := fun r => r.id == id && r.user_id == userID
  let n := db.workouts.countP hit
  .ok ({ db with
           workouts := db.workouts.filter fun r => !(hit r),
           workout_exercises :=
             if n == 0 then db.workout_exercises
             else db.workout_exercises.filter fun we => !(we.workout_id == id) },
       { LastInsertId := 0, RowsAffected := n })

/-- An open transaction: the committed database and the pending copy the
statements of the transaction work on. -/
structure Tx where
  committed : DB
  pending : DB
deriving DecidableEq, Repr

/-- The call `db.Begin()`. -/
def Begin (db : DB) : Tx := { committed := db, pending := db }

/-- The call `tx.Exec(stmt)`: the statement runs on the pending copy; a failed statement
changes nothing. -/
def Tx.Exec (tx : Tx) (stmt : DB → Except String (DB × Result)) : Tx × Except String Result :=
  match stmt tx.pending with
  | .error err => (tx, .error err)
  | .ok (db, res) => ({ tx with pending := db }, .ok res)

/-- The call `tx.Commit()`: the pending copy becomes the database. -/
def Tx.Commit (tx : Tx) : DB := tx.pending

/-- The call `tx.Rollback()` (deferred): the pending copy is dropped. -/
def Tx.Rollback (tx : Tx) : DB := tx.committed

/-- The loop `for _, e := range req.Exercises { tx.Exec(INSERT ...) }` with its
early return. -/
def insertExercises (workoutID : Int) : Tx → List WorkoutExerciseRequest → Tx × Except String Unit
  | tx, [] => (tx, .ok ())
  | tx, e :: es =>
    match tx.Exec (insertWorkoutExercise workoutID e) with
    | (tx1, .error err) => (tx1, .error err)
    | (tx1, .ok _) => insertExercises workoutID tx1 es

/-- `CreateWorkout`: the result and the database after the call.  `ts` is the
`CURRENT_TIMESTAMP` of the insert. -/
def CreateWorkout (db : DB) (userID : Int) (req : CreateWorkoutRequest) (ts : SqlTimestamp) :
    Except String (Option Workout) × DB :=
  let tx := Begin db
  let scheduledStr := req.ScheduledAt.map Format
  match tx.Exec (insertWorkout userID req.Title req.Description scheduledStr ts) with
  | (tx1, .error err) => (.error err, tx1.Rollback)
  | (tx1, .ok res) =>
    let wid := res.LastInsertId
    match insertExercises wid tx1 req.Exercises with
    | (tx2, .error err) => (.error err, tx2.Rollback)
    | (tx2, .ok _) =>
      let db1 := tx2.Commit
      (.ok (GetWorkoutByID db1 wid userID), db1)

/-- The block `if req.Exercises != nil { DELETE ...; for ... { INSERT ... } }` of
`UpdateWorkout`. -/
def replaceExercises (id : Int) (tx : Tx) : Option (List WorkoutExerciseRequest) →
    Tx × Except String Unit
  | none => (tx, .ok ())
  | some es =>
    match tx.Exec (deleteWorkoutExercises id) with
    | (tx1, .error err) => (tx1, .error err)
    | (tx1, .ok _) => insertExercises id tx1 es

/-- `UpdateWorkout`: the result and the database after the call.  `now` is the
reading of `time.Now()`, `ts` the `CURRENT_TIMESTAMP` of the update. -/
def UpdateWorkout (db : DB) (id userID : Int) (req : UpdateWorkoutRequest) (now : Time)
    (ts : SqlTimestamp) : Except String (Option Workout) × DB :=
  let tx := Begin db
  match GetWorkoutByID db id userID with
  | none => (.error "workout not found", tx.Rollback)
  | some existing =>
    let title := match req.Title with
      | some t => t
      | none => existing.Title
    let desc := match req.Description with
      | some d => d
      | none => existing.Description
    let comment := match req.Comment with
      | some c => c
      | none => existing.Comment
    let status := match req.Status with
      | some s => s
      | none => existing.Status
    let scheduledStr := match req.ScheduledAt with
      | some t => some (Format t)
      | none => existing.ScheduledAt.map Format
    let completedStr := if status == "completed" then some (Format now) else none
    match tx.Exec (updateWorkout title desc comment status scheduledStr completedStr
        id userID ts) with
    | (tx1, .error err) => (.error err, tx1.Rollback)
    | (tx1, .ok _) =>
      match replaceExercises id tx1 req.Exercises with
      | (tx2, .error err) => (.error err, tx2.Rollback)
      | (tx2, .ok _) =>
        let db1 := tx2.Commit
        (.ok (GetWorkoutByID db1 id userID), db1)

/-- `DeleteWorkout`: the statement runs directly on the database. -/
def DeleteWorkout (db : DB) (id userID : Int) : Except String Unit × DB :=
  match deleteWorkout id userID db with
  | .error err => (.error err, db)
  | .ok (db1, res) =>
    if res.RowsAffected == 0 then (.error "workout not found", db1)
    else (.ok (), db1)

/-! ## handlers/workouts.go -/

/-- Value of a run of decimal digits; `none` when the run is empty or has another
character. -/
def digitsValue (cs : List Char) : Option Nat :=
  if cs.isEmpty then none
  else cs.foldl (fun acc c => acc.bind fun n =>
    if c.isDigit then some (n * 10 + (c.toNat - 48)) else none) (some 0)

/-- `strconv.ParseInt(s, 10, 64)`: optional sign, decimal digits, value within
the 64-bit range; `none` is a returned error. -/
def ParseInt (s : String) : Option Int :=
  match s.data with
  | '-' :: cs => (digitsValue cs).bind fun n =>
      if n ≤ 2 ^ 63 then some (-(n : Int)) else none
  | '+' :: cs => (digitsValue cs).bind fun n =>
      if n < 2 ^ 63 then some (n : Int) else none
  | cs => (digitsValue cs).bind fun n =>
      if n < 2 ^ 63 then some (n : Int) else none

/-- JSON body written by a handler or by the middleware. -/
inductive Body where
  | error (msg : String)
  | message (msg : String)
  | workout (w : Option Workout)
  | workouts (ws : List Workout)
  | exercises (es : List Exercise)
  | report (r : WorkoutReport)
  | user (u : Option User)
  | auth (token : String) (user : User)
deriving DecidableEq, Repr

/-- Status code and body of a response. -/
structure Response where
  status : Nat
  body : Body
deriving DecidableEq, Repr

/-- Handler of `POST /workouts`.  `bound` is the outcome of `c.ShouldBindJSON(&req)`. -/
def WorkoutHandler.Create (db : DB) (userID : Int)
    (bound : Except String CreateWorkoutRequest) (ts : SqlTimestamp) : Response × DB :=
  match bound with
  | .error err => ({ status := 400, body := .error err }, db)
  | .ok req =>
    match CreateWorkout db userID req ts with
    | (.error err, db1) => ({ status := 500, body := .error err }, db1)
    | (.ok workout, db1) => ({ status := 201, body := .workout workout }, db1)

/-- Handler of `GET /workouts`; a nil slice and an empty slice are both `[]`. -/
def WorkoutHandler.List (db : DB) (userID : Int) (status : String) : Response :=
  { status := 200, body := .workouts (ListWorkouts db userID status) }

/-- Handler of `GET /workouts/:id`. -/
def WorkoutHandler.Get (db : DB) (userID : Int) (idParam : String) : Response :=
  match ParseInt idParam with
  | none => { status := 400, body := .error "invalid id" }
  | some id =>
    match GetWorkoutByID db id userID with
    | none => { status := 404, body := .error "workout not found" }
    | some workout => { status := 200, body := .workout (some workout) }

/-- Handler of `PUT /workouts/:id`.  `bound` is the outcome of `c.ShouldBindJSON(&req)`. -/
def WorkoutHandler.Update (db : DB) (userID : Int) (idParam : String)
    (bound : Except String UpdateWorkoutRequest) (now : Time) (ts : SqlTimestamp) :
    Response × DB :=
  match ParseInt idParam with
  | none => ({ status := 400, body := .error "invalid id" }, db)
  | some id =>
    match bound with
    | .error err => ({ status := 400, body := .error err }, db)
    | .ok req =>
      match UpdateWorkout db id userID req now ts with
      | (.error err, db1) => ({ status := 500, body := .error err }, db1)
      | (.ok workout, db1) => ({ status := 200, body := .workout workout }, db1)

/-- Handler of `DELETE /workouts/:id`. -/
def WorkoutHandler.Delete (db : DB) (userID : Int) (idParam : String) : Response × DB :=
  match ParseInt idParam with
  | none => ({ status := 400, body := .error "invalid id" }, db)
  | some id =>
    match DeleteWorkout db id userID with
    | (.error err, db1) => ({ status := 404, body := .error err }, db1)
    | (.ok _, db1) => ({ status := 200, body := .message "deleted" }, db1)

/-! ## Instants and durations -/

/-- Days from 1970-01-01 to a date of the proleptic Gregorian calendar (year at least 1). -/
def daysFromCivil (year month day : Nat) : Int :=
  let y := if month ≤ 2 then year - 1 else year
  let era := y / 400
  let yoe := y % 400
  let mp := (month + 9) % 12
  let doy := (153 * mp + 2) / 5 + day - 1
  let doe := yoe * 365 + yoe / 4 - yoe / 100 + doy
  ((era * 146097 + doe : Nat) : Int) - 719468

/-- `t.UnixNano()`: nanoseconds from 1970-01-01T00:00:00Z to the instant of `t`. -/
def Time.UnixNano (t : Time) : Int :=
  ((daysFromCivil t.year t.month t.day * 86400 + t.hour * 3600 + t.minute * 60 + t.second
      - t.offset * 60) * 1000000000) + t.nsec

/-- `t.Sub(u)`: a `time.Duration` in nanoseconds, kept within the 64-bit range. -/
def Time.Sub (t u : Time) : Int :=
  let d := t.UnixNano - u.UnixNano
  if d < -(2 ^ 63) then -(2 ^ 63) else if 2 ^ 63 - 1 < d then 2 ^ 63 - 1 else d

/-- `d.Hours()`: `float64(d / Hour) + float64(d % Hour) / (60 * 60 * 1e9)`, where `/` and
`%` on integers truncate toward zero. -/
def Hours (d : Int) : Float64 :=
  let hour := d.tdiv 3600000000000
  let nsec := d.tmod 3600000000000
  (Float64.ofInt hour).add ((Float64.ofInt nsec).div 3600000000000)

/-! ## Users and exercises of `db.go` -/

/-- Scan of a `users` row. -/
def scanUser (r : UserRow) : User :=
  { ID := r.id, Name := r.name, Email := r.email, PasswordHash := r.password_hash,
    CreatedAt := scanTimestamp r.created_at }

/-- `GetUserByEmail`: the row `WHERE email = ?`; `none` is the `nil, nil` on `sql.ErrNoRows`. -/
def GetUserByEmail (db : DB) (email : String) : Option User :=
  (db.users.find? fun r => r.email == email).map scanUser

/-- `GetUserByID`: the row `WHERE id = ?`. -/
def GetUserByID (db : DB) (id : Int) : Option User :=
  (db.users.find? fun r => r.id == id).map scanUser

/-- `INSERT INTO users (name, email, password_hash) VALUES (?, ?, ?)`; `email` is UNIQUE. -/
def insertUser (name email hash : String) (ts : SqlTimestamp) (db : DB) :
    Except String (DB × Result) :=
  if db.users.any (fun r => r.email == email) then
    .error "UNIQUE constraint failed: users.email"
  else
    let uid := nextRowid db.seq_users (db.users.map fun r => r.id)
    let row : UserRow :=
      { id := uid, name := name, email := email, password_hash := hash, created_at := ts }
    .ok ({ db with users := db.users ++ [row], seq_users := uid },
         { LastInsertId := uid, RowsAffected := 1 })

/-- `CreateUser`: the statement runs directly on the database. -/
def CreateUser (db : DB) (name email hash : String) (ts : SqlTimestamp) :
    Except String (Option User) × DB :=
  match insertUser name email hash ts db with
  | .error err => (.error err, db)
  | .ok (db1, res) => (.ok (GetUserByID db1 res.LastInsertId), db1)

/-- `ORDER BY category, name` on two catalog rows: texts compare character by character. -/
def exerciseLE (a b : Exercise) : Prop :=
  a.Category.data < b.Category.data ∨
    (a.Category = b.Category ∧ ¬ b.Name.data < a.Name.data)

instance (a b : Exercise) : Decidable (exerciseLE a b) :=
  inferInstanceAs (Decidable (a.Category.data < b.Category.data ∨
    (a.Category = b.Category ∧ ¬ b.Name.data < a.Name.data)))

/-- `GetExercises`: the whole catalog `ORDER BY category, name`. -/
def GetExercises (db : DB) : List Exercise :=
  db.exercises.insertionSort exerciseLE

/-! ## GetReport -/

/-- SQLite's `we.sets * we.reps * we.weight_kg`.  The product of the two INTEGER columns
is a 64-bit integer, or the REAL product of the two when that overflows; its product with
the REAL column is REAL, and NULL when it is not a number. -/
def sqlVolume (we : WorkoutExerciseRow) : Option Float64 :=
  let p := we.sets * we.reps
  let x :=
    if -(2 ^ 63) ≤ p ∧ p < 2 ^ 63 then Float64.ofInt p
    else (Float64.ofInt we.sets).mul (Float64.ofInt we.reps)
  let v := x.mul we.weight_kg
  if v.isNaN then none else some v

/-- Rows of `workout_exercises we JOIN workouts w ON w.id = we.workout_id
WHERE w.user_id = ? AND w.status = 'completed'`, each as the value of
`we.sets * we.reps * we.weight_kg` when that is not NULL. -/
def volumeRows (db : DB) (userID : Int) : List Float64 :=
  db.workout_exercises.flatMap fun we =>
    (db.workouts.filter fun w =>
        w.id == we.workout_id && w.user_id == userID && w.status == "completed").filterMap
      fun _ => sqlVolume we

/-- An aggregate of the SQLite engine over REAL values. -/
abbrev RealAggregate : Type := List Float64 → Float64

/-- SQL `SUM` scanned into a `sql.NullFloat64`: NULL over no value and when the result is
not a number, otherwise the float64 that the engine's aggregate `SUM` accumulates from the
values. -/
def sumRows (SUM : RealAggregate) (rows : List Float64) : Option Float64 :=
  if rows.isEmpty then none
  else if (SUM rows).isNaN then none
  else some (SUM rows)

/-- SQL `MIN` over texts: NULL over no row, otherwise a least text. -/
def minTimestamp : List SqlTimestamp → Option SqlTimestamp
  | [] => none
  | t :: ts =>
    match minTimestamp ts with
    | none => some t
    | some m => if m.text.data < t.text.data then some m else some t

/-- Rows of `workout_exercises we JOIN exercises e ON e.id = we.exercise_id
JOIN workouts w ON w.id = we.workout_id WHERE w.user_id = ?`, each as
`(we.exercise_id, e.name)`. -/
def usageRows (db : DB) (userID : Int) : List (Int × String) :=
  db.workout_exercises.flatMap fun we =>
    (db.exercises.filter fun e => e.ID == we.exercise_id).flatMap fun e =>
      (db.workouts.filter fun w => w.id == we.workout_id && w.user_id == userID).map
        fun _ => (we.exercise_id, e.Name)

/-- `GROUP BY we.exercise_id ORDER BY COUNT(*) DESC LIMIT 1` with `e.name` selected: a
group with the largest row count and the name on a row of that group.  SQLite leaves the
order among equal counts open; its sorter takes the groups in key order and keeps the one
met last, the group of the largest key. -/
def mostUsed (rows : List (Int × String)) : Option String :=
  let keys := ((rows.map fun r => r.1).dedup).insertionSort (fun a b => b ≤ a)
  match keys.argmax (fun k => rows.countP fun r => r.1 == k) with
  | none => none
  | some k => (rows.find? fun r => r.1 == k).map fun r => r.2

/-- `GetReport`; `now` is the reading of `time.Now()` inside `time.Since`, and `SUM` is
the aggregate of the SQLite engine on REAL values. -/
def GetReport (SUM : RealAggregate) (db : DB) (userID : Int) (now : Time) :
    WorkoutReport :=
  let totalWorkouts : Int := (db.workouts.filter fun w => w.user_id == userID).length
  let completedWorkouts : Int :=
    (db.workouts.filter fun w => w.user_id == userID && w.status == "completed").length
  let totalVolumeKg : Float64 :=
    match sumRows SUM (volumeRows db userID) with
    | some v => v
    | none => Float64.zero
  let firstDate :=
    minTimestamp ((db.workouts.filter fun w => w.user_id == userID).map fun w => w.created_at)
  let avgWorkoutsPerWeek : Float64 :=
    match firstDate with
    | some first =>
      if totalWorkouts > 0 then
        let weeks := (Hours (now.Sub (scanTimestamp first))).div 168
        let weeks := if weeks.lt 1 then 1 else weeks
        (Float64.ofInt totalWorkouts).div weeks
      else Float64.zero
    | none => Float64.zero
  let mostUsedExercise : String :=
    match mostUsed (usageRows db userID) with
    | some name => name
    | none => ""
  { TotalWorkouts := totalWorkouts, CompletedWorkouts := completedWorkouts,
    TotalVolumeKg := totalVolumeKg, AvgWorkoutsPerWeek := avgWorkoutsPerWeek,
    MostUsedExercise := mostUsedExercise, Workouts := ListWorkouts db userID "completed" }

/-! ## handlers/auth.go, handlers/exercises.go, middleware/auth.go -/

/-- Handler of `GET /workouts/report`. -/
def WorkoutHandler.Report (SUM : RealAggregate) (db : DB) (userID : Int)
    (now : Time) : Response :=
  { status := 200, body := .report (GetReport SUM db userID now) }

/-- Handler of `GET /exercises`.  `category` is the `category` query parameter of the
request, which the handler does not read. -/
def ExerciseHandler.List (db : DB) (_category : String) : Response :=
  { status := 200, body := .exercises (GetExercises db) }

/-- Handler of `POST /auth/register`.  `GenerateToken` is `auth.GenerateToken` (its error
is discarded), `bound` the outcome of `c.ShouldBindJSON(&req)`, `hash` the outcome of
`bcrypt.GenerateFromPassword` on the request's password. -/
def AuthHandler.Register (GenerateToken : Int → String → String) (db : DB)
    (bound : Except String RegisterRequest) (hash : Except String String)
    (ts : SqlTimestamp) : Response × DB :=
  match bound with
  | .error err => ({ status := 400, body := .error err }, db)
  | .ok req =>
    match GetUserByEmail db req.Email with
    | some _ => ({ status := 409, body := .error "email already registered" }, db)
    | none =>
      match hash with
      | .error _ => ({ status := 500, body := .error "failed to hash password" }, db)
      | .ok h =>
        match CreateUser db req.Name req.Email h ts with
        | (.error err, db1) => ({ status := 500, body := .error err }, db1)
        | (.ok none, db1) => ({ status := 500, body := .error "nil user" }, db1)
        | (.ok (some user), db1) =>
          ({ status := 201, body := .auth (GenerateToken user.ID user.Email) user }, db1)

/-- Handler of `POST /auth/login`.  `CompareHashAndPassword hash password` is true when
`bcrypt.CompareHashAndPassword` returns no error. -/
def AuthHandler.Login (GenerateToken : Int → String → String)
    (CompareHashAndPassword : String → String → Bool) (db : DB)
    (bound : Except String LoginRequest) : Response :=
  match bound with
  | .error err => { status := 400, body := .error err }
  | .ok req =>
    match GetUserByEmail db req.Email with
    | none => { status := 401, body := .error "invalid credentials" }
    | some user =>
      if CompareHashAndPassword user.PasswordHash req.Password then
        { status := 200, body := .auth (GenerateToken user.ID user.Email) user }
      else { status := 401, body := .error "invalid credentials" }

/-- Handler of `GET /auth/me`. -/
def AuthHandler.Me (db : DB) (userID : Int) : Response :=
  match GetUserByID db userID with
  | none => { status := 404, body := .error "user not found" }
  | some user => { status := 200, body := .user (some user) }

/-- The claims `auth.ValidateToken` returns for a token it accepts. -/
structure Claims where
  UserID : Int
  Email : String
deriving DecidableEq, Repr

/-- `strings.HasPrefix(s, prefix)`. -/
def HasPrefix (s pre : String) : Bool := pre.data.isPrefixOf s.data

/-- `strings.TrimPrefix(s, prefix)`. -/
def TrimPrefix (s pre : String) : String :=
  if HasPrefix s pre then String.mk (s.data.drop pre.data.length) else s

/-- `AuthRequired`.  `ValidateToken` is `auth.ValidateToken`, `header` the value of
`c.GetHeader("Authorization")` (empty when the header is absent), `next` the rest of the
chain run by `c.Next()` with the `userID` and `email` set in the context. -/
def AuthRequired (ValidateToken : String → Except String Claims) (header : String)
    (next : Int → String → DB → Response × DB) (db : DB) : Response × DB :=
  if header == "" || !HasPrefix header "Bearer " then
    ({ status := 401, body := .error "missing token" }, db)
  else
    let token := TrimPrefix header "Bearer "
    match ValidateToken token with
    | .error _ => ({ status := 401, body := .error "invalid token" }, db)
    | .ok claims => next claims.UserID claims.Email db

/-! ## seeder/seeder.go -/

/-- The `seeder.Exercise` record. -/
structure seeder.Exercise where
  Name : String
  Description : String
  Category : String
  MuscleGroup : String
deriving DecidableEq, Repr

/-- The reference list `exercises` of the seeder. -/
def seeder.exercises : List seeder.Exercise :=
  [{ Name := "Bench Press", Description := "Classic compound chest exercise with barbell",
     Category := "strength", MuscleGroup := "chest" },
   { Name := "Push-Up", Description := "Bodyweight chest and tricep exercise",
     Category := "strength", MuscleGroup := "chest" },
   { Name := "Incline Dumbbell Press", Description := "Upper chest focused press",
     Category := "strength", MuscleGroup := "chest" },
   { Name := "Cable Fly", Description := "Isolation chest exercise using cables",
     Category := "strength", MuscleGroup := "chest" },
   { Name := "Pull-Up", Description := "Compound back and bicep bodyweight exercise",
     Category := "strength", MuscleGroup := "back" },
   { Name := "Deadlift", Description := "Full body compound lift targeting posterior chain",
     Category := "strength", MuscleGroup := "back" },
   { Name := "Bent Over Row", Description := "Barbell row for mid and upper back",
     Category := "strength", MuscleGroup := "back" },
   { Name := "Lat Pulldown", Description := "Machine exercise targeting lats",
     Category := "strength", MuscleGroup := "back" },
   { Name := "Squat", Description := "King of lower body exercises",
     Category := "strength", MuscleGroup := "legs" },
   { Name := "Leg Press", Description := "Machine compound leg exercise",
     Category := "strength", MuscleGroup := "legs" },
   { Name := "Romanian Deadlift", Description := "Hamstring focused hip hinge",
     Category := "strength", MuscleGroup := "legs" },
   { Name := "Lunges", Description := "Unilateral leg exercise for quads and glutes",
     Category := "strength", MuscleGroup := "legs" },
   { Name := "Calf Raise", Description := "Isolation exercise for calves",
     Category := "strength", MuscleGroup := "legs" },
   { Name := "Overhead Press", Description := "Compound shoulder pressing movement",
     Category := "strength", MuscleGroup := "shoulders" },
   { Name := "Lateral Raise", Description := "Isolation for medial deltoid",
     Category := "strength", MuscleGroup := "shoulders" },
   { Name := "Front Raise", Description := "Isolation for anterior deltoid",
     Category := "strength", MuscleGroup := "shoulders" },
   { Name := "Face Pull", Description := "Rear delt and rotator cuff exercise",
     Category := "strength", MuscleGroup := "shoulders" },
   { Name := "Bicep Curl", Description := "Isolation exercise for biceps",
     Category := "strength", MuscleGroup := "arms" },
   { Name := "Tricep Dips", Description := "Compound tricep exercise",
     Category := "strength", MuscleGroup := "arms" },
   { Name := "Hammer Curl", Description := "Brachialis and bicep curl variation",
     Category := "strength", MuscleGroup := "arms" },
   { Name := "Skull Crusher", Description := "Tricep isolation with EZ bar",
     Category := "strength", MuscleGroup := "arms" },
   { Name := "Running", Description := "Steady state or interval outdoor run",
     Category := "cardio", MuscleGroup := "full body" },
   { Name := "Cycling", Description := "Stationary or outdoor bike cardio",
     Category := "cardio", MuscleGroup := "legs" },
   { Name := "Jump Rope", Description := "High intensity cardio with rope",
     Category := "cardio", MuscleGroup := "full body" },
   { Name := "Rowing Machine", Description := "Full body cardio on rowing machine",
     Category := "cardio", MuscleGroup := "full body" },
   { Name := "Elliptical", Description := "Low impact full body cardio",
     Category := "cardio", MuscleGroup := "full body" },
   { Name := "Burpees", Description := "High intensity full body cardio",
     Category := "cardio", MuscleGroup := "full body" },
   { Name := "Box Jump", Description := "Explosive plyometric exercise",
     Category := "cardio", MuscleGroup := "legs" },
   { Name := "Yoga Flow", Description := "Dynamic stretching and flexibility routine",
     Category := "flexibility", MuscleGroup := "full body" },
   { Name := "Hip Flexor Stretch", Description := "Static stretch for hip flexors",
     Category := "flexibility", MuscleGroup := "hips" },
   { Name := "Hamstring Stretch", Description := "Static stretch for hamstrings",
     Category := "flexibility", MuscleGroup := "legs" },
   { Name := "Shoulder Mobility", Description := "Shoulder rotation and mobility drills",
     Category := "flexibility", MuscleGroup := "shoulders" },
   { Name := "Pigeon Pose", Description := "Deep hip opener yoga pose",
     Category := "flexibility", MuscleGroup := "hips" },
   { Name := "Foam Rolling", Description := "Self-myofascial release technique",
     Category := "flexibility", MuscleGroup := "full body" }]

/-- `INSERT INTO exercises (name, description, category, muscle_group) VALUES (?,?,?,?)`. -/
def insertExercise (e : seeder.Exercise) (db : DB) : Except String (DB × Result) :=
  let eid := nextRowid db.seq_exercises (db.exercises.map fun x => x.ID)
  let row : Exercise :=
    { ID := eid, Name := e.Name, Description := e.Description, Category := e.Category,
      MuscleGroup := e.MuscleGroup }
  .ok ({ db with exercises := db.exercises ++ [row], seq_exercises := eid },
       { LastInsertId := eid, RowsAffected := 1 })

/-- The loop `for _, e := range exercises { stmt.Exec(...) }` of `SeedExercises`; each
statement runs directly on the database. -/
def seedLoop : DB → List seeder.Exercise → Except String Unit × DB
  | db, [] => (.ok (), db)
  | db, e :: es =>
    match insertExercise e db with
    | .error err => (.error err, db)
    | .ok (db1, _) => seedLoop db1 es

/-- `SeedExercises`: nothing is done when `SELECT COUNT(*) FROM exercises` is positive. -/
def SeedExercises (db : DB) : Except String Unit × DB :=
  let count := db.exercises.length
  if count > 0 then (.ok (), db)
  else seedLoop db seeder.exercises

/-! ## Sample data -/

/-- A `CURRENT_TIMESTAMP` reading. -/
def ts0 : SqlTimestamp :=
  { year := 2024, month := 1, day := 1, hour := 10, minute := 0, second := 0 }

/-- A later `CURRENT_TIMESTAMP` reading. -/
def ts1 : SqlTimestamp :=
  { year := 2024, month := 3, day := 5, hour := 18, minute := 30, second := 0 }

/-- A time with a fractional second, as JSON `2024-01-02T09:30:00.5+05:30` decodes. -/
def tHalf : Time :=
  { year := 2024, month := 1, day := 2, hour := 9, minute := 30, second := 0,
    nsec := 500000000, offset := 330 }

/-- A reading of `time.Now()`. -/
def now1 : Time :=
  { year := 2024, month := 3, day := 5, hour := 18, minute := 30, second := 0,
    nsec := 0, offset := 0 }

/-- Two catalog exercises. -/
def catalog2 : List Exercise :=
  [{ ID := 1, Name := "Bench Press", Description := "Classic compound chest exercise with barbell",
     Category := "strength", MuscleGroup := "chest" },
   { ID := 2, Name := "Push-Up", Description := "Bodyweight chest and tricep exercise",
     Category := "strength", MuscleGroup := "chest" }]

/-- Two registered users, two catalog exercises, no workout. -/
def dbUsers : DB :=
  { DB.empty with
    users := [{ id := 1, name := "A", email := "a@example.com", password_hash := "h1",
                created_at := ts0 },
              { id := 2, name := "B", email := "b@example.com", password_hash := "h2",
                created_at := ts0 }],
    exercises := catalog2, seq_users := 2, seq_exercises := 2 }

/-- Workout 1, owned by user 1. -/
def rowOne : WorkoutRow :=
  { id := 1, user_id := 1, title := "Private", description := "", comment := "",
    status := "pending", scheduled_at := none, completed_at := none,
    created_at := ts0, updated_at := ts0 }

/-- User 1 owns workout 1 with one entry; user 2 owns nothing. -/
def dbOne : DB :=
  { dbUsers with
    workouts := [rowOne],
    workout_exercises := [{ id := 1, workout_id := 1, exercise_id := 1, sets := 3, reps := 10,
                            weight_kg := 60, duration_sec := 0, notes := "" }],
    seq_workouts := 1, seq_workout_exercises := 1 }

/-- An update request with no field supplied (JSON `{}`). -/
def emptyUpdate : UpdateWorkoutRequest :=
  { Title := none, Description := none, Comment := none, Status := none,
    ScheduledAt := none, Exercises := none }

/-- A reading of `time.Now()` one month before `now1`. -/
def now0 : Time :=
  { year := 2024, month := 2, day := 5, hour := 7, minute := 15, second := 0,
    nsec := 0, offset := 0 }

/-- A reading of `time.Now()` that is not on a whole second. -/
def nowFrac : Time :=
  { year := 2024, month := 3, day := 5, hour := 18, minute := 30, second := 0,
    nsec := 123456789, offset := 0 }

/-- The request that created workout 1 of `dbOne`. -/
def createPrivate : CreateWorkoutRequest :=
  { Title := "Private", Description := "", ScheduledAt := none,
    Exercises := [{ ExerciseID := 1, Sets := 3, Reps := 10, WeightKg := 60, DurationSec := 0,
                    Notes := "" }] }

/-- Update request `{"status": "completed"}`. -/
def completeReq : UpdateWorkoutRequest := { emptyUpdate with Status := some "completed" }

/-- Update request `{"title": "New Name"}`. -/
def titleReq : UpdateWorkoutRequest := { emptyUpdate with Title := some "New Name" }

/-- Update request `{"scheduled_at": "2024-01-02T09:30:00.5+05:30"}`. -/
def scheduleReq : UpdateWorkoutRequest := { emptyUpdate with ScheduledAt := some tHalf }

/-- Update request with one entry of exercise 2. -/
def entriesReq : UpdateWorkoutRequest :=
  { emptyUpdate with
    Exercises := some [{ ExerciseID := 2, Sets := 4, Reps := 8, WeightKg := 20,
                         DurationSec := 0, Notes := "slow" }] }

/-- The database after user 1 completed workout 1 of `dbOne` at `now0`. -/
def dbDone : DB := (UpdateWorkout dbOne 1 1 completeReq now0 ts0).2

/-- The database after user 1 renamed workout 1 of `dbOne`. -/
def dbRenamed : DB := (UpdateWorkout dbOne 1 1 titleReq now1 ts1).2

/-- A create request whose second entry names exercise 99, which is not in the catalog. -/
def createBad : CreateWorkoutRequest :=
  { Title := "Pull Day", Description := "", ScheduledAt := none,
    Exercises := [{ ExerciseID := 1, Sets := 3, Reps := 10, WeightKg := 60, DurationSec := 0,
                    Notes := "" },
                  { ExerciseID := 99, Sets := 1, Reps := 1, WeightKg := 0, DurationSec := 0,
                    Notes := "" }] }

/-- An update request with a new title and an entry of exercise 99. -/
def updateBad : UpdateWorkoutRequest :=
  { emptyUpdate with
    Title := some "Renamed",
    Exercises := some [{ ExerciseID := 99, Sets := 1, Reps := 1, WeightKg := 0,
                         DurationSec := 0, Notes := "" }] }

/-! ## Projections used to state the properties -/

/-- Whole seconds of a time: what a `Format(time.RFC3339)` / `time.Parse` round trip keeps. -/
def Time.truncSecond (t : Time) : Time := { t with nsec := 0 }

/-- The submitted fields of a stored entry. -/
def WorkoutExerciseRow.toRequest (r : WorkoutExerciseRow) : WorkoutExerciseRequest :=
  { ExerciseID := r.exercise_id, Sets := r.sets, Reps := r.reps, WeightKg := r.weight_kg,
    DurationSec := r.duration_sec, Notes := r.notes }

/-- The submitted fields of a returned entry. -/
def WorkoutExercise.toRequest (x : WorkoutExercise) : WorkoutExerciseRequest :=
  { ExerciseID := x.ExerciseID, Sets := x.Sets, Reps := x.Reps, WeightKg := x.WeightKg,
    DurationSec := x.DurationSec, Notes := x.Notes }

/-- The stored entries of one workout. -/
def DB.entriesOf (db : DB) (workoutID : Int) : List WorkoutExerciseRow :=
  db.workout_exercises.filter fun we => we.workout_id == workoutID

/-- The stored entries of all other workouts. -/
def DB.entriesNotOf (db : DB) (workoutID : Int) : List WorkoutExerciseRow :=
  db.workout_exercises.filter fun we => !(we.workout_id == workoutID)

/-- What a returned entry must be for a submitted entry `e` of workout `workoutID`: the
submitted fields, the workout's id, and the catalog exercise with the submitted id. -/
def entryMatches (catalog : List Exercise) (workoutID : Int) (e : WorkoutExerciseRequest)
    (x : WorkoutExercise) : Prop :=
  x.toRequest = e ∧ x.WorkoutID = workoutID ∧
    ∃ c ∈ catalog, c.ID = e.ExerciseID ∧ x.Exercise = some c

instance (catalog : List Exercise) (workoutID : Int) (e : WorkoutExerciseRequest)
    (x : WorkoutExercise) : Decidable (entryMatches catalog workoutID e x) := by
  unfold entryMatches
  infer_instance

/-- The rows `ListWorkouts` has to return: those of the user, and of the status when a
status is given. -/
def DB.workoutsOf (db : DB) (userID : Int) (status : String) : List WorkoutRow :=
  db.workouts.filter fun r => decide (r.user_id = userID ∧ (status = "" ∨ r.status = status))

/-- The database after one user sent the given create requests one after the other (the
scenario of `TestListWorkouts`). -/
def createMany (u : Int) : DB → List (CreateWorkoutRequest × SqlTimestamp) → DB
  | db, [] => db
  | db, (req, ts) :: rest => createMany u (CreateWorkout db u req ts).2 rest

/-- Constraints of the schema that the properties below rely on: the PRIMARY KEY of
`exercises` and of `workouts`, the FOREIGN KEY from `workout_exercises` to `workouts`, and
the AUTOINCREMENT counter of `workout_exercises` being at least every key in use. -/
def DB.Consistent (db : DB) : Prop :=
  (db.exercises.map fun e => e.ID).Nodup ∧
  (db.workouts.map fun r => r.id).Nodup ∧
  (∀ e ∈ db.workout_exercises, ∃ r ∈ db.workouts, r.id = e.workout_id) ∧
  (∀ e ∈ db.workout_exercises, e.id ≤ db.seq_workout_exercises)

instance (db : DB) : Decidable db.Consistent := by
  unfold DB.Consistent
  infer_instance

/-- A statement keeps the schema constraints. -/
def Keeps (stmt : DB → Except String (DB × Result)) : Prop :=
  ∀ db db1 res, db.Consistent → stmt db = .ok (db1, res) → db1.Consistent

/-! ## Sample data for the report, the account handlers and the middleware -/

/-- A scheduled time `2024-01-01T10:00:00+05:30`, the instant 04:30 UTC. -/
def tEast : Time :=
  { year := 2024, month := 1, day := 1, hour := 10, minute := 0, second := 0,
    nsec := 0, offset := 330 }

/-- A scheduled time `2024-01-01T09:00:00Z`. -/
def tUtc : Time :=
  { year := 2024, month := 1, day := 1, hour := 9, minute := 0, second := 0,
    nsec := 0, offset := 0 }

/-- Create request `{"title": "East", "scheduled_at": "2024-01-01T10:00:00+05:30"}`. -/
def createEast : CreateWorkoutRequest :=
  { Title := "East", Description := "", ScheduledAt := some tEast, Exercises := [] }

/-- Create request `{"title": "Utc", "scheduled_at": "2024-01-01T09:00:00Z"}`. -/
def createUtc : CreateWorkoutRequest :=
  { Title := "Utc", Description := "", ScheduledAt := some tUtc, Exercises := [] }

/-- Create request `{"title": "Unscheduled"}`. -/
def createPlain : CreateWorkoutRequest :=
  { Title := "Unscheduled", Description := "", ScheduledAt := none, Exercises := [] }

/-- A `CURRENT_TIMESTAMP` reading on 2024-01-01 at 09:30:00, after `tUtc`. -/
def tsLate : SqlTimestamp :=
  { year := 2024, month := 1, day := 1, hour := 9, minute := 30, second := 0 }

/-- User 1 of `dbUsers` after `POST /workouts` with `createEast` and then `createUtc`. -/
def dbZones : DB := createMany 1 dbUsers [(createEast, ts0), (createUtc, ts0)]

/-- User 1 of `dbUsers` after `POST /workouts` with `createUtc` and then, at 09:30:00,
with `createPlain`. -/
def dbMixed : DB := createMany 1 dbUsers [(createUtc, ts0), (createPlain, tsLate)]

/-- A catalog with two strength exercises and one cardio exercise of the seed list. -/
def dbCatalog : DB :=
  { DB.empty with
    exercises := catalog2 ++
      [{ ID := 3, Name := "Running", Description := "Steady state or interval outdoor run",
         Category := "cardio", MuscleGroup := "full body" }],
    seq_exercises := 3 }

/-- A token generator. -/
def sampleToken (userID : Int) (email : String) : String :=
  "token-" ++ email ++ (if userID == 1 then "-1" else "-n")

/-- A password check that accepts the password `secret1` for the hash `h1`. -/
def sampleCompare (hash password : String) : Bool := hash == "h1" && password == "secret1"

/-- A token validation that accepts the token `good` as user 1. -/
def sampleValidate (token : String) : Except String Claims :=
  if token == "good" then .ok { UserID := 1, Email := "a@example.com" }
  else .error "token is malformed"

/-- Registration of the email of user 1 of `dbUsers` under another name. -/
def registerAgain : RegisterRequest :=
  { Name := "Intruder", Email := "a@example.com", Password := "password123" }

/-! ## Statement helpers for ordering, deletion and reachability -/

/-- The time a workout is listed under: the scheduled time when one is set, the creation
time otherwise. -/
def Workout.effectiveTime (w : Workout) : Time :=
  match w.ScheduledAt with
  | some t => t
  | none => w.CreatedAt

/-- Non-decreasing chronological order of the effective times: no workout is listed
before one of an earlier instant. -/
def chronological (ws : List Workout) : Prop :=
  ws.Pairwise fun a b => a.effectiveTime.UnixNano ≤ b.effectiveTime.UnixNano

instance (ws : List Workout) : Decidable (chronological ws) :=
  inferInstanceAs (Decidable
    (ws.Pairwise fun (a b : Workout) => a.effectiveTime.UnixNano ≤ b.effectiveTime.UnixNano))

/-- One call of the API that can change the database, with its clock readings. -/
inductive Op where
  | register (name email hash : String) (ts : SqlTimestamp)
  | create (userID : Int) (req : CreateWorkoutRequest) (ts : SqlTimestamp)
  | update (id userID : Int) (req : UpdateWorkoutRequest) (now : Time) (ts : SqlTimestamp)
  | delete (id userID : Int)
deriving DecidableEq, Repr

/-- The database after one call. -/
def Op.apply (db : DB) : Op → DB
  | .register name email hash ts => (CreateUser db name email hash ts).2
  | .create userID req ts => (CreateWorkout db userID req ts).2
  | .update id userID req now ts => (UpdateWorkout db id userID req now ts).2
  | .delete id userID => (DeleteWorkout db id userID).2

/-- The database after a sequence of calls. -/
def run (db : DB) (ops : List Op) : DB := ops.foldl Op.apply db

/-- The status strings of the data model. -/
def validStatus (s : String) : Prop := s = "pending" ∨ s = "active" ∨ s = "completed"

instance (s : String) : Decidable (validStatus s) :=
  inferInstanceAs (Decidable (s = "pending" ∨ s = "active" ∨ s = "completed"))

/-- The status a call writes, if it supplies one. -/
def Op.suppliedStatus : Op → Option String
  | .update _ _ req _ _ => req.Status
  | _ => none

/-- Register a user, create a workout, set its status to `banana`. -/
def opsBanana : List Op :=
  [.register "A" "a@example.com" "h1" ts0,
   .create 1 createPlain ts0,
   .update 1 1 { emptyUpdate with Status := some "banana" } now1 ts1]

/-! ## Statement helpers for the report -/

/-- The workout of an entry belongs to the user. -/
def DB.ownsEntry (db : DB) (userID : Int) (e : WorkoutExerciseRow) : Bool :=
  db.workouts.any fun w => w.id == e.workout_id && w.user_id == userID

/-- Number of entries of the user's workouts that name exercise `k`. -/
def DB.usageCount (db : DB) (userID : Int) (k : Int) : Nat :=
  db.workout_exercises.countP fun e => e.exercise_id == k && db.ownsEntry userID e

/-- Leap years of the Gregorian calendar. -/
def isLeapYear (y : Nat) : Bool := y % 4 == 0 && (y % 100 != 0 || y % 400 == 0)

/-- Number of days of a year. -/
def daysInYear (y : Nat) : Nat := if isLeapYear y then 366 else 365

/-- Number of days of a month. -/
def daysInMonth (y m : Nat) : Nat :=
  if m = 2 then (if isLeapYear y then 29 else 28)
  else if m = 4 ∨ m = 6 ∨ m = 9 ∨ m = 11 then 30
  else 31

/-- Days from 1 January 1970 to a date, counted calendar year by calendar year and month
by month: the days of the years before `y` and of the months of `y` before `m`, and the
days of the month before `d`, less the 719528 days of the years 0 to 1969. -/
def dayNumber (y m d : Nat) : Int :=
  ((((List.range y).map daysInYear).sum +
      ((List.range' 1 (m - 1)).map (daysInMonth y)).sum + (d - 1) : Nat) : Int) - 719528

/-- A calendar date with a time of day. -/
def validCivil (y m d : Nat) : Prop := 1 ≤ y ∧ 1 ≤ m ∧ m ≤ 12 ∧ 1 ≤ d

instance (y m d : Nat) : Decidable (validCivil y m d) :=
  inferInstanceAs (Decidable (1 ≤ y ∧ 1 ≤ m ∧ m ≤ 12 ∧ 1 ≤ d))

/-- Nanoseconds from a `CURRENT_TIMESTAMP` reading (UTC) to the instant `now`, by the
calendar. -/
def elapsedNanos (now : Time) (first : SqlTimestamp) : Int :=
  ((dayNumber now.year now.month now.day - dayNumber first.year first.month first.day) * 86400
    + ((now.hour : Int) - first.hour) * 3600 + ((now.minute : Int) - first.minute) * 60
    + ((now.second : Int) - first.second) - now.offset * 60) * 1000000000 + now.nsec

/-- A `time.Duration` holds at most 2 ^ 63 - 1 nanoseconds (about 292 years) either way. -/
def toDuration (d : Int) : Int :=
  max (-(2 ^ 63)) (min (2 ^ 63 - 1) d)

/-- An aggregate that adds the values in row order, starting from 0.  SQLite's own `SUM`
may accumulate differently (recent releases carry a compensation term); the properties of
`GetReport` are stated for every aggregate, and this one stands in where a concrete one is
evaluated. -/
def plainSum (rows : List Float64) : Float64 := rows.foldl Float64.add Float64.zero

/-- The creation timestamps of a user's workouts. -/
def DB.createdAts (db : DB) (userID : Int) : List SqlTimestamp :=
  (db.workouts.filter fun w => w.user_id == userID).map fun w => w.created_at

/-- User 1 has a completed workout with two entries and a pending one with one entry;
user 2 has a completed workout with one entry. -/
def dbReport : DB :=
  { dbUsers with
    workouts :=
      [{ rowOne with status := "completed" },
       { rowOne with id := 2, title := "Planned" },
       { rowOne with id := 3, user_id := 2, status := "completed" }],
    workout_exercises :=
      [{ id := 1, workout_id := 1, exercise_id := 1, sets := 3, reps := 10, weight_kg := 60,
         duration_sec := 0, notes := "" },
       { id := 2, workout_id := 1, exercise_id := 2, sets := 2, reps := 15, weight_kg := 0,
         duration_sec := 0, notes := "" },
       { id := 3, workout_id := 2, exercise_id := 2, sets := 5, reps := 5, weight_kg := 100,
         duration_sec := 0, notes := "" },
       { id := 4, workout_id := 3, exercise_id := 1, sets := 1, reps := 1, weight_kg := 500,
         duration_sec := 0, notes := "" }],
    seq_workouts := 3, seq_workout_exercises := 4 }

/-- The fields of a `CURRENT_TIMESTAMP` text from the year down to the second; their
lexicographic order is the chronological order of UTC timestamps. -/
def SqlTimestamp.fields (t : SqlTimestamp) : List Nat :=
  [t.year, t.month, t.day, t.hour, t.minute, t.second]

/-- Every field fits the width it is written in. -/
def SqlTimestamp.fits (t : SqlTimestamp) : Prop :=
  t.year < 10000 ∧ t.month < 100 ∧ t.day < 100 ∧ t.hour < 100 ∧ t.minute < 100 ∧
    t.second < 100

instance (t : SqlTimestamp) : Decidable t.fits :=
  inferInstanceAs (Decidable (t.year < 10000 ∧ t.month < 100 ∧ t.day < 100 ∧ t.hour < 100 ∧
    t.minute < 100 ∧ t.second < 100))

/-! ## Statement helpers for seeding and for the completion timestamp -/

/-- The seeded fields of a catalog row. -/
def Exercise.toSeed (x : Exercise) : seeder.Exercise :=
  { Name := x.Name, Description := x.Description, Category := x.Category,
    MuscleGroup := x.MuscleGroup }

/-- Every workout has a completed timestamp exactly when its status is `completed`. -/
def DB.completedIffStamped (db : DB) : Prop :=
  ∀ r ∈ db.workouts, (r.completed_at ≠ none ↔ r.status = "completed")

instance (db : DB) : Decidable db.completedIffStamped :=
  inferInstanceAs (Decidable
    (∀ r ∈ db.workouts, (r.completed_at ≠ none ↔ r.status = "completed")))

/-- Update request `{"status": "active"}`. -/
def activeReq : UpdateWorkoutRequest := { emptyUpdate with Status := some "active" }

/-- Register a user, create a workout, complete it, rename it, move it back to `active`. -/
def opsLifecycle : List Op :=
  [.register "A" "a@example.com" "h1" ts0,
   .create 1 createPlain ts0,
   .update 1 1 completeReq now0 ts0,
   .update 1 1 titleReq now1 ts1,
   .update 1 1 activeReq now1 ts1]

/-! ## Sample data for the report -/

/-- The store of a fresh server: the seeded catalog and nothing else. -/
def dbSeeded : DB := (SeedExercises DB.empty).2

/-- On a fresh server a user registers and creates one workout, at `ts0`. -/
def dbFirst : DB :=
  run dbSeeded [.register "A" "a@example.com" "h1" ts0, .create 1 createPlain ts0]

/-- A reading of `time.Now()` 15 days after `ts0`. -/
def nowDay15 : Time :=
  { year := 2024, month := 1, day := 16, hour := 10, minute := 0, second := 0, nsec := 0,
    offset := 0 }

/-- A reading of `time.Now()` 3 days after `ts0`. -/
def nowDay3 : Time :=
  { year := 2024, month := 1, day := 4, hour := 10, minute := 0, second := 0, nsec := 0,
    offset := 0 }

/-- Register a user, create a workout with an entry, set its status to `banana`. -/
def opsBananaEntry : List Op :=
  [.register "A" "a@example.com" "h1" ts0,
   .create 1 createPrivate ts0,
   .update 1 1 { emptyUpdate with Status := some "banana" } now1 ts1]

/-! ## Reads -/

theorem GetWorkoutByID_eq_none_iff (db : DB) (id u : Int) :
    GetWorkoutByID db id u = none ↔ ∀ r ∈ db.workouts, r.id = id → r.user_id ≠ u := by
  unfold GetWorkoutByID
  constructor
  · intro h r hr hid hu
    cases hf : db.workouts.find? (fun r => r.id == id && r.user_id == u) with
    | none =>
      have := List.find?_eq_none.mp hf r hr
      simp [hid, hu] at this
    | some r' => simp [hf] at h
  · intro h
    have hf : db.workouts.find? (fun r => r.id == id && r.user_id == u) = none := by
      apply List.find?_eq_none.mpr
      intro r hr
      simp only [Bool.and_eq_true, beq_iff_eq, not_and]
      exact h r hr
    simp [hf]

theorem GetWorkoutByID_eq_some (db : DB) (id u : Int) (w : Workout)
    (h : GetWorkoutByID db id u = some w) :
    ∃ r ∈ db.workouts, r.id = id ∧ r.user_id = u ∧
      w = scanWorkout r (getWorkoutExercises db id) := by
  unfold GetWorkoutByID at h
  cases hf : db.workouts.find? (fun r => r.id == id && r.user_id == u) with
  | none => simp [hf] at h
  | some r =>
    simp only [hf, Option.some.injEq] at h
    have hp := List.find?_some hf
    have hm := List.mem_of_find?_eq_some hf
    simp only [Bool.and_eq_true, beq_iff_eq] at hp
    exact ⟨r, hm, hp.1, hp.2, h.symm⟩

/-- C1: fetching a workout by id as user `u` is Not Found (`nil` from `GetWorkoutByID`,
404 with the body `workout not found` from `GET /workouts/:id`) whenever no workout with
that id is owned by `u`; the response for an id owned by another user equals the
response for an id that exists nowhere; and a workout is returned only from a row with
that id whose `user_id` is `u`. -/
theorem get_workout_not_found_unless_owned (db db' : DB) (id u : Int) (p : String)
    (hp : ParseInt p = some id) :
    ((∀ r ∈ db.workouts, r.id = id → r.user_id ≠ u) →
      GetWorkoutByID db id u = none ∧
      WorkoutHandler.Get db u p = { status := 404, body := .error "workout not found" }) ∧
    ((∃ r ∈ db.workouts, r.id = id ∧ r.user_id ≠ u) →
      (∀ r ∈ db.workouts, r.id = id → r.user_id ≠ u) →
      (∀ r ∈ db'.workouts, r.id ≠ id) →
      GetWorkoutByID db id u = GetWorkoutByID db' id u ∧
      WorkoutHandler.Get db u p = WorkoutHandler.Get db' u p) ∧
    (∀ w, GetWorkoutByID db id u = some w →
      w.ID = id ∧ w.UserID = u ∧
      ∃ r ∈ db.workouts, r.id = id ∧ r.user_id = u ∧
        w = scanWorkout r (getWorkoutExercises db id)) ∧
    ((WorkoutHandler.Get db u p).status = 200 →
      ∃ r ∈ db.workouts, r.id = id ∧ r.user_id = u ∧
        WorkoutHandler.Get db u p =
          { status := 200,
            body := .workout (some (scanWorkout r (getWorkoutExercises db id))) }) := by
  refine ⟨?_, ?_, ?_, ?_⟩
  · intro h
    have hn := (GetWorkoutByID_eq_none_iff db id u).mpr h
    exact ⟨hn, by simp [WorkoutHandler.Get, hp, hn]⟩
  · intro _ h h'
    have hn := (GetWorkoutByID_eq_none_iff db id u).mpr h
    have hn' := (GetWorkoutByID_eq_none_iff db' id u).mpr
      (fun r hr hid => absurd hid (h' r hr))
    exact ⟨by rw [hn, hn'], by simp [WorkoutHandler.Get, hp, hn, hn']⟩
  · intro w hw
    obtain ⟨r, hr, hid, hu, hw'⟩ := GetWorkoutByID_eq_some db id u w hw
    refine ⟨?_, ?_, r, hr, hid, hu, hw'⟩
    · rw [hw']; exact hid
    · rw [hw']; exact hu
  · intro hs
    cases hg : GetWorkoutByID db id u with
    | none => simp [WorkoutHandler.Get, hp, hg] at hs
    | some w =>
      obtain ⟨r, hr, hid, hu, hw'⟩ := GetWorkoutByID_eq_some db id u w hg
      exact ⟨r, hr, hid, hu, by simp [WorkoutHandler.Get, hp, hg, hw']⟩

/-- C1 at user 2 asking for workout 1 of user 1, against a database with no workout. -/
theorem get_workout_not_found_unless_owned_witness :
    ParseInt "1" = some 1 ∧
    WorkoutHandler.Get dbOne 2 "1" = { status := 404, body := .error "workout not found" } ∧
    WorkoutHandler.Get dbOne 2 "1" = WorkoutHandler.Get dbUsers 2 "1" ∧
    (WorkoutHandler.Get dbOne 1 "1").status = 200 := by
  have h := get_workout_not_found_unless_owned dbOne dbUsers 1 2 "1" (by rfl)
  refine ⟨by rfl, (h.1 (by decide)).2, (h.2.1 (by decide) (by decide) (by decide)).2, by rfl⟩


/-! ## Update and delete of a workout that is not the caller's -/

theorem DeleteWorkout_not_owned (db : DB) (id u : Int)
    (h : ∀ r ∈ db.workouts, r.id = id → r.user_id ≠ u) :
    DeleteWorkout db id u = (.error "workout not found", db) := by
  have hc : db.workouts.countP (fun r => r.id == id && r.user_id == u) = 0 := by
    rw [List.countP_eq_zero]
    intro r hr
    simp only [Bool.and_eq_true, beq_iff_eq, not_and]
    exact h r hr
  have hf : db.workouts.filter (fun r => !(r.id == id && r.user_id == u)) = db.workouts := by
    rw [List.filter_eq_self]
    intro r hr
    have := h r hr
    simp only [Bool.not_eq_true', Bool.and_eq_false_imp, beq_iff_eq, beq_eq_false_iff_ne]
    exact this
  simp only [DeleteWorkout, deleteWorkout, hc, hf]
  rfl

theorem Update_not_owned (db : DB) (id u : Int) (p : String) (req : UpdateWorkoutRequest)
    (now : Time) (ts : SqlTimestamp) (hp : ParseInt p = some id)
    (h : ∀ r ∈ db.workouts, r.id = id → r.user_id ≠ u) :
    WorkoutHandler.Update db u p (.ok req) now ts =
      ({ status := 500, body := .error "workout not found" }, db) := by
  have hn := (GetWorkoutByID_eq_none_iff db id u).mpr h
  simp [WorkoutHandler.Update, hp, UpdateWorkout, hn, Tx.Rollback, Begin]

/-- C2 (the code at the failing input): user 2 sends `PUT /workouts/1` with the body `{}`
while workout 1 belongs to user 1.  `UpdateWorkout` returns the error `workout not found`,
the handler answers 500 and not 404, and the database is unchanged. -/
theorem update_not_owned_answers_500 :
    GetWorkoutByID dbOne 1 2 = none ∧
    UpdateWorkout dbOne 1 2 emptyUpdate now1 ts1 = (.error "workout not found", dbOne) ∧
    WorkoutHandler.Update dbOne 2 "1" (.ok emptyUpdate) now1 ts1 =
      ({ status := 500, body := .error "workout not found" }, dbOne) ∧
    (WorkoutHandler.Update dbOne 2 "1" (.ok emptyUpdate) now1 ts1).1.status ≠ 404 := by
  refine ⟨by rfl, by rfl, by rfl, by decide⟩

/-- C3: when no workout with the id is owned by the user, `DeleteWorkout` fails with
`workout not found`, `DELETE /workouts/:id` answers 404, and the database is the one
before the call; in particular every workout with that id (owned by somebody else) and
every exercise entry of it is still there. -/
theorem delete_not_owned_is_not_found (db : DB) (id u : Int) (p : String)
    (hp : ParseInt p = some id)
    (h : ∀ r ∈ db.workouts, r.id = id → r.user_id ≠ u) :
    (DeleteWorkout db id u).1 = .error "workout not found" ∧
    (DeleteWorkout db id u).2 = db ∧
    WorkoutHandler.Delete db u p =
      ({ status := 404, body := .error "workout not found" }, db) ∧
    (∀ r ∈ db.workouts, r.id = id → r ∈ (WorkoutHandler.Delete db u p).2.workouts) ∧
    (∀ e ∈ db.workout_exercises, e.workout_id = id →
      e ∈ (WorkoutHandler.Delete db u p).2.workout_exercises) := by
  have hd := DeleteWorkout_not_owned db id u h
  have hh : WorkoutHandler.Delete db u p =
      ({ status := 404, body := .error "workout not found" }, db) := by
    simp [WorkoutHandler.Delete, hp, hd]
  refine ⟨by rw [hd], by rw [hd], hh, ?_, ?_⟩
  · intro r hr _; rw [hh]; exact hr
  · intro e he _; rw [hh]; exact he

/-- C3 at user 2 deleting workout 1 of user 1. -/
theorem delete_not_owned_is_not_found_witness :
    ParseInt "1" = some 1 ∧
    (∀ r ∈ dbOne.workouts, r.id = 1 → r.user_id ≠ 2) ∧
    WorkoutHandler.Delete dbOne 2 "1" =
      ({ status := 404, body := .error "workout not found" }, dbOne) :=
  ⟨by rfl, by decide,
   (delete_not_owned_is_not_found dbOne 1 2 "1" (by rfl) (by decide)).2.2.1⟩

/-! ## Transactions -/

theorem Parse_Format (t : Time) : Parse (Format t) = t.truncSecond := rfl

theorem Format_Parse (s : RFC3339Text) : Format (Parse s) = s := rfl

theorem Exec_committed (tx : Tx) (stmt : DB → Except String (DB × Result)) :
    (tx.Exec stmt).1.committed = tx.committed := by
  unfold Tx.Exec
  split <;> rfl

theorem insertExercises_committed (wid : Int) :
    ∀ (es : List WorkoutExerciseRequest) (tx : Tx),
      (insertExercises wid tx es).1.committed = tx.committed
  | [], tx => rfl
  | e :: es, tx => by
    have h1 := Exec_committed tx (insertWorkoutExercise wid e)
    unfold insertExercises
    split
    · next tx1 err heq => rw [heq] at h1; exact h1
    · next tx1 res heq =>
      rw [heq] at h1
      rw [insertExercises_committed wid es tx1]; exact h1

theorem replaceExercises_committed (id : Int) (tx : Tx)
    (exs : Option (List WorkoutExerciseRequest)) :
    (replaceExercises id tx exs).1.committed = tx.committed := by
  cases exs with
  | none => rfl
  | some es =>
    have h1 := Exec_committed tx (deleteWorkoutExercises id)
    simp only [replaceExercises]
    split
    · next tx1 err heq => rw [heq] at h1; exact h1
    · next tx1 res heq =>
      rw [heq] at h1
      rw [insertExercises_committed id es tx1]; exact h1

theorem foldl_max_bounds : ∀ (ids : List Int) (init : Int),
    init ≤ ids.foldl max init ∧ ∀ x ∈ ids, x ≤ ids.foldl max init
  | [], init => ⟨le_refl _, by simp⟩
  | a :: t, init => by
    obtain ⟨h1, h2⟩ := foldl_max_bounds t (max init a)
    simp only [List.foldl_cons]
    refine ⟨le_trans (le_max_left _ _) h1, ?_⟩
    intro x hx
    rcases List.mem_cons.mp hx with rfl | hmem
    · exact le_trans (le_max_right _ _) h1
    · exact h2 x hmem

theorem le_maxRowid (ids : List Int) (x : Int) (hx : x ∈ ids) : x ≤ maxRowid ids :=
  (foldl_max_bounds ids 0).2 x hx

theorem nextRowid_gt_seq (seq : Int) (ids : List Int) : seq < nextRowid seq ids := by
  unfold nextRowid
  have := le_max_left seq (maxRowid ids)
  omega

theorem nextRowid_gt_mem (seq : Int) (ids : List Int) (x : Int) (hx : x ∈ ids) :
    x < nextRowid seq ids := by
  unfold nextRowid
  have h1 := le_maxRowid ids x hx
  have h2 := le_max_right seq (maxRowid ids)
  omega

theorem insertWorkoutExercise_ok (wid : Int) (e : WorkoutExerciseRequest) (tx tx1 : Tx)
    (res : Result) (h : tx.Exec (insertWorkoutExercise wid e) = (tx1, .ok res)) :
    (∃ x ∈ tx.pending.exercises, x.ID = e.ExerciseID) ∧
    ∃ row : WorkoutExerciseRow,
      row.toRequest = e ∧ row.workout_id = wid ∧
      row.id = nextRowid tx.pending.seq_workout_exercises
        (tx.pending.workout_exercises.map fun r => r.id) ∧
      tx1 = { tx with pending :=
        { tx.pending with
          workout_exercises := tx.pending.workout_exercises ++ [row],
          seq_workout_exercises := row.id } } := by
  unfold Tx.Exec insertWorkoutExercise at h
  by_cases hc : (tx.pending.workouts.any (fun r => r.id == wid) &&
      tx.pending.exercises.any (fun x => x.ID == e.ExerciseID)) = true
  · simp only [hc, if_true] at h
    simp only [Prod.mk.injEq, Except.ok.injEq] at h
    simp only [Bool.and_eq_true, List.any_eq_true, beq_iff_eq] at hc
    refine ⟨hc.2, _, ?_, ?_, ?_, h.1.symm⟩ <;> rfl
  · simp only [hc] at h
    simp at h

theorem insertExercises_ok (wid : Int) :
    ∀ (es : List WorkoutExerciseRequest) (tx tx' : Tx),
      insertExercises wid tx es = (tx', .ok ()) →
      (∀ e ∈ es, ∃ x ∈ tx.pending.exercises, x.ID = e.ExerciseID) ∧
      ∃ (rows : List WorkoutExerciseRow) (seq : Int),
        rows.map WorkoutExerciseRow.toRequest = es ∧
        (∀ r ∈ rows, r.workout_id = wid) ∧
        tx.pending.seq_workout_exercises ≤ seq ∧
        (∀ r ∈ rows, tx.pending.seq_workout_exercises < r.id ∧ r.id ≤ seq) ∧
        tx' = { tx with pending :=
          { tx.pending with
            workout_exercises := tx.pending.workout_exercises ++ rows,
            seq_workout_exercises := seq } }
  | [], tx, tx', h => by
    simp only [insertExercises, Prod.mk.injEq, and_true] at h
    refine ⟨by simp, [], tx.pending.seq_workout_exercises, rfl, by simp, le_refl _, by simp, ?_⟩
    subst h
    simp
  | e :: es, tx, tx', h => by
    unfold insertExercises at h
    split at h
    · simp at h
    · next tx1 res heq =>
      obtain ⟨hx, row, hrow, hwid, hid, htx1⟩ := insertWorkoutExercise_ok wid e tx tx1 res heq
      obtain ⟨hall, rows, seq, hmap, hw, hseq, hids, htx'⟩ :=
        insertExercises_ok wid es tx1 tx' h
      subst htx1
      have hlt : tx.pending.seq_workout_exercises < row.id := by
        rw [hid]; exact nextRowid_gt_seq _ _
      simp only at hseq hids
      refine ⟨?_, row :: rows, seq, ?_, ?_, ?_, ?_, ?_⟩
      · intro e' he'
        rcases List.mem_cons.mp he' with rfl | hmem
        · exact hx
        · exact hall e' hmem
      · simp [hrow, hmap]
      · intro r hr
        rcases List.mem_cons.mp hr with rfl | hmem
        · exact hwid
        · exact hw r hmem
      · omega
      · intro r hr
        rcases List.mem_cons.mp hr with rfl | hmem
        · exact ⟨hlt, hseq⟩
        · have := hids r hmem
          omega
      · rw [htx']; simp

theorem insertExercises_succeeds (wid : Int) :
    ∀ (es : List WorkoutExerciseRequest) (tx : Tx),
      (∃ r ∈ tx.pending.workouts, r.id = wid) →
      (∀ e ∈ es, ∃ x ∈ tx.pending.exercises, x.ID = e.ExerciseID) →
      ∃ tx', insertExercises wid tx es = (tx', .ok ())
  | [], tx, _, _ => ⟨tx, rfl⟩
  | e :: es, tx, hw, hall => by
    have hc : (tx.pending.workouts.any (fun r => r.id == wid) &&
        tx.pending.exercises.any (fun x => x.ID == e.ExerciseID)) = true := by
      simp only [Bool.and_eq_true, List.any_eq_true, beq_iff_eq]
      exact ⟨hw, hall e (List.mem_cons_self _ _)⟩
    have hex : ∃ tx1 res, tx.Exec (insertWorkoutExercise wid e) = (tx1, .ok res) ∧
        tx1.pending.workouts = tx.pending.workouts ∧
        tx1.pending.exercises = tx.pending.exercises := by
      unfold Tx.Exec insertWorkoutExercise
      simp only [hc, if_true]
      exact ⟨_, _, rfl, rfl, rfl⟩
    obtain ⟨tx1, res, h1, hws, hxs⟩ := hex
    have ih := insertExercises_succeeds wid es tx1 (by rw [hws]; exact hw)
      (by rw [hxs]; exact fun e' he' => hall e' (List.mem_cons_of_mem _ he'))
    obtain ⟨tx', h'⟩ := ih
    refine ⟨tx', ?_⟩
    unfold insertExercises
    rw [h1]
    exact h'

/-! ## UpdateWorkout -/

theorem GetWorkoutByID_eq_some_iff (db : DB) (id u : Int) (w : Workout) :
    GetWorkoutByID db id u = some w ↔
      ∃ r, db.workouts.find? (fun r => r.id == id && r.user_id == u) = some r ∧
        w = scanWorkout r (getWorkoutExercises db id) := by
  unfold GetWorkoutByID
  cases hf : db.workouts.find? (fun r => r.id == id && r.user_id == u) with
  | none => simp
  | some r =>
    simp only [Option.some.injEq]
    constructor
    · intro h; exact ⟨r, rfl, h.symm⟩
    · rintro ⟨r', hr', hw⟩; rw [hw, hr']

theorem find?_map_update (ws : List WorkoutRow) (id u : Int) (g : WorkoutRow → WorkoutRow)
    (hg : ∀ r, (g r).id = r.id ∧ (g r).user_id = r.user_id) :
    (ws.map fun r => if (r.id == id && r.user_id == u) = true then g r else r).find?
        (fun r => r.id == id && r.user_id == u) =
      (ws.find? (fun r => r.id == id && r.user_id == u)).map g := by
  induction ws with
  | nil => rfl
  | cons a t ih =>
    simp only [List.map_cons, List.find?_cons]
    cases hc : (a.id == id && a.user_id == u) with
    | true => simp [(hg a).1, (hg a).2, hc]
    | false => simpa [hc] using ih

theorem replaceExercises_ok (id : Int) (tx tx2 : Tx)
    (exs : Option (List WorkoutExerciseRequest))
    (h : replaceExercises id tx exs = (tx2, .ok ())) :
    tx2.pending.users = tx.pending.users ∧
    tx2.pending.exercises = tx.pending.exercises ∧
    tx2.pending.workouts = tx.pending.workouts ∧
    (exs = none → tx2.pending.workout_exercises = tx.pending.workout_exercises) ∧
    (∀ L, exs = some L →
      (∀ e ∈ L, ∃ x ∈ tx.pending.exercises, x.ID = e.ExerciseID) ∧
      ∃ rows : List WorkoutExerciseRow,
        rows.map WorkoutExerciseRow.toRequest = L ∧
        (∀ r ∈ rows, r.workout_id = id) ∧
        (∀ r ∈ rows, tx.pending.seq_workout_exercises < r.id) ∧
        tx2.pending.workout_exercises = tx.pending.entriesNotOf id ++ rows) := by
  cases exs with
  | none =>
    simp only [replaceExercises, Prod.mk.injEq, and_true] at h
    subst h
    simp
  | some es =>
    simp only [replaceExercises, Tx.Exec, deleteWorkoutExercises] at h
    obtain ⟨hall, rows, seq, hmap, hw, _, hids, htx⟩ := insertExercises_ok id es _ tx2 h
    subst htx
    refine ⟨rfl, rfl, rfl, by simp, ?_⟩
    intro L hL
    simp only [Option.some.injEq] at hL
    subst hL
    exact ⟨hall, rows, hmap, hw, fun r hr => (hids r hr).1, rfl⟩

theorem UpdateWorkout_ok (db db1 : DB) (id u : Int) (req : UpdateWorkoutRequest) (now : Time)
    (ts : SqlTimestamp) (res : Option Workout)
    (h : UpdateWorkout db id u req now ts = (.ok res, db1)) :
    ∃ r0 r1 : WorkoutRow,
      db.workouts.find? (fun r => r.id == id && r.user_id == u) = some r0 ∧
      db1.workouts.find? (fun r => r.id == id && r.user_id == u) = some r1 ∧
      res = some (scanWorkout r1 (getWorkoutExercises db1 id)) ∧
      r1.id = id ∧ r1.user_id = u ∧
      r1.title = req.Title.getD r0.title ∧
      r1.description = req.Description.getD r0.description ∧
      r1.comment = req.Comment.getD r0.comment ∧
      r1.status = req.Status.getD r0.status ∧
      r1.scheduled_at = (match req.ScheduledAt with
        | some t => some (Format t)
        | none => r0.scheduled_at) ∧
      r1.completed_at = (if r1.status = "completed" then some (Format now) else none) ∧
      r1.created_at = r0.created_at ∧ r1.updated_at = ts ∧
      db1.users = db.users ∧ db1.exercises = db.exercises ∧
      (req.Exercises = none → db1.workout_exercises = db.workout_exercises) ∧
      (∀ L, req.Exercises = some L →
        (∀ e ∈ L, ∃ x ∈ db.exercises, x.ID = e.ExerciseID) ∧
        ∃ rows : List WorkoutExerciseRow,
          rows.map WorkoutExerciseRow.toRequest = L ∧
          (∀ r ∈ rows, r.workout_id = id) ∧
          (∀ r ∈ rows, db.seq_workout_exercises < r.id) ∧
          db1.workout_exercises = db.entriesNotOf id ++ rows) := by
  unfold UpdateWorkout at h
  cases hg : GetWorkoutByID db id u with
  | none => simp [hg] at h
  | some existing =>
    obtain ⟨r0, hr0, hex⟩ := (GetWorkoutByID_eq_some_iff db id u existing).mp hg
    subst hex
    have hhit := List.find?_some hr0
    simp only [Bool.and_eq_true, beq_iff_eq] at hhit
    have key : ∀ g : WorkoutRow → WorkoutRow,
        (∀ r, (g r).id = r.id ∧ (g r).user_id = r.user_id) →
        db1.workouts = (db.workouts.map fun r =>
          if (r.id == id && r.user_id == u) = true then g r else r) →
        db1.workouts.find? (fun r => r.id == id && r.user_id == u) = some (g r0) := by
      intro g hgid hws
      rw [hws, find?_map_update db.workouts id u g hgid, hr0]
      rfl
    simp only [hg, Tx.Exec, updateWorkout, Begin] at h
    split at h
    · simp at h
    · next tx2 r2 hrep =>
      simp only [Prod.mk.injEq, Except.ok.injEq, Tx.Commit] at h
      obtain ⟨hres, hdb1⟩ := h
      obtain ⟨hu, hx, hw, hnone, hsome⟩ := replaceExercises_ok id _ tx2 req.Exercises hrep
      rw [hdb1] at hu hx hw hnone hsome hres
      simp only at hu hx hw hnone hsome
      have hfind := key _ (by intro r; exact ⟨rfl, rfl⟩) hw
      refine ⟨r0, _, hr0, hfind, ?_, hhit.1, hhit.2, ?_, ?_, ?_, ?_, ?_, ?_, rfl, rfl, hu, hx,
        hnone, hsome⟩
      · rw [← hres]
        exact (GetWorkoutByID_eq_some_iff db1 id u _).mpr ⟨_, hfind, rfl⟩
      · cases req.Title <;> rfl
      · cases req.Description <;> rfl
      · cases req.Comment <;> rfl
      · cases req.Status <;> rfl
      · cases req.ScheduledAt with
        | some t => rfl
        | none =>
          simp only [scanWorkout, Option.map_map]
          cases r0.scheduled_at <;> rfl
      · simp only [beq_iff_eq]

/-! ## Partial update -/

theorem getWorkoutExercises_congr (db db1 : DB) (id : Int)
    (he : db1.workout_exercises = db.workout_exercises) (hx : db1.exercises = db.exercises) :
    getWorkoutExercises db1 id = getWorkoutExercises db id := by
  unfold getWorkoutExercises
  rw [he, hx]

/-- C4 (as stated, refuted): user 1 updates the own workout 1 with
`scheduled_at = 2024-01-02T09:30:00.5+05:30`.  The update succeeds and the workout's
scheduled time is `09:30:00+05:30`, which is not the request's value. -/
theorem update_scheduled_time_loses_fraction :
    ∃ w db1, UpdateWorkout dbOne 1 1 scheduleReq now1 ts1 = (.ok (some w), db1) ∧
      scheduleReq.ScheduledAt = some tHalf ∧
      w.ScheduledAt = some { tHalf with nsec := 0 } ∧
      w.ScheduledAt ≠ scheduleReq.ScheduledAt :=
  ⟨_, _, rfl, rfl, rfl, by decide⟩

/-- C4 (amended): after a successful `UpdateWorkout` of a workout owned by the user, each
of title, description, comment and status equals the request's value when the field is
supplied and the value before the update when it is absent; the scheduled time equals the
request's value cut to whole seconds when supplied (the request's value itself when that
has no fractional second) and the value before the update when absent; and when no
exercise list is supplied the workout's exercise entries are those it had before. -/
theorem update_changes_only_supplied_fields (db db1 : DB) (id u : Int)
    (req : UpdateWorkoutRequest) (now : Time) (ts : SqlTimestamp) (old : Workout)
    (res : Option Workout)
    (hold : GetWorkoutByID db id u = some old)
    (h : UpdateWorkout db id u req now ts = (.ok res, db1)) :
    ∃ w, res = some w ∧ GetWorkoutByID db1 id u = some w ∧
      w.Title = req.Title.getD old.Title ∧
      w.Description = req.Description.getD old.Description ∧
      w.Comment = req.Comment.getD old.Comment ∧
      w.Status = req.Status.getD old.Status ∧
      w.ScheduledAt = (match req.ScheduledAt with
        | some t => some t.truncSecond
        | none => old.ScheduledAt) ∧
      (∀ t, req.ScheduledAt = some t → t.nsec = 0 → w.ScheduledAt = some t) ∧
      (req.Exercises = none →
        w.Exercises = old.Exercises ∧ db1.workout_exercises = db.workout_exercises) := by
  obtain ⟨r0, r1, hr0, hr1, hres, _, _, ht, hd, hc, hs, hsch, _, _, _, _, hx, hnone, _⟩ :=
    UpdateWorkout_ok db db1 id u req now ts res h
  have hold' := (GetWorkoutByID_eq_some_iff db id u _).mpr ⟨r0, hr0, rfl⟩
  rw [hold] at hold'
  simp only [Option.some.injEq] at hold'
  subst hold'
  have hsched : (scanWorkout r1 (getWorkoutExercises db1 id)).ScheduledAt =
      (match req.ScheduledAt with
        | some t => some t.truncSecond
        | none => (scanWorkout r0 (getWorkoutExercises db id)).ScheduledAt) := by
    simp only [scanWorkout, hsch]
    cases req.ScheduledAt <;> rfl
  refine ⟨_, hres, ?_, ht, hd, hc, hs, hsched, ?_, ?_⟩
  · exact (GetWorkoutByID_eq_some_iff db1 id u _).mpr ⟨r1, hr1, rfl⟩
  · intro t ht0 hn
    rw [hsched, ht0]
    cases t
    simp only [Time.truncSecond, Option.some.injEq, Time.mk.injEq, true_and]
    simp only at hn
    simp [hn]
  · intro hnil
    exact ⟨getWorkoutExercises_congr db db1 id (hnone hnil) hx, hnone hnil⟩

/-- C4 (amended) at user 1 renaming the own workout 1: the title changes, the stored
entries stay. -/
theorem update_changes_only_supplied_fields_witness :
    GetWorkoutByID dbOne 1 1 = some (scanWorkout rowOne (getWorkoutExercises dbOne 1)) ∧
    UpdateWorkout dbOne 1 1 titleReq now1 ts1 = (.ok (GetWorkoutByID dbRenamed 1 1), dbRenamed) ∧
    ∃ w, GetWorkoutByID dbRenamed 1 1 = some w ∧ w.Title = "New Name" ∧
      w.Status = "pending" ∧ w.ScheduledAt = none ∧
      dbRenamed.workout_exercises = dbOne.workout_exercises :=
  ⟨rfl, rfl,
   (update_changes_only_supplied_fields dbOne dbRenamed 1 1 titleReq now1 ts1 _ _ rfl rfl).imp
     fun _ hw => ⟨hw.1, hw.2.2.1, hw.2.2.2.2.2.1, hw.2.2.2.2.2.2.1, (hw.2.2.2.2.2.2.2.2 rfl).2⟩⟩

/-! ## Completion timestamp -/

/-- C5 (as stated, refuted): user 1 sets the own workout 1 to `completed` while
`time.Now()` reads 18:30:00.123456789.  The completed timestamp returned and stored is
18:30:00, which is not the current time. -/
theorem completed_timestamp_loses_fraction :
    ∃ w db1, UpdateWorkout dbOne 1 1 completeReq nowFrac ts1 = (.ok (some w), db1) ∧
      w.Status = "completed" ∧
      w.CompletedAt = some { nowFrac with nsec := 0 } ∧
      w.CompletedAt ≠ some nowFrac :=
  ⟨_, _, rfl, rfl, rfl, by decide⟩

/-- C5 (amended): a successful `UpdateWorkout` whose request supplies the status
`completed` returns the workout, as stored, with status `completed` and a non-null
completed timestamp equal to the current time cut to whole seconds (the current time
itself when that is on a whole second); the stored row carries the RFC 3339 text of the
current time. -/
theorem update_to_completed_stamps_now (db db1 : DB) (id u : Int)
    (req : UpdateWorkoutRequest) (now : Time) (ts : SqlTimestamp) (res : Option Workout)
    (hs : req.Status = some "completed")
    (h : UpdateWorkout db id u req now ts = (.ok res, db1)) :
    ∃ w, res = some w ∧ GetWorkoutByID db1 id u = some w ∧
      w.Status = "completed" ∧
      w.CompletedAt = some now.truncSecond ∧
      (now.nsec = 0 → w.CompletedAt = some now) ∧
      ∃ r, db1.workouts.find? (fun r => r.id == id && r.user_id == u) = some r ∧
        r.status = "completed" ∧ r.completed_at = some (Format now) := by
  obtain ⟨r0, r1, hr0, hr1, hres, _, _, _, _, _, hst, _, hcomp, _⟩ :=
    UpdateWorkout_ok db db1 id u req now ts res h
  rw [hs] at hst
  simp only [Option.getD_some] at hst
  rw [hst] at hcomp
  simp only [if_true] at hcomp
  have hca : (scanWorkout r1 (getWorkoutExercises db1 id)).CompletedAt =
      some now.truncSecond := by
    simp only [scanWorkout, hcomp]
    rfl
  refine ⟨_, hres, ?_, hst, hca, ?_, r1, hr1, hst, hcomp⟩
  · exact (GetWorkoutByID_eq_some_iff db1 id u _).mpr ⟨r1, hr1, rfl⟩
  · intro hn
    rw [hca]
    cases now
    simp only at hn
    simp [Time.truncSecond, hn]

/-- C5 (amended) at user 1 completing the own workout 1 at `now0`. -/
theorem update_to_completed_stamps_now_witness :
    completeReq.Status = some "completed" ∧
    UpdateWorkout dbOne 1 1 completeReq now0 ts0 = (.ok (GetWorkoutByID dbDone 1 1), dbDone) ∧
    ∃ w, GetWorkoutByID dbDone 1 1 = some w ∧ w.Status = "completed" ∧
      w.CompletedAt = some now0 :=
  ⟨rfl, rfl,
   (update_to_completed_stamps_now dbOne dbDone 1 1 completeReq now0 ts0 _ rfl rfl).imp
     fun _ hw => ⟨hw.1, hw.2.2.1, hw.2.2.2.2.1 rfl⟩⟩

/-- C6 (the code at the failing input): user 1 creates workout 1, completes it at `now0`
and renames it at `now1` with the request `{"title": "New Name"}`, which supplies no
status.  The completed timestamp is `now0` before the rename and `now1` after it. -/
theorem rename_restamps_completed_workout :
    (CreateWorkout dbUsers 1 createPrivate ts0).2 = dbOne ∧
    (UpdateWorkout dbOne 1 1 completeReq now0 ts0).2 = dbDone ∧
    titleReq.Status = none ∧
    (GetWorkoutByID dbDone 1 1).map (fun w => w.CompletedAt) = some (some now0) ∧
    (∃ w db1, UpdateWorkout dbDone 1 1 titleReq now1 ts1 = (.ok (some w), db1) ∧
      w.Status = "completed" ∧ w.CompletedAt = some now1 ∧
      GetWorkoutByID db1 1 1 = some w) ∧
    now0 ≠ now1 :=
  ⟨rfl, rfl, rfl, rfl, ⟨_, _, rfl, rfl, rfl, rfl⟩, by decide⟩

/-! ## Replacing the entries -/

theorem filter_key_eq_singleton :
    ∀ (cat : List Exercise), (cat.map fun e => e.ID).Nodup →
      ∀ c ∈ cat, cat.filter (fun e => e.ID == c.ID) = [c]
  | [], _, c, hc => by simp at hc
  | a :: t, hk, c, hc => by
    simp only [List.map_cons, List.nodup_cons, List.mem_map, not_exists, not_and] at hk
    rcases List.mem_cons.mp hc with rfl | hmem
    · have : t.filter (fun e => e.ID == c.ID) = [] := by
        rw [List.filter_eq_nil_iff]
        intro e he
        simp only [beq_iff_eq]
        exact hk.1 e he
      simp [List.filter_cons, this]
    · have hne : ¬ a.ID = c.ID := fun h => hk.1 c hmem h.symm
      simp only [List.filter_cons, beq_iff_eq, hne, if_false]
      exact filter_key_eq_singleton t hk.2 c hmem

theorem join_rows (cat : List Exercise) (hk : (cat.map fun e => e.ID).Nodup) :
    ∀ rows : List WorkoutExerciseRow,
      (∀ r ∈ rows, ∃ c ∈ cat, c.ID = r.exercise_id) →
      List.Forall₂
        (fun r x => ∃ c ∈ cat, c.ID = r.exercise_id ∧ x = scanWorkoutExercise r c) rows
        (rows.flatMap fun we =>
          (cat.filter (fun e => e.ID == we.exercise_id)).map (scanWorkoutExercise we))
  | [], _ => List.Forall₂.nil
  | r :: rows, hall => by
    obtain ⟨c, hc, hid⟩ := hall r (List.mem_cons_self _ _)
    have h1 := filter_key_eq_singleton cat hk c hc
    rw [hid] at h1
    simp only [List.flatMap_cons, h1, List.map_cons, List.map_nil, List.singleton_append]
    exact List.Forall₂.cons ⟨c, hc, hid, rfl⟩
      (join_rows cat hk rows fun r' hr' => hall r' (List.mem_cons_of_mem _ hr'))

theorem filter_append_new (old rows : List WorkoutExerciseRow) (id : Int)
    (hrows : ∀ r ∈ rows, r.workout_id = id) :
    ((old.filter fun we => !(we.workout_id == id)) ++ rows).filter
        (fun we => we.workout_id == id) = rows ∧
    ((old.filter fun we => !(we.workout_id == id)) ++ rows).filter
        (fun we => !(we.workout_id == id)) = old.filter fun we => !(we.workout_id == id) := by
  have h1 : rows.filter (fun we => we.workout_id == id) = rows := by
    rw [List.filter_eq_self]
    intro r hr
    simp [hrows r hr]
  have h2 : rows.filter (fun we => !(we.workout_id == id)) = [] := by
    rw [List.filter_eq_nil_iff]
    intro r hr
    simp [hrows r hr]
  have h3 : (old.filter fun we => !(we.workout_id == id)).filter
      (fun we => we.workout_id == id) = [] := by
    rw [List.filter_eq_nil_iff]
    intro r hr
    have := (List.mem_filter.mp hr).2
    simpa using this
  constructor
  · rw [List.filter_append, h1, h3, List.nil_append]
  · rw [List.filter_append, h2, List.append_nil, List.filter_filter]
    congr 1
    funext we
    simp

theorem filter_append_other (old rows : List WorkoutExerciseRow) (id id' : Int)
    (hne : id' ≠ id) (hrows : ∀ r ∈ rows, r.workout_id = id) :
    ((old.filter fun we => !(we.workout_id == id)) ++ rows).filter
        (fun we => we.workout_id == id') = old.filter fun we => we.workout_id == id' := by
  have h2 : rows.filter (fun we => we.workout_id == id') = [] := by
    rw [List.filter_eq_nil_iff]
    intro r hr
    simp only [beq_iff_eq, hrows r hr]
    exact fun h => hne h.symm
  rw [List.filter_append, h2, List.append_nil, List.filter_filter]
  apply List.filter_congr
  intro we _
  by_cases h : we.workout_id = id'
  · simp [h, hne]
  · simp [h]

theorem UpdateWorkout_succeeds (db : DB) (id u : Int) (req : UpdateWorkoutRequest) (now : Time)
    (ts : SqlTimestamp) (old : Workout)
    (hold : GetWorkoutByID db id u = some old)
    (hcat : ∀ L, req.Exercises = some L → ∀ e ∈ L, ∃ c ∈ db.exercises, c.ID = e.ExerciseID) :
    ∃ res db1, UpdateWorkout db id u req now ts = (.ok res, db1) := by
  obtain ⟨r0, hr0, _⟩ := (GetWorkoutByID_eq_some_iff db id u old).mp hold
  have hhit := List.find?_some hr0
  have hmem := List.mem_of_find?_eq_some hr0
  simp only [Bool.and_eq_true, beq_iff_eq] at hhit
  unfold UpdateWorkout
  simp only [hold, Tx.Exec, updateWorkout, Begin]
  cases hex : req.Exercises with
  | none => exact ⟨_, _, rfl⟩
  | some L =>
    simp only [replaceExercises, Tx.Exec, deleteWorkoutExercises]
    have hs := insertExercises_succeeds id L
      { committed := db,
        pending := { db with
          workouts := db.workouts.map fun r =>
            if (r.id == id && r.user_id == u) = true then
              { r with
                title := (match req.Title with | some t => t | none => old.Title),
                description :=
                  (match req.Description with | some d => d | none => old.Description),
                comment := (match req.Comment with | some c => c | none => old.Comment),
                status := (match req.Status with | some s => s | none => old.Status),
                scheduled_at := (match req.ScheduledAt with
                  | some t => some (Format t)
                  | none => old.ScheduledAt.map Format),
                completed_at :=
                  (if ((match req.Status with | some s => s | none => old.Status)
                      == "completed") = true then some (Format now) else none),
                updated_at := ts }
            else r,
          workout_exercises := db.workout_exercises.filter fun we => !(we.workout_id == id) } }
      (by
        refine ⟨_, List.mem_map_of_mem _ hmem, ?_⟩
        simp only [hhit.1, hhit.2, beq_self_eq_true, Bool.and_self, if_true])
      (hcat L hex)
    obtain ⟨tx', h'⟩ := hs
    rw [h']
    exact ⟨_, _, rfl⟩

theorem getWorkoutExercises_matches (db : DB) (id : Int) (L : List WorkoutExerciseRequest)
    (hkey : (db.exercises.map fun e => e.ID).Nodup)
    (hmap : (db.entriesOf id).map WorkoutExerciseRow.toRequest = L)
    (hcat : ∀ e ∈ L, ∃ c ∈ db.exercises, c.ID = e.ExerciseID) :
    List.Forall₂ (entryMatches db.exercises id) L (getWorkoutExercises db id) := by
  have hall : ∀ r ∈ db.entriesOf id, ∃ c ∈ db.exercises, c.ID = r.exercise_id := by
    intro r hr
    have : r.toRequest ∈ L := by rw [← hmap]; exact List.mem_map_of_mem _ hr
    exact hcat _ this
  have hj := join_rows db.exercises hkey (db.entriesOf id) hall
  have hwid : ∀ r ∈ db.entriesOf id, r.workout_id = id := by
    intro r hr
    have := (List.mem_filter.mp hr).2
    simpa using this
  rw [← hmap, List.forall₂_map_left_iff]
  refine List.Forall₂.imp ?_ ((List.forall₂_and_left _ _).mpr ⟨hwid, hj⟩)
  rintro r x ⟨hr, c, hc, hid, rfl⟩
  exact ⟨rfl, hr, c, hc, hid, rfl⟩

/-- C7: when the request supplies an exercise list `L` (the empty list included) whose
exercise ids are all in the catalog, `UpdateWorkout` of a workout owned by the user
succeeds, and afterwards the workout's entries, as returned and as stored, are exactly
those of `L`, in number, order and in each submitted field, each joined with its catalog
exercise; the new rows carry fresh keys, no previous entry of the workout remains, and
the entries of every other workout are unchanged. -/
theorem update_replaces_entries (db : DB) (id u : Int) (req : UpdateWorkoutRequest)
    (now : Time) (ts : SqlTimestamp) (old : Workout) (L : List WorkoutExerciseRequest)
    (hkey : (db.exercises.map fun e => e.ID).Nodup)
    (hold : GetWorkoutByID db id u = some old)
    (hL : req.Exercises = some L)
    (hcat : ∀ e ∈ L, ∃ c ∈ db.exercises, c.ID = e.ExerciseID) :
    ∃ w db1, UpdateWorkout db id u req now ts = (.ok (some w), db1) ∧
      GetWorkoutByID db1 id u = some w ∧
      List.Forall₂ (entryMatches db.exercises id) L w.Exercises ∧
      w.Exercises.length = L.length ∧
      (db1.entriesOf id).map WorkoutExerciseRow.toRequest = L ∧
      (∀ r ∈ db1.entriesOf id, db.seq_workout_exercises < r.id) ∧
      ((∀ r ∈ db.workout_exercises, r.id ≤ db.seq_workout_exercises) →
        ∀ r ∈ db.entriesOf id, r ∉ db1.workout_exercises) ∧
      db1.entriesNotOf id = db.entriesNotOf id ∧
      (∀ id', id' ≠ id → db1.entriesOf id' = db.entriesOf id' ∧
        getWorkoutExercises db1 id' = getWorkoutExercises db id') := by
  obtain ⟨res, db1, h⟩ := UpdateWorkout_succeeds db id u req now ts old hold
    (fun L' hL' => by rw [hL] at hL'; cases hL'; exact hcat)
  obtain ⟨r0, r1, hr0, hr1, hres, _, _, _, _, _, _, _, _, _, _, _, hx, _, hsome⟩ :=
    UpdateWorkout_ok db db1 id u req now ts res h
  obtain ⟨_, rows, hmap, hwid, hfresh, hrows⟩ := hsome L hL
  have hf := filter_append_new db.workout_exercises rows id hwid
  have hof : db1.entriesOf id = rows := by
    unfold DB.entriesOf; rw [hrows]; exact hf.1
  have hnot : db1.entriesNotOf id = db.entriesNotOf id := by
    unfold DB.entriesNotOf; rw [hrows]; exact hf.2
  have hmatch : List.Forall₂ (entryMatches db.exercises id) L (getWorkoutExercises db1 id) := by
    have := getWorkoutExercises_matches db1 id L (by rw [hx]; exact hkey)
      (by rw [hof]; exact hmap) (by rw [hx]; exact hcat)
    rw [hx] at this
    exact this
  refine ⟨_, db1, by rw [h, hres], ?_, hmatch, hmatch.length_eq.symm, by rw [hof]; exact hmap,
    by rw [hof]; exact hfresh, ?_, hnot, ?_⟩
  · exact (GetWorkoutByID_eq_some_iff db1 id u _).mpr ⟨r1, hr1, rfl⟩
  · intro hseq r hr hmem
    rw [hrows] at hmem
    have hr' := List.mem_filter.mp hr
    rcases List.mem_append.mp hmem with h1 | h2
    · have := (List.mem_filter.mp h1).2
      simp only [hr'.2, Bool.not_true] at this
      exact absurd this (by decide)
    · have h3 := hfresh r h2
      have h4 := hseq r hr'.1
      omega
  · intro id' hne
    have hof' : db1.entriesOf id' = db.entriesOf id' := by
      unfold DB.entriesOf; rw [hrows]
      exact filter_append_other db.workout_exercises rows id id' hne hwid
    refine ⟨hof', ?_⟩
    unfold getWorkoutExercises
    unfold DB.entriesOf at hof'
    rw [hof', hx]

/-- C7 at user 1 replacing the single entry of workout 1 by one entry of exercise 2. -/
theorem update_replaces_entries_witness :
    (dbOne.exercises.map fun e => e.ID).Nodup ∧
    GetWorkoutByID dbOne 1 1 = some (scanWorkout rowOne (getWorkoutExercises dbOne 1)) ∧
    (∀ e ∈ [({ ExerciseID := 2, Sets := 4, Reps := 8, WeightKg := 20, DurationSec := 0,
               Notes := "slow" } : WorkoutExerciseRequest)],
      ∃ c ∈ dbOne.exercises, c.ID = e.ExerciseID) ∧
    ∃ w db1, UpdateWorkout dbOne 1 1 entriesReq now1 ts1 = (.ok (some w), db1) ∧
      w.Exercises.length = 1 :=
  ⟨by decide, rfl, by decide,
   (update_replaces_entries dbOne 1 1 entriesReq now1 ts1 _ _ (by decide) rfl rfl
     (by decide)).imp fun _ hw => hw.imp fun _ hdb => ⟨hdb.1, hdb.2.2.2.1⟩⟩

/-! ## CreateWorkout -/

theorem CreateWorkout_ok (db db1 : DB) (u : Int) (req : CreateWorkoutRequest)
    (ts : SqlTimestamp) (res : Option Workout)
    (h : CreateWorkout db u req ts = (.ok res, db1)) :
    (∃ usr ∈ db.users, usr.id = u) ∧
    (∀ e ∈ req.Exercises, ∃ c ∈ db.exercises, c.ID = e.ExerciseID) ∧
    ∃ (row : WorkoutRow) (rows : List WorkoutExerciseRow) (seq : Int),
      row = { id := nextRowid db.seq_workouts (db.workouts.map fun r => r.id), user_id := u,
              title := req.Title, description := req.Description, comment := "",
              status := "pending", scheduled_at := req.ScheduledAt.map Format,
              completed_at := none, created_at := ts, updated_at := ts } ∧
      rows.map WorkoutExerciseRow.toRequest = req.Exercises ∧
      (∀ r ∈ rows, r.workout_id = row.id) ∧
      (∀ r ∈ rows, db.seq_workout_exercises < r.id) ∧
      db1 = { db with workouts := db.workouts ++ [row], seq_workouts := row.id,
                      workout_exercises := db.workout_exercises ++ rows,
                      seq_workout_exercises := seq } ∧
      res = GetWorkoutByID db1 row.id u := by
  unfold CreateWorkout at h
  simp only [Begin, Tx.Exec, insertWorkout] at h
  by_cases hu : db.users.any (fun usr => usr.id == u) = true
  · simp only [hu, if_true] at h
    split at h
    · simp at h
    · next tx2 r2 hins =>
      simp only [Prod.mk.injEq, Except.ok.injEq, Tx.Commit] at h
      obtain ⟨hall, rows, seq, hmap, hw, _, hids, htx⟩ := insertExercises_ok _ _ _ tx2 hins
      subst htx
      simp only at h hall hids
      simp only [List.any_eq_true, beq_iff_eq] at hu
      refine ⟨hu, hall, _, rows, seq, rfl, hmap, hw, fun r hr => (hids r hr).1, h.2.symm, ?_⟩
      rw [← h.1, ← h.2]
  · simp only [hu] at h
    simp at h

theorem CreateWorkout_succeeds (db : DB) (u : Int) (req : CreateWorkoutRequest)
    (ts : SqlTimestamp)
    (huser : ∃ usr ∈ db.users, usr.id = u)
    (hcat : ∀ e ∈ req.Exercises, ∃ c ∈ db.exercises, c.ID = e.ExerciseID) :
    ∃ res db1, CreateWorkout db u req ts = (.ok res, db1) := by
  have hu : db.users.any (fun usr => usr.id == u) = true := by
    simp only [List.any_eq_true, beq_iff_eq]; exact huser
  unfold CreateWorkout
  simp only [Begin, Tx.Exec, insertWorkout, hu, if_true]
  have hs := insertExercises_succeeds
    (nextRowid db.seq_workouts (db.workouts.map fun r => r.id)) req.Exercises
    { committed := db,
      pending := { db with
        workouts := db.workouts ++
          [{ id := nextRowid db.seq_workouts (db.workouts.map fun r => r.id), user_id := u,
             title := req.Title, description := req.Description, comment := "",
             status := "pending", scheduled_at := req.ScheduledAt.map Format,
             completed_at := none, created_at := ts, updated_at := ts }],
        seq_workouts := nextRowid db.seq_workouts (db.workouts.map fun r => r.id) } }
    ⟨_, List.mem_append_right _ (List.mem_singleton_self _), rfl⟩ hcat
  obtain ⟨tx', h'⟩ := hs
  rw [h']
  exact ⟨_, _, rfl⟩

/-! ## Atomicity -/

theorem CreateWorkout_error (db db1 : DB) (u : Int) (req : CreateWorkoutRequest)
    (ts : SqlTimestamp) (err : String)
    (h : CreateWorkout db u req ts = (.error err, db1)) : db1 = db := by
  simp only [CreateWorkout] at h
  have h1 := Exec_committed (Begin db)
    (insertWorkout u req.Title req.Description (req.ScheduledAt.map Format) ts)
  split at h
  · next tx1 e1 heq =>
    rw [heq] at h1
    simp only [Prod.mk.injEq, Tx.Rollback] at h
    rw [← h.2]; exact h1
  · next tx1 res heq =>
    rw [heq] at h1
    have h2 := insertExercises_committed res.LastInsertId req.Exercises tx1
    split at h
    · next tx2 e2 heq2 =>
      rw [heq2] at h2
      simp only [Prod.mk.injEq, Tx.Rollback] at h
      rw [← h.2]; exact h2.trans h1
    · simp at h

theorem UpdateWorkout_error (db db1 : DB) (id u : Int) (req : UpdateWorkoutRequest)
    (now : Time) (ts : SqlTimestamp) (err : String)
    (h : UpdateWorkout db id u req now ts = (.error err, db1)) : db1 = db := by
  simp only [UpdateWorkout] at h
  split at h
  · simp only [Prod.mk.injEq, Tx.Rollback, Begin] at h
    exact h.2.symm
  · next existing hex =>
    split at h
    · next tx1 e1 heq =>
      have h1 := Exec_committed (Begin db) (updateWorkout
        (match req.Title with | some t => t | none => existing.Title)
        (match req.Description with | some d => d | none => existing.Description)
        (match req.Comment with | some c => c | none => existing.Comment)
        (match req.Status with | some s => s | none => existing.Status)
        (match req.ScheduledAt with
          | some t => some (Format t)
          | none => existing.ScheduledAt.map Format)
        (if ((match req.Status with | some s => s | none => existing.Status)
            == "completed") = true then some (Format now) else none)
        id u ts)
      rw [heq] at h1
      simp only [Prod.mk.injEq, Tx.Rollback] at h
      rw [← h.2]; exact h1
    · next tx1 res heq =>
      have h1 := Exec_committed (Begin db) (updateWorkout
        (match req.Title with | some t => t | none => existing.Title)
        (match req.Description with | some d => d | none => existing.Description)
        (match req.Comment with | some c => c | none => existing.Comment)
        (match req.Status with | some s => s | none => existing.Status)
        (match req.ScheduledAt with
          | some t => some (Format t)
          | none => existing.ScheduledAt.map Format)
        (if ((match req.Status with | some s => s | none => existing.Status)
            == "completed") = true then some (Format now) else none)
        id u ts)
      rw [heq] at h1
      have h2 := replaceExercises_committed id tx1 req.Exercises
      split at h
      · next tx2 e2 heq2 =>
        rw [heq2] at h2
        simp only [Prod.mk.injEq, Tx.Rollback] at h
        rw [← h.2]; exact h2.trans h1
      · simp at h

/-- C8: `CreateWorkout` and `UpdateWorkout` are atomic.  Whenever either returns an error
the database after the call is the database before it (no workout row added, no column
changed, no entry deleted or inserted); and an exercise id that is not in the catalog does
make the call return an error, after the workout row was written inside the transaction. -/
theorem failed_mutation_changes_nothing (db db1 : DB) (id u : Int)
    (reqC : CreateWorkoutRequest) (reqU : UpdateWorkoutRequest) (now : Time)
    (ts : SqlTimestamp) (err : String) :
    (CreateWorkout db u reqC ts = (.error err, db1) → db1 = db) ∧
    (UpdateWorkout db id u reqU now ts = (.error err, db1) → db1 = db) ∧
    ((∃ e ∈ reqC.Exercises, ∀ c ∈ db.exercises, c.ID ≠ e.ExerciseID) →
      ∃ err', CreateWorkout db u reqC ts = (.error err', db)) ∧
    (∀ L, reqU.Exercises = some L → (∃ e ∈ L, ∀ c ∈ db.exercises, c.ID ≠ e.ExerciseID) →
      ∃ err', UpdateWorkout db id u reqU now ts = (.error err', db)) := by
  refine ⟨CreateWorkout_error db db1 u reqC ts err,
    UpdateWorkout_error db db1 id u reqU now ts err, ?_, ?_⟩
  · rintro ⟨e, he, hno⟩
    rcases hc : CreateWorkout db u reqC ts with ⟨r, d⟩
    cases r with
    | error err' =>
      have := CreateWorkout_error db d u reqC ts err' hc
      exact ⟨err', by rw [this]⟩
    | ok res =>
      obtain ⟨_, hall, _⟩ := CreateWorkout_ok db d u reqC ts res hc
      obtain ⟨c, hcm, hid⟩ := hall e he
      exact absurd hid (hno c hcm)
  · rintro L hL ⟨e, he, hno⟩
    rcases hc : UpdateWorkout db id u reqU now ts with ⟨r, d⟩
    cases r with
    | error err' =>
      have := UpdateWorkout_error db d id u reqU now ts err' hc
      exact ⟨err', by rw [this]⟩
    | ok res =>
      obtain ⟨_, _, _, _, _, _, _, _, _, _, _, _, _, _, _, _, _, _, hsome⟩ :=
        UpdateWorkout_ok db d id u reqU now ts res hc
      obtain ⟨hall, _⟩ := hsome L hL
      obtain ⟨c, hcm, hid⟩ := hall e he
      exact absurd hid (hno c hcm)

/-- C8 at user 1 of `dbOne`: a create whose second entry and an update whose only entry
name exercise 99 both fail on the FOREIGN KEY clause and leave `dbOne` as it was. -/
theorem failed_mutation_changes_nothing_witness :
    CreateWorkout dbOne 1 createBad ts1 = (.error fkError, dbOne) ∧
    UpdateWorkout dbOne 1 1 updateBad now1 ts1 = (.error fkError, dbOne) ∧
    (∃ e ∈ createBad.Exercises, ∀ c ∈ dbOne.exercises, c.ID ≠ e.ExerciseID) ∧
    (∃ err', CreateWorkout dbOne 1 createBad ts1 = (.error err', dbOne)) ∧
    (∃ err', UpdateWorkout dbOne 1 1 updateBad now1 ts1 = (.error err', dbOne)) := by
  have h := failed_mutation_changes_nothing dbOne dbOne 1 1 createBad updateBad now1 ts1
    fkError
  exact ⟨rfl, rfl, by decide, h.2.2.1 (by decide), h.2.2.2 _ rfl (by decide)⟩

/-! ## Create then fetch -/

theorem find?_append_fresh (ws : List WorkoutRow) (row : WorkoutRow) (u : Int)
    (hfresh : ∀ r ∈ ws, r.id < row.id) (hu : row.user_id = u) :
    (ws ++ [row]).find? (fun r => r.id == row.id && r.user_id == u) = some row := by
  have hnone : ws.find? (fun r => r.id == row.id && r.user_id == u) = none := by
    rw [List.find?_eq_none]
    intro r hr
    have := hfresh r hr
    simp only [Bool.and_eq_true, beq_iff_eq, not_and]
    intro h; omega
  rw [List.find?_append, hnone]
  simp [hu]

theorem filter_append_fresh (old rows : List WorkoutExerciseRow) (wid : Int)
    (hold : ∀ r ∈ old, r.workout_id ≠ wid) (hrows : ∀ r ∈ rows, r.workout_id = wid) :
    (old ++ rows).filter (fun we => we.workout_id == wid) = rows := by
  have h1 : old.filter (fun we => we.workout_id == wid) = [] := by
    rw [List.filter_eq_nil_iff]
    intro r hr
    simp only [beq_iff_eq]
    exact hold r hr
  have h2 : rows.filter (fun we => we.workout_id == wid) = rows := by
    rw [List.filter_eq_self]
    intro r hr
    simp [hrows r hr]
  rw [List.filter_append, h1, h2, List.nil_append]

/-- C9: for a registered user and a create request with `N` entries whose exercise ids are
all in the catalog, `CreateWorkout` succeeds (`POST /workouts` answers 201), and fetching
the created workout by its id as that user returns the workout with exactly `N` entries,
one per submitted entry in order, each with the submitted exercise id, sets, reps, weight,
duration and notes and joined with the catalog exercise of that id; the workout carries
the submitted title and description, the user as owner and the status `pending`. -/
theorem create_then_fetch (db : DB) (u : Int) (req : CreateWorkoutRequest) (ts : SqlTimestamp)
    (hkey : (db.exercises.map fun e => e.ID).Nodup)
    (href : ∀ e ∈ db.workout_exercises, ∃ r ∈ db.workouts, r.id = e.workout_id)
    (huser : ∃ usr ∈ db.users, usr.id = u)
    (hcat : ∀ e ∈ req.Exercises, ∃ c ∈ db.exercises, c.ID = e.ExerciseID) :
    ∃ w db1, CreateWorkout db u req ts = (.ok (some w), db1) ∧
      WorkoutHandler.Create db u (.ok req) ts =
        ({ status := 201, body := .workout (some w) }, db1) ∧
      GetWorkoutByID db1 w.ID u = some w ∧
      (∀ p, ParseInt p = some w.ID →
        WorkoutHandler.Get db1 u p = { status := 200, body := .workout (some w) }) ∧
      w.Exercises.length = req.Exercises.length ∧
      List.Forall₂ (entryMatches db.exercises w.ID) req.Exercises w.Exercises ∧
      w.Title = req.Title ∧ w.Description = req.Description ∧ w.UserID = u ∧
      w.Status = "pending" ∧
      (∀ r ∈ db.workouts, r.id < w.ID) := by
  obtain ⟨res, db1, h⟩ := CreateWorkout_succeeds db u req ts huser hcat
  obtain ⟨_, _, row, rows, seq, hrow, hmap, hwid, _, hdb1, hres⟩ :=
    CreateWorkout_ok db db1 u req ts res h
  have hfresh : ∀ r ∈ db.workouts, r.id < row.id := by
    intro r hr
    rw [hrow]
    exact nextRowid_gt_mem _ _ _ (List.mem_map_of_mem _ hr)
  have hws : db1.workouts = db.workouts ++ [row] := by rw [hdb1]
  have hes : db1.workout_exercises = db.workout_exercises ++ rows := by rw [hdb1]
  have hxs : db1.exercises = db.exercises := by rw [hdb1]
  have hfind : db1.workouts.find? (fun r => r.id == row.id && r.user_id == u) = some row := by
    rw [hws]
    exact find?_append_fresh db.workouts row u hfresh (by rw [hrow])
  have hof : db1.entriesOf row.id = rows := by
    unfold DB.entriesOf
    rw [hes]
    apply filter_append_fresh _ _ _ _ hwid
    intro e he hid
    obtain ⟨r, hr, hre⟩ := href e he
    have := hfresh r hr
    omega
  have hmatch : List.Forall₂ (entryMatches db.exercises row.id) req.Exercises
      (getWorkoutExercises db1 row.id) := by
    have := getWorkoutExercises_matches db1 row.id req.Exercises (by rw [hxs]; exact hkey)
      (by rw [hof]; exact hmap) (by rw [hxs]; exact hcat)
    rw [hxs] at this
    exact this
  have hget : GetWorkoutByID db1 row.id u =
      some (scanWorkout row (getWorkoutExercises db1 row.id)) :=
    (GetWorkoutByID_eq_some_iff db1 row.id u _).mpr ⟨row, hfind, rfl⟩
  rw [hget] at hres
  subst hres
  refine ⟨_, db1, h, ?_, hget, ?_, hmatch.length_eq.symm, hmatch, ?_, ?_, ?_, ?_, hfresh⟩
  · simp [WorkoutHandler.Create, h]
  · intro p hp
    have hp' : ParseInt p = some row.id := hp
    simp only [WorkoutHandler.Get, hp', hget]
  · rw [hrow]; rfl
  · rw [hrow]; rfl
  · rw [hrow]; rfl
  · rw [hrow]; rfl

/-- C9 at user 1 of `dbUsers` creating the workout of `dbOne` with one entry. -/
theorem create_then_fetch_witness :
    (dbUsers.exercises.map fun e => e.ID).Nodup ∧
    (∃ usr ∈ dbUsers.users, usr.id = 1) ∧
    (∀ e ∈ createPrivate.Exercises, ∃ c ∈ dbUsers.exercises, c.ID = e.ExerciseID) ∧
    ∃ w db1, CreateWorkout dbUsers 1 createPrivate ts0 = (.ok (some w), db1) ∧
      w.Exercises.length = 1 ∧ w.Status = "pending" :=
  ⟨by decide, by decide, by decide,
   (create_then_fetch dbUsers 1 createPrivate ts0 (by decide) (by decide) (by decide)
     (by decide)).imp fun _ hw => hw.imp fun _ hdb =>
       ⟨hdb.1, hdb.2.2.2.2.1, hdb.2.2.2.2.2.2.2.2.2.1⟩⟩

/-! ## ListWorkouts -/

theorem ListWorkouts_filter (db : DB) (u : Int) (s : String) :
    (db.workouts.filter fun r =>
        r.user_id == u && (if s != "" then r.status == s else true)) =
      db.workoutsOf u s := by
  unfold DB.workoutsOf
  apply List.filter_congr
  intro r _
  by_cases hs : s = "" <;> by_cases h1 : r.user_id = u <;> by_cases h2 : r.status = s <;>
    simp [hs, h1, h2]

theorem CreateWorkout_count (db db1 : DB) (u : Int) (req : CreateWorkoutRequest)
    (ts : SqlTimestamp) (res : Option Workout)
    (h : CreateWorkout db u req ts = (.ok res, db1)) :
    db1.users = db.users ∧ db1.exercises = db.exercises ∧
    (db1.workoutsOf u "").length = (db.workoutsOf u "").length + 1 := by
  obtain ⟨_, _, row, rows, seq, hrow, _, _, _, hdb1, _⟩ := CreateWorkout_ok db db1 u req ts res h
  have hu : row.user_id = u := by rw [hrow]
  subst hdb1
  refine ⟨rfl, rfl, ?_⟩
  simp [DB.workoutsOf, List.filter_append, hu]

theorem createMany_count (u : Int) :
    ∀ (reqs : List (CreateWorkoutRequest × SqlTimestamp)) (db : DB),
      (∃ usr ∈ db.users, usr.id = u) →
      (∀ p ∈ reqs, ∀ e ∈ p.1.Exercises, ∃ c ∈ db.exercises, c.ID = e.ExerciseID) →
      ((createMany u db reqs).workoutsOf u "").length =
        (db.workoutsOf u "").length + reqs.length
  | [], db, _, _ => by simp [createMany]
  | (req, ts) :: rest, db, huser, hcat => by
    obtain ⟨res, db1, h⟩ := CreateWorkout_succeeds db u req ts huser
      (hcat (req, ts) (List.mem_cons_self _ _))
    obtain ⟨hus, hxs, hcount⟩ := CreateWorkout_count db db1 u req ts res h
    have ih := createMany_count u rest db1 (by rw [hus]; exact huser)
      (by rw [hxs]; exact fun p hp => hcat p (List.mem_cons_of_mem _ hp))
    simp only [createMany, h, ih, hcount, List.length_cons]
    omega

/-- C10: `ListWorkouts(u, s)` returns the rows of `workouts` whose owner is `u` and, when
`s` is not empty, whose status is `s`, each as many times as it is stored (once, the ids
being a key), in some order, and nothing else: no workout of another user and, under a
filter, none of another status.  With the empty filter these are all of `u`'s workouts, so that a user without
workouts who creates `k` workouts lists exactly `k`. -/
theorem list_workouts_of_owner (db : DB) (u : Int) (s : String) :
    (∃ rows : List WorkoutRow,
      rows.Perm (db.workoutsOf u s) ∧
      ListWorkouts db u s = rows.map fun r => scanWorkout r (getWorkoutExercises db r.id)) ∧
    ((ListWorkouts db u s).map fun w => w.ID).Perm ((db.workoutsOf u s).map fun r => r.id) ∧
    ((db.workouts.map fun r => r.id).Nodup →
      ((ListWorkouts db u s).map fun w => w.ID).Nodup) ∧
    (∀ w ∈ ListWorkouts db u s, w.UserID = u ∧ (s ≠ "" → w.Status = s)) ∧
    (db.workoutsOf u "" = db.workouts.filter fun r => r.user_id == u) ∧
    (ListWorkouts db u "").length = (db.workouts.filter fun r => r.user_id == u).length ∧
    WorkoutHandler.List db u s = { status := 200, body := .workouts (ListWorkouts db u s) } ∧
    (∀ reqs : List (CreateWorkoutRequest × SqlTimestamp),
      (∃ usr ∈ db.users, usr.id = u) →
      (∀ r ∈ db.workouts, r.user_id ≠ u) →
      (∀ p ∈ reqs, ∀ e ∈ p.1.Exercises, ∃ c ∈ db.exercises, c.ID = e.ExerciseID) →
      (ListWorkouts (createMany u db reqs) u "").length = reqs.length) := by
  have hlist : ∀ (d : DB) (t : String), ListWorkouts d u t =
      (orderByKey (d.workoutsOf u t)).map fun r => scanWorkout r (getWorkoutExercises d r.id) := by
    intro d t
    unfold ListWorkouts
    simp only [ListWorkouts_filter]
  have hperm : ∀ (d : DB) (t : String), (orderByKey (d.workoutsOf u t)).Perm (d.workoutsOf u t) :=
    fun d t => List.perm_insertionSort _ _
  have hlen : ∀ (d : DB) (t : String),
      (ListWorkouts d u t).length = (d.workoutsOf u t).length := by
    intro d t
    rw [hlist, List.length_map]
    exact (hperm d t).length_eq
  have hall : db.workoutsOf u "" = db.workouts.filter fun r => r.user_id == u := by
    unfold DB.workoutsOf
    apply List.filter_congr
    intro r _
    by_cases h1 : r.user_id = u <;> simp [h1]
  have hids : ((ListWorkouts db u s).map fun w => w.ID).Perm
      ((db.workoutsOf u s).map fun r => r.id) := by
    rw [hlist, List.map_map]
    exact (hperm db s).map _
  refine ⟨⟨_, hperm db s, hlist db s⟩, hids, ?_, ?_, hall, ?_, rfl, ?_⟩
  · intro hk
    rw [hids.nodup_iff]
    exact hk.sublist ((List.filter_sublist _).map _)
  · intro w hw
    rw [hlist] at hw
    obtain ⟨r, hr, rfl⟩ := List.mem_map.mp hw
    have hr' := (hperm db s).mem_iff.mp hr
    have := (List.mem_filter.mp hr').2
    simp only [decide_eq_true_eq] at this
    refine ⟨this.1, fun hs => ?_⟩
    rcases this.2 with h | h
    · exact absurd h hs
    · exact h
  · rw [hlen, hall]
  · intro reqs huser hfresh hcat
    rw [hlen, createMany_count u reqs db huser hcat]
    have : db.workoutsOf u "" = [] := by
      rw [hall, List.filter_eq_nil_iff]
      intro r hr
      simp only [beq_iff_eq]
      exact hfresh r hr
    simp [this]

/-- C10 at user 2 of `dbOne`, who owns no workout and then creates two. -/
theorem list_workouts_of_owner_witness :
    ListWorkouts dbOne 2 "" = [] ∧
    (ListWorkouts dbOne 1 "pending").map (fun w => w.ID) = [1] ∧
    ListWorkouts dbOne 1 "completed" = [] ∧
    (ListWorkouts (createMany 2 dbOne [(createPrivate, ts0), (createPrivate, ts1)]) 2 "").length
      = 2 :=
  ⟨rfl, rfl, rfl,
   (list_workouts_of_owner dbOne 2 "").2.2.2.2.2.2.2
     [(createPrivate, ts0), (createPrivate, ts1)]
     (by decide) (by decide) (by decide)⟩

/-! ## The schema constraints hold in every database the operations produce -/

theorem Consistent_empty : DB.empty.Consistent := by decide

theorem insertWorkout_keeps (u : Int) (title description : String)
    (scheduledStr : Option RFC3339Text) (ts : SqlTimestamp) :
    Keeps (insertWorkout u title description scheduledStr ts) := by
  intro db db1 res h hs
  unfold insertWorkout at hs
  split at hs
  · simp only [Except.ok.injEq, Prod.mk.injEq] at hs
    rw [← hs.1]
    refine ⟨h.1, ?_, ?_, h.2.2.2⟩
    · simp only [List.map_append, List.map_cons, List.map_nil]
      rw [List.nodup_append]
      refine ⟨h.2.1, List.nodup_singleton _, ?_⟩
      intro a ha hb
      rw [List.mem_singleton] at hb
      have := nextRowid_gt_mem db.seq_workouts _ a ha
      omega
    · intro e he
      obtain ⟨r, hr, hid⟩ := h.2.2.1 e he
      exact ⟨r, List.mem_append_left _ hr, hid⟩
  · simp at hs

theorem insertWorkoutExercise_keeps (wid : Int) (e : WorkoutExerciseRequest) :
    Keeps (insertWorkoutExercise wid e) := by
  intro db db1 res h hs
  unfold insertWorkoutExercise at hs
  split at hs
  · next hc =>
    simp only [Except.ok.injEq, Prod.mk.injEq] at hs
    simp only [Bool.and_eq_true, List.any_eq_true, beq_iff_eq] at hc
    rw [← hs.1]
    refine ⟨h.1, h.2.1, ?_, ?_⟩
    · intro x hx
      rcases List.mem_append.mp hx with h1 | h1
      · exact h.2.2.1 x h1
      · rw [List.mem_singleton] at h1
        subst h1
        exact hc.1
    · intro x hx
      rcases List.mem_append.mp hx with h1 | h1
      · exact le_of_lt (nextRowid_gt_mem _ _ _ (List.mem_map_of_mem _ h1))
      · rw [List.mem_singleton] at h1
        subst h1
        exact le_refl _
  · simp at hs

theorem updateWorkout_keeps (title desc comment status : String)
    (scheduledStr completedStr : Option RFC3339Text) (id u : Int) (ts : SqlTimestamp) :
    Keeps (updateWorkout title desc comment status scheduledStr completedStr id u ts) := by
  intro db db1 res h hs
  unfold updateWorkout at hs
  simp only [Except.ok.injEq, Prod.mk.injEq] at hs
  rw [← hs.1]
  refine ⟨h.1, ?_, ?_, h.2.2.2⟩
  · have hids : ∀ l : List WorkoutRow,
        (l.map fun r =>
          if (r.id == id && r.user_id == u) = true then
            { r with title := title, description := desc, comment := comment,
                     status := status, scheduled_at := scheduledStr,
                     completed_at := completedStr, updated_at := ts }
          else r).map (fun r => r.id) = l.map fun r => r.id := by
      intro l
      rw [List.map_map]
      apply List.map_congr_left
      intro r _
      simp only [Function.comp]
      split <;> rfl
    simp only [hids]
    exact h.2.1
  · intro e he
    obtain ⟨r, hr, hid⟩ := h.2.2.1 e he
    refine ⟨_, List.mem_map_of_mem _ hr, ?_⟩
    split <;> exact hid

theorem deleteWorkoutExercises_keeps (id : Int) : Keeps (deleteWorkoutExercises id) := by
  intro db db1 res h hs
  unfold deleteWorkoutExercises at hs
  simp only [Except.ok.injEq, Prod.mk.injEq] at hs
  rw [← hs.1]
  exact ⟨h.1, h.2.1, fun e he => h.2.2.1 e (List.mem_filter.mp he).1,
    fun e he => h.2.2.2 e (List.mem_filter.mp he).1⟩

theorem deleteWorkout_keeps (id u : Int) : Keeps (deleteWorkout id u) := by
  intro db db1 res h hs
  unfold deleteWorkout at hs
  simp only [Except.ok.injEq, Prod.mk.injEq] at hs
  rw [← hs.1]
  refine ⟨h.1, ?_, ?_, ?_⟩
  · exact h.2.1.sublist ((List.filter_sublist _).map _)
  · intro e he
    simp only at he
    by_cases hn : (db.workouts.countP (fun r => r.id == id && r.user_id == u) == 0) = true
    · simp only [hn, if_true] at he
      obtain ⟨r, hr, hid⟩ := h.2.2.1 e he
      refine ⟨r, List.mem_filter.mpr ⟨hr, ?_⟩, hid⟩
      simp only [beq_iff_eq, List.countP_eq_zero] at hn
      have hthis := hn r hr
      cases hb : (r.id == id && r.user_id == u) with
      | true => exact absurd hb hthis
      | false => rfl
    · simp only [hn] at he
      have he' := List.mem_filter.mp he
      obtain ⟨r, hr, hid⟩ := h.2.2.1 e he'.1
      refine ⟨r, List.mem_filter.mpr ⟨hr, ?_⟩, hid⟩
      have hne : ¬ e.workout_id = id := by simpa using he'.2
      have : ¬ r.id = id := by rw [hid]; exact hne
      simp [this]
  · intro e he
    simp only at he
    split at he
    · exact h.2.2.2 e he
    · exact h.2.2.2 e (List.mem_filter.mp he).1

theorem Exec_keeps (tx tx1 : Tx) (stmt : DB → Except String (DB × Result))
    (r : Except String Result) (heq : tx.Exec stmt = (tx1, r)) (hk : Keeps stmt)
    (h : tx.committed.Consistent ∧ tx.pending.Consistent) :
    tx1.committed.Consistent ∧ tx1.pending.Consistent := by
  unfold Tx.Exec at heq
  split at heq
  · simp only [Prod.mk.injEq] at heq
    rw [← heq.1]; exact h
  · next db1 res hs =>
    simp only [Prod.mk.injEq] at heq
    rw [← heq.1]
    exact ⟨h.1, hk _ _ _ h.2 hs⟩

theorem insertExercises_keeps (wid : Int) :
    ∀ (es : List WorkoutExerciseRequest) (tx tx1 : Tx) (r : Except String Unit),
      insertExercises wid tx es = (tx1, r) →
      tx.committed.Consistent ∧ tx.pending.Consistent →
      tx1.committed.Consistent ∧ tx1.pending.Consistent
  | [], tx, tx1, r, heq, h => by
    simp only [insertExercises, Prod.mk.injEq] at heq
    rw [← heq.1]; exact h
  | e :: es, tx, tx1, r, heq, h => by
    unfold insertExercises at heq
    split at heq
    · next tx2 err hex =>
      simp only [Prod.mk.injEq] at heq
      rw [← heq.1]
      exact Exec_keeps tx tx2 _ _ hex (insertWorkoutExercise_keeps wid e) h
    · next tx2 res hex =>
      exact insertExercises_keeps wid es tx2 tx1 r heq
        (Exec_keeps tx tx2 _ _ hex (insertWorkoutExercise_keeps wid e) h)

theorem replaceExercises_keeps (id : Int) (tx tx1 : Tx)
    (exs : Option (List WorkoutExerciseRequest)) (r : Except String Unit)
    (heq : replaceExercises id tx exs = (tx1, r))
    (h : tx.committed.Consistent ∧ tx.pending.Consistent) :
    tx1.committed.Consistent ∧ tx1.pending.Consistent := by
  cases exs with
  | none =>
    simp only [replaceExercises, Prod.mk.injEq] at heq
    rw [← heq.1]; exact h
  | some es =>
    simp only [replaceExercises] at heq
    split at heq
    · next tx2 err hex =>
      simp only [Prod.mk.injEq] at heq
      rw [← heq.1]
      exact Exec_keeps tx tx2 _ _ hex (deleteWorkoutExercises_keeps id) h
    · next tx2 res hex =>
      exact insertExercises_keeps id es tx2 tx1 r heq
        (Exec_keeps tx tx2 _ _ hex (deleteWorkoutExercises_keeps id) h)

/-- The schema constraints used as hypotheses below hold after `Migrate` and are kept by
every workout operation, whatever its arguments and outcome. -/
theorem Consistent_kept (db : DB) (id u : Int) (reqC : CreateWorkoutRequest)
    (reqU : UpdateWorkoutRequest) (now : Time) (ts : SqlTimestamp) (h : db.Consistent) :
    (CreateWorkout db u reqC ts).2.Consistent ∧
    (UpdateWorkout db id u reqU now ts).2.Consistent ∧
    (DeleteWorkout db id u).2.Consistent := by
  have hb : (Begin db).committed.Consistent ∧ (Begin db).pending.Consistent := ⟨h, h⟩
  refine ⟨?_, ?_, ?_⟩
  · simp only [CreateWorkout]
    split
    · next tx1 e1 heq => exact (Exec_keeps _ tx1 _ _ heq (insertWorkout_keeps _ _ _ _ _) hb).1
    · next tx1 res heq =>
      have h1 := Exec_keeps _ tx1 _ _ heq (insertWorkout_keeps _ _ _ _ _) hb
      split
      · next tx2 e2 heq2 => exact (insertExercises_keeps _ _ tx1 tx2 _ heq2 h1).1
      · next tx2 r2 heq2 => exact (insertExercises_keeps _ _ tx1 tx2 _ heq2 h1).2
  · simp only [UpdateWorkout]
    split
    · exact h
    · next existing hex =>
      split
      · next tx1 e1 heq =>
        exact (Exec_keeps _ tx1 _ _ heq (updateWorkout_keeps _ _ _ _ _ _ _ _ _) hb).1
      · next tx1 res heq =>
        have h1 := Exec_keeps _ tx1 _ _ heq (updateWorkout_keeps _ _ _ _ _ _ _ _ _) hb
        split
        · next tx2 e2 heq2 => exact (replaceExercises_keeps _ tx1 tx2 _ _ heq2 h1).1
        · next tx2 r2 heq2 => exact (replaceExercises_keeps _ tx1 tx2 _ _ heq2 h1).2
  · unfold DeleteWorkout
    split
    · exact h
    · next db1 res heq =>
      have := deleteWorkout_keeps id u db db1 res h heq
      split <;> exact this

/-! ## Rounding of `Float64` -/

namespace Float64

theorem log2_spec : ∀ (fuel n : Nat), 0 < n → n < 2 ^ fuel →
    2 ^ log2 fuel n ≤ n ∧ n < 2 ^ (log2 fuel n + 1)
  | 0, n, hn, hf => by simp at hf; omega
  | fuel + 1, n, hn, hf => by
    unfold log2
    by_cases h2 : n < 2
    · simp only [h2, if_true]
      omega
    · simp only [h2, if_false]
      have hpos : 0 < n / 2 := by omega
      have hlt : n / 2 < 2 ^ fuel := by
        rw [pow_succ] at hf
        omega
      obtain ⟨h1, h3⟩ := log2_spec fuel (n / 2) hpos hlt
      constructor
      · rw [pow_succ]; omega
      · rw [pow_succ]; omega

theorem log2_self (n : Nat) (hn : 0 < n) : 2 ^ log2 n n ≤ n ∧ n < 2 ^ (log2 n n + 1) :=
  log2_spec n n hn (Nat.lt_two_pow n)

theorem two_zpow_split (a : Int) :
    (2 : ℚ) ^ a = (2 : ℚ) ^ a.toNat / (2 : ℚ) ^ (-a).toNat := by
  rcases le_total 0 a with h | h
  · have h1 : (-a).toNat = 0 := Int.toNat_eq_zero.mpr (by omega)
    rw [h1, pow_zero, div_one]
    conv_lhs => rw [← Int.toNat_of_nonneg h]
    rw [zpow_natCast]
  · have h1 : a.toNat = 0 := Int.toNat_eq_zero.mpr h
    have h2 : a = -((-a).toNat : Int) := by
      rw [Int.toNat_of_nonneg (by omega)]; ring
    rw [h1, pow_zero]
    conv_lhs => rw [h2]
    rw [zpow_neg, zpow_natCast, one_div]

theorem floorLog2_spec (n d : Nat) (hn : 0 < n) (hd : 0 < d) :
    (2 : ℚ) ^ floorLog2 n d ≤ (n : ℚ) / d ∧ (n : ℚ) / d < (2 : ℚ) ^ (floorLog2 n d + 1) := by
  obtain ⟨ha1, ha2⟩ := log2_self n hn
  obtain ⟨hb1, hb2⟩ := log2_self d hd
  have hdq : (0 : ℚ) < d := by exact_mod_cast hd
  have hnq : (0 : ℚ) < n := by exact_mod_cast hn
  have ha1q : (2 : ℚ) ^ (log2 n n : Int) ≤ n := by
    rw [zpow_natCast]; exact_mod_cast ha1
  have ha2q : (n : ℚ) < (2 : ℚ) ^ ((log2 n n : Int) + 1) := by
    rw [show ((log2 n n : Int) + 1) = ((log2 n n + 1 : Nat) : Int) by push_cast; ring,
      zpow_natCast]
    exact_mod_cast ha2
  have hb1q : (2 : ℚ) ^ (log2 d d : Int) ≤ d := by
    rw [zpow_natCast]; exact_mod_cast hb1
  have hb2q : (d : ℚ) < (2 : ℚ) ^ ((log2 d d : Int) + 1) := by
    rw [show ((log2 d d : Int) + 1) = ((log2 d d + 1 : Nat) : Int) by push_cast; ring,
      zpow_natCast]
    exact_mod_cast hb2
  have h2pos : ∀ z : Int, (0 : ℚ) < (2 : ℚ) ^ z := fun z => zpow_pos (by norm_num) z
  set l : Int := (log2 n n : Int) - (log2 d d : Int) with hl
  have hcheck : (d * 2 ^ l.toNat ≤ n * 2 ^ (-l).toNat) ↔ (2 : ℚ) ^ l ≤ (n : ℚ) / d := by
    rw [le_div_iff₀ hdq, two_zpow_split l, div_mul_eq_mul_div,
      div_le_iff₀ (pow_pos (by norm_num) _)]
    constructor
    · intro h
      have : ((d * 2 ^ l.toNat : Nat) : ℚ) ≤ ((n * 2 ^ (-l).toNat : Nat) : ℚ) := by
        exact_mod_cast h
      push_cast at this
      linarith
    · intro h
      have : ((d * 2 ^ l.toNat : Nat) : ℚ) ≤ ((n * 2 ^ (-l).toNat : Nat) : ℚ) := by
        push_cast
        linarith
      exact_mod_cast this
  have hupper : (n : ℚ) / d < (2 : ℚ) ^ (l + 1) := by
    rw [div_lt_iff₀ hdq]
    have : (2 : ℚ) ^ (l + 1) = (2 : ℚ) ^ ((log2 n n : Int) + 1) / (2 : ℚ) ^ (log2 d d : Int) := by
      rw [← zpow_sub₀ (by norm_num : (2 : ℚ) ≠ 0)]
      congr 1
      omega
    rw [this, div_mul_eq_mul_div, lt_div_iff₀ (h2pos _)]
    calc (n : ℚ) * (2 : ℚ) ^ (log2 d d : Int) ≤ n * d := by
          exact mul_le_mul_of_nonneg_left hb1q (le_of_lt hnq)
      _ < (2 : ℚ) ^ ((log2 n n : Int) + 1) * d := by
          exact mul_lt_mul_of_pos_right ha2q hdq
  have hlower : (2 : ℚ) ^ (l - 1) ≤ (n : ℚ) / d := by
    rw [le_div_iff₀ hdq]
    have : (2 : ℚ) ^ (l - 1) = (2 : ℚ) ^ (log2 n n : Int) / (2 : ℚ) ^ ((log2 d d : Int) + 1) := by
      rw [← zpow_sub₀ (by norm_num : (2 : ℚ) ≠ 0)]
      congr 1
      omega
    rw [this, div_mul_eq_mul_div, div_le_iff₀ (h2pos _)]
    calc (2 : ℚ) ^ (log2 n n : Int) * d ≤ n * d := by
          exact mul_le_mul_of_nonneg_right ha1q (le_of_lt hdq)
      _ ≤ n * (2 : ℚ) ^ ((log2 d d : Int) + 1) := by
          exact mul_le_mul_of_nonneg_left (le_of_lt hb2q) (le_of_lt hnq)
  unfold floorLog2
  simp only [← hl]
  by_cases hc : d * 2 ^ l.toNat ≤ n * 2 ^ (-l).toNat
  · simp only [hc, if_true]
    exact ⟨hcheck.mp hc, hupper⟩
  · simp only [hc, if_false]
    refine ⟨hlower, ?_⟩
    rw [show l - 1 + 1 = l by ring]
    exact not_le.mp (fun h => hc (hcheck.mpr h))


theorem roundHalfEven_cases (n d : Nat) :
    roundHalfEven n d = n / d ∨ roundHalfEven n d = n / d + 1 := by
  unfold roundHalfEven
  simp only
  split
  · exact Or.inl rfl
  · split
    · exact Or.inr rfl
    · split
      · exact Or.inl rfl
      · exact Or.inr rfl

theorem roundHalfEven_of_dvd (n d : Nat) (hd : 0 < d) (h : n % d = 0) :
    roundHalfEven n d = n / d := by
  unfold roundHalfEven
  simp only [h, Nat.mul_zero, hd, if_true]

theorem roundHalfEven_le (n d K : Nat) (hd : 0 < d) (h : n ≤ K * d) :
    roundHalfEven n d ≤ K := by
  have hq : n / d ≤ K := Nat.div_le_of_le_mul (by rw [Nat.mul_comm]; exact h)
  rcases Nat.lt_or_ge (n / d) K with hlt | hge
  · rcases roundHalfEven_cases n d with h1 | h1 <;> omega
  · have hqK : n / d = K := Nat.le_antisymm hq hge
    have hmod : n % d = 0 := by
      have h1 := Nat.div_add_mod n d
      rw [hqK, Nat.mul_comm] at h1
      omega
    rw [roundHalfEven_of_dvd n d hd hmod]
    exact hq

theorem le_roundHalfEven (n d K : Nat) (hd : 0 < d) (h : K * d ≤ n) :
    K ≤ roundHalfEven n d := by
  have hq : K ≤ n / d := (Nat.le_div_iff_mul_le hd).mpr h
  rcases roundHalfEven_cases n d with h1 | h1 <;> omega

theorem roundHalfEven_le_of (n d K : Nat) (hd : 0 < d) (h : (n : ℚ) / d ≤ K) :
    roundHalfEven n d ≤ K := by
  apply roundHalfEven_le n d K hd
  have hdq : (0 : ℚ) < d := by exact_mod_cast hd
  rw [div_le_iff₀ hdq] at h
  exact_mod_cast h

theorem le_roundHalfEven_of (n d K : Nat) (hd : 0 < d) (h : (K : ℚ) ≤ (n : ℚ) / d) :
    K ≤ roundHalfEven n d := by
  apply le_roundHalfEven n d K hd
  have hdq : (0 : ℚ) < d := by exact_mod_cast hd
  rw [le_div_iff₀ hdq] at h
  exact_mod_cast h

theorem roundHalfEven_eq_of (n d K : Nat) (hd : 0 < d) (h : (n : ℚ) / d = K) :
    roundHalfEven n d = K :=
  Nat.le_antisymm (roundHalfEven_le_of n d K hd (le_of_eq h))
    (le_roundHalfEven_of n d K hd (le_of_eq h.symm))

theorem roundHalfEven_err (n d : Nat) (hd : 0 < d) :
    |(n : ℚ) / d - roundHalfEven n d| ≤ 1 / 2 := by
  have hdq : (0 : ℚ) < d := by exact_mod_cast hd
  have hdm := Nat.div_add_mod n d
  have hlt := Nat.mod_lt n hd
  have hn : (n : ℚ) = d * (n / d : Nat) + (n % d : Nat) := by exact_mod_cast hdm.symm
  have hr : (0 : ℚ) ≤ (n % d : Nat) := by positivity
  have hrd : ((n % d : Nat) : ℚ) < d := by exact_mod_cast hlt
  have hval : (n : ℚ) / d = (n / d : Nat) + ((n % d : Nat) : ℚ) / d := by
    rw [hn]; field_simp; ring
  unfold roundHalfEven
  simp only
  split
  · next h =>
    have h' : (2 : ℚ) * (n % d : Nat) < d := by exact_mod_cast h
    rw [hval, abs_le]
    constructor
    · have : (0 : ℚ) ≤ ((n % d : Nat) : ℚ) / d := div_nonneg hr (le_of_lt hdq)
      linarith
    · have : ((n % d : Nat) : ℚ) / d ≤ 1 / 2 := by
        rw [div_le_iff₀ hdq]; linarith
      linarith
  · next h =>
    split
    · next h2 =>
      have h' : (d : ℚ) < 2 * (n % d : Nat) := by exact_mod_cast h2
      rw [hval, abs_le]
      push_cast
      constructor
      · have : (1 : ℚ) / 2 ≤ ((n % d : Nat) : ℚ) / d := by
          rw [le_div_iff₀ hdq]; linarith
        linarith
      · have : ((n % d : Nat) : ℚ) / d ≤ 1 := by
          rw [div_le_iff₀ hdq]; linarith
        linarith
    · next h2 =>
      have heq : 2 * (n % d) = d := by omega
      have h' : (2 : ℚ) * (n % d : Nat) = d := by exact_mod_cast heq
      have hhalf : ((n % d : Nat) : ℚ) / d = 1 / 2 := by
        rw [div_eq_iff (ne_of_gt hdq)]; linarith
      split
      · rw [hval, hhalf, abs_le]
        constructor <;> norm_num
      · rw [hval, hhalf, abs_le]
        push_cast
        constructor <;> norm_num


theorem two_zpow_pos (z : Int) : (0 : ℚ) < (2 : ℚ) ^ z := zpow_pos (by norm_num) z

theorem two_zpow_le {a b : Int} (h : a ≤ b) : (2 : ℚ) ^ a ≤ (2 : ℚ) ^ b :=
  zpow_le_zpow_right₀ (by norm_num) h

theorem two_zpow_lt_iff {a b : Int} : (2 : ℚ) ^ a < (2 : ℚ) ^ b ↔ a < b :=
  zpow_lt_zpow_iff_right₀ (by norm_num)

theorem scaled_fraction (n d : Nat) (e : Int) :
    ((n * 2 ^ (-e).toNat : Nat) : ℚ) / ((d * 2 ^ e.toNat : Nat) : ℚ) =
      (n : ℚ) / d / (2 : ℚ) ^ e := by
  rw [two_zpow_split e]
  push_cast
  have h1 : (2 : ℚ) ^ e.toNat ≠ 0 := pow_ne_zero _ (by norm_num)
  have h2 : (2 : ℚ) ^ (-e).toNat ≠ 0 := pow_ne_zero _ (by norm_num)
  by_cases hd : (d : ℚ) = 0
  · simp [hd]
  · field_simp

theorem round_spec (neg : Bool) (n d : Nat) (hn : 0 < n) (hd : 0 < d) :
    ∃ (q : Nat) (e : Int),
      e = max (-1074) (floorLog2 n d - 52) ∧
      q = roundHalfEven (n * 2 ^ (-e).toNat) (d * 2 ^ e.toNat) ∧
      0 < d * 2 ^ e.toNat ∧
      q ≤ 2 ^ 53 ∧ (-1074 < e → 2 ^ 52 ≤ q) ∧
      round neg n d =
        (if q = 0 then zero
         else if q = 2 ^ 53 then
           (if 971 < e + 1 then .inf neg else .finite neg (2 ^ 52) (e + 1))
         else if 971 < e then .inf neg
         else .finite neg q e) := by
  obtain ⟨hl1, hl2⟩ := floorLog2_spec n d hn hd
  set l := floorLog2 n d with hl
  set e : Int := max (-1074) (l - 52) with he
  have hd' : 0 < d * 2 ^ e.toNat := Nat.mul_pos hd (pow_pos (by norm_num) _)
  have hfrac := scaled_fraction n d e
  have hepos := two_zpow_pos e
  refine ⟨roundHalfEven (n * 2 ^ (-e).toNat) (d * 2 ^ e.toNat), e, rfl, rfl, hd', ?_, ?_, ?_⟩
  · apply roundHalfEven_le_of _ _ _ hd'
    rw [hfrac, div_le_iff₀ hepos]
    have h1 : (2 : ℚ) ^ (l + 1) ≤ (2 : ℚ) ^ (53 + e) := two_zpow_le (by omega)
    have h2 : (2 : ℚ) ^ (53 + e) = ((2 ^ 53 : Nat) : ℚ) * (2 : ℚ) ^ e := by
      rw [zpow_add₀ (by norm_num : (2 : ℚ) ≠ 0)]
      norm_num
    exact le_of_lt (lt_of_lt_of_le hl2 (h1.trans (le_of_eq h2)))
  · intro hlt
    have hel : e = l - 52 := by omega
    apply le_roundHalfEven_of _ _ _ hd'
    rw [hfrac, le_div_iff₀ hepos]
    have h2 : (2 : ℚ) ^ l = ((2 ^ 52 : Nat) : ℚ) * (2 : ℚ) ^ e := by
      rw [hel, show l = 52 + (l - 52) by ring, zpow_add₀ (by norm_num : (2 : ℚ) ≠ 0)]
      norm_num
    exact (le_of_eq h2.symm).trans hl1
  · unfold round
    have hn0 : n ≠ 0 := by omega
    simp only [hn0, if_false, ← hl, ← he]


theorem zero_wellFormed : zero.WellFormed := by
  unfold zero WellFormed
  refine ⟨by norm_num, le_refl _, by norm_num, Or.inr rfl, fun _ => rfl⟩

theorem round_wellFormed (neg : Bool) (n d : Nat) (hd : 0 < d) :
    (round neg n d).WellFormed := by
  rcases Nat.eq_zero_or_pos n with hn | hn
  · unfold round
    simp only [hn, if_true]
    exact zero_wellFormed
  · obtain ⟨q, e, he, _, _, hq1, hq2, hr⟩ := round_spec neg n d hn hd
    rw [hr]
    have he1 : -1074 ≤ e := by rw [he]; exact le_max_left _ _
    split
    · exact zero_wellFormed
    · next hq0 =>
      split
      · split
        · trivial
        · next h971 =>
          exact ⟨by norm_num, by omega, by omega, Or.inl (le_refl _), fun h => by norm_num at h⟩
      · next hq53 =>
        split
        · trivial
        · next h971 =>
          refine ⟨by omega, he1, by omega, ?_, fun h => absurd h hq0⟩
          rcases eq_or_lt_of_le he1 with h | h
          · exact Or.inr h.symm
          · exact Or.inl (hq2 h)

/-- Rounding does not pass a value of the format: an exact result at most `m * 2 ^ ee`
rounds to a finite value at most `m * 2 ^ ee`. -/
theorem round_le (neg : Bool) (n d : Nat) (hd : 0 < d) (m : Nat) (ee : Int)
    (hm : m < 2 ^ 53) (h1 : -1074 ≤ ee) (h2 : ee ≤ 971)
    (h : (n : ℚ) / d ≤ m * (2 : ℚ) ^ ee) :
    ∃ s q e, round neg n d = .finite s q e ∧ (q : ℚ) * (2 : ℚ) ^ e ≤ m * (2 : ℚ) ^ ee ∧
      (q ≠ 0 → s = neg) := by
  have hmee : (0 : ℚ) ≤ m * (2 : ℚ) ^ ee := mul_nonneg (by positivity) (le_of_lt (two_zpow_pos _))
  rcases Nat.eq_zero_or_pos n with hn | hn
  · refine ⟨false, 0, -1074, ?_, ?_, fun h => absurd rfl h⟩
    · unfold round; simp only [hn, if_true]; rfl
    · simpa using hmee
  · obtain ⟨q, e, he, hq, hd', hq1, hq2, hr⟩ := round_spec neg n d hn hd
    obtain ⟨hl1, hl2⟩ := floorLog2_spec n d hn hd
    -- the exponent of the result is at most `ee`
    have hlt : (2 : ℚ) ^ floorLog2 n d < (2 : ℚ) ^ (53 + ee) := by
      have h53 : (m : ℚ) < ((2 ^ 53 : Nat) : ℚ) := by exact_mod_cast hm
      have : (m : ℚ) * (2 : ℚ) ^ ee < (2 : ℚ) ^ (53 + ee) := by
        rw [zpow_add₀ (by norm_num : (2 : ℚ) ≠ 0)]
        have := mul_lt_mul_of_pos_right h53 (two_zpow_pos ee)
        norm_num at this ⊢
        exact this
      exact lt_of_le_of_lt (hl1.trans h) this
    have hl : floorLog2 n d < 53 + ee := two_zpow_lt_iff.mp hlt
    have hee : e ≤ ee := by rw [he]; exact max_le h1 (by omega)
    -- the scaled bound is a whole number
    have hK : (m : ℚ) * (2 : ℚ) ^ ee = ((m * 2 ^ (ee - e).toNat : Nat) : ℚ) * (2 : ℚ) ^ e := by
      push_cast
      rw [mul_assoc, ← zpow_natCast, ← zpow_add₀ (by norm_num : (2 : ℚ) ≠ 0),
        Int.toNat_of_nonneg (by omega)]
      congr 2
      ring
    have hqK : q ≤ m * 2 ^ (ee - e).toNat := by
      rw [hq]
      apply roundHalfEven_le_of _ _ _ hd'
      rw [scaled_fraction, div_le_iff₀ (two_zpow_pos e), ← hK]
      exact h
    have hval : (q : ℚ) * (2 : ℚ) ^ e ≤ m * (2 : ℚ) ^ ee := by
      rw [hK]
      exact mul_le_mul_of_nonneg_right (by exact_mod_cast hqK) (le_of_lt (two_zpow_pos e))
    rw [hr]
    split
    · next hq0 =>
      refine ⟨false, 0, -1074, rfl, ?_, fun h => absurd rfl h⟩
      simpa using hmee
    · next hq0 =>
      split
      · next hq53 =>
        -- `2 ^ 53 * 2 ^ e ≤ m * 2 ^ ee < 2 ^ 53 * 2 ^ ee`, so `e < ee`
        have hlt2 : (2 : ℚ) ^ (53 + e) < (2 : ℚ) ^ (53 + ee) := by
          have h53 : (m : ℚ) < ((2 ^ 53 : Nat) : ℚ) := by exact_mod_cast hm
          have hb : (m : ℚ) * (2 : ℚ) ^ ee < (2 : ℚ) ^ (53 + ee) := by
            rw [zpow_add₀ (by norm_num : (2 : ℚ) ≠ 0)]
            have := mul_lt_mul_of_pos_right h53 (two_zpow_pos ee)
            norm_num at this ⊢
            exact this
          have ha : (2 : ℚ) ^ (53 + e) = (q : ℚ) * (2 : ℚ) ^ e := by
            rw [hq53, zpow_add₀ (by norm_num : (2 : ℚ) ≠ 0)]
            norm_num
          rw [ha]
          exact lt_of_le_of_lt hval hb
        have helt : e < ee := by
          have := two_zpow_lt_iff.mp hlt2
          omega
        have h971 : ¬ 971 < e + 1 := by omega
        simp only [h971, if_false]
        refine ⟨neg, 2 ^ 52, e + 1, rfl, ?_, fun _ => rfl⟩
        have : ((2 ^ 52 : Nat) : ℚ) * (2 : ℚ) ^ (e + 1) = (q : ℚ) * (2 : ℚ) ^ e := by
          rw [hq53, zpow_add₀ (by norm_num : (2 : ℚ) ≠ 0)]
          norm_num
          ring
        rw [this]
        exact hval
      · next hq53 =>
        have h971 : ¬ 971 < e := by omega
        simp only [h971, if_false]
        exact ⟨neg, q, e, rfl, hval, fun _ => rfl⟩

/-- A value of the format rounds to itself. -/
theorem round_exact (neg : Bool) (n d : Nat) (hd : 0 < d) (m : Nat) (ee : Int)
    (hm0 : 0 < m) (hwf : (Float64.finite neg m ee).WellFormed)
    (h : (n : ℚ) / d = m * (2 : ℚ) ^ ee) :
    round neg n d = .finite neg m ee := by
  obtain ⟨hm, h1, h2, hnorm, _⟩ := hwf
  have hdq : (0 : ℚ) < d := by exact_mod_cast hd
  have hvpos : (0 : ℚ) < (n : ℚ) / d := by
    rw [h]
    exact mul_pos (by exact_mod_cast hm0) (two_zpow_pos _)
  have hn : 0 < n := by
    rcases Nat.eq_zero_or_pos n with h0 | h0
    · rw [h0] at hvpos; simp at hvpos
    · exact h0
  obtain ⟨q, e, he, hq, hd', hq1, hq2, hr⟩ := round_spec neg n d hn hd
  obtain ⟨hl1, hl2⟩ := floorLog2_spec n d hn hd
  have h53 : (m : ℚ) < ((2 ^ 53 : Nat) : ℚ) := by exact_mod_cast hm
  have hupper : (m : ℚ) * (2 : ℚ) ^ ee < (2 : ℚ) ^ (53 + ee) := by
    rw [zpow_add₀ (by norm_num : (2 : ℚ) ≠ 0)]
    have := mul_lt_mul_of_pos_right h53 (two_zpow_pos ee)
    norm_num at this ⊢
    exact this
  have hl : floorLog2 n d < 53 + ee := by
    apply two_zpow_lt_iff.mp
    rw [h] at hl1
    exact lt_of_le_of_lt hl1 hupper
  have hee : e = ee := by
    rcases hnorm with h52 | hsub
    · have h52q : ((2 ^ 52 : Nat) : ℚ) ≤ (m : ℚ) := by exact_mod_cast h52
      have hlow : (2 : ℚ) ^ (52 + ee) ≤ (m : ℚ) * (2 : ℚ) ^ ee := by
        rw [zpow_add₀ (by norm_num : (2 : ℚ) ≠ 0)]
        have := mul_le_mul_of_nonneg_right h52q (le_of_lt (two_zpow_pos ee))
        norm_num at this ⊢
        exact this
      have : 52 + ee < floorLog2 n d + 1 := by
        apply two_zpow_lt_iff.mp
        rw [h] at hl2
        exact lt_of_le_of_lt hlow hl2
      rw [he]
      have : floorLog2 n d - 52 = ee := by omega
      rw [this]
      exact max_eq_right h1
    · rw [he, hsub]
      apply max_eq_left
      omega
  have hqm : q = m := by
    rw [hq]
    apply roundHalfEven_eq_of _ _ _ hd'
    rw [scaled_fraction, h, hee, mul_div_assoc, div_self (ne_of_gt (two_zpow_pos ee)), mul_one]
  rw [hr, hqm, hee]
  have hm0' : m ≠ 0 := by omega
  have hm53 : m ≠ 2 ^ 53 := by omega
  have h971 : ¬ 971 < ee := by omega
  simp only [hm0', hm53, h971, if_false]

/-- Rounding does not fall below a value of the format. -/
theorem le_round (neg : Bool) (n d : Nat) (hd : 0 < d) (m : Nat) (ee : Int)
    (hm0 : 0 < m) (hwf : (Float64.finite neg m ee).WellFormed)
    (h : (m : ℚ) * (2 : ℚ) ^ ee ≤ (n : ℚ) / d) :
    round neg n d = .inf neg ∨
      ∃ q e, round neg n d = .finite neg q e ∧ (m : ℚ) * (2 : ℚ) ^ ee ≤ q * (2 : ℚ) ^ e := by
  obtain ⟨hm, h1, h2, hnorm, _⟩ := hwf
  have hvpos : (0 : ℚ) < (n : ℚ) / d :=
    lt_of_lt_of_le (mul_pos (by exact_mod_cast hm0) (two_zpow_pos _)) h
  have hn : 0 < n := by
    rcases Nat.eq_zero_or_pos n with h0 | h0
    · rw [h0] at hvpos; simp at hvpos
    · exact h0
  obtain ⟨q, e, he, hq, hd', hq1, hq2, hr⟩ := round_spec neg n d hn hd
  obtain ⟨hl1, hl2⟩ := floorLog2_spec n d hn hd
  have h53 : (m : ℚ) < ((2 ^ 53 : Nat) : ℚ) := by exact_mod_cast hm
  have hupper : (m : ℚ) * (2 : ℚ) ^ ee < (2 : ℚ) ^ (53 + ee) := by
    rw [zpow_add₀ (by norm_num : (2 : ℚ) ≠ 0)]
    have := mul_lt_mul_of_pos_right h53 (two_zpow_pos ee)
    norm_num at this ⊢
    exact this
  have he1 : -1074 ≤ e := by rw [he]; exact le_max_left _ _
  have hee : ee ≤ e := by
    rcases hnorm with h52 | hsub
    · have h52q : ((2 ^ 52 : Nat) : ℚ) ≤ (m : ℚ) := by exact_mod_cast h52
      have hlow : (2 : ℚ) ^ (52 + ee) ≤ (m : ℚ) * (2 : ℚ) ^ ee := by
        rw [zpow_add₀ (by norm_num : (2 : ℚ) ≠ 0)]
        have := mul_le_mul_of_nonneg_right h52q (le_of_lt (two_zpow_pos ee))
        norm_num at this ⊢
        exact this
      have : 52 + ee < floorLog2 n d + 1 := by
        apply two_zpow_lt_iff.mp
        exact lt_of_le_of_lt (hlow.trans h) hl2
      have : floorLog2 n d - 52 ≤ e := by rw [he]; exact le_max_right _ _
      omega
    · omega
  -- the value of the rounded mantissa is at least the bound
  have hval : (m : ℚ) * (2 : ℚ) ^ ee ≤ q * (2 : ℚ) ^ e := by
    rcases eq_or_lt_of_le hee with heq | hlt
    · have hmq : m ≤ q := by
        rw [hq]
        apply le_roundHalfEven_of _ _ _ hd'
        rw [scaled_fraction, le_div_iff₀ (two_zpow_pos e), ← heq]
        exact h
      rw [← heq]
      exact mul_le_mul_of_nonneg_right (by exact_mod_cast hmq) (le_of_lt (two_zpow_pos ee))
    · have hq52 : 2 ^ 52 ≤ q := hq2 (by omega)
      have hq52q : ((2 ^ 52 : Nat) : ℚ) ≤ (q : ℚ) := by exact_mod_cast hq52
      have h3 : (2 : ℚ) ^ (53 + ee) ≤ (2 : ℚ) ^ (52 + e) := two_zpow_le (by omega)
      have h4 : (2 : ℚ) ^ (52 + e) ≤ (q : ℚ) * (2 : ℚ) ^ e := by
        rw [zpow_add₀ (by norm_num : (2 : ℚ) ≠ 0)]
        have := mul_le_mul_of_nonneg_right hq52q (le_of_lt (two_zpow_pos e))
        norm_num at this ⊢
        exact this
      exact le_of_lt (lt_of_lt_of_le hupper (h3.trans h4))
  have hq0 : q ≠ 0 := by
    intro h0
    rw [h0] at hval
    have : (0 : ℚ) < (m : ℚ) * (2 : ℚ) ^ ee := mul_pos (by exact_mod_cast hm0) (two_zpow_pos _)
    simp at hval
    linarith
  rw [hr]
  simp only [hq0, if_false]
  split
  · next hq53 =>
    split
    · exact Or.inl rfl
    · refine Or.inr ⟨2 ^ 52, e + 1, rfl, ?_⟩
      have : ((2 ^ 52 : Nat) : ℚ) * (2 : ℚ) ^ (e + 1) = (q : ℚ) * (2 : ℚ) ^ e := by
        rw [hq53, zpow_add₀ (by norm_num : (2 : ℚ) ≠ 0)]
        norm_num
        ring
      rw [this]
      exact hval
  · split
    · exact Or.inl rfl
    · exact Or.inr ⟨q, e, rfl, hval⟩


theorem toRat_finite (s : Bool) (m : Nat) (e : Int) :
    (Float64.finite s m e).toRat = (if s then -1 else 1) * ((m : ℚ) * (2 : ℚ) ^ e) := by
  unfold toRat
  cases s <;> simp

/-- The exact value `n / d`, negated when `neg` is set, lies between two values of the
format: so does the rounded value, and it is finite. -/
theorem round_between (neg : Bool) (n d : Nat) (hd : 0 < d) (r1 r2 : Float64)
    (h1 : r1.isFinite = true) (h2 : r2.isFinite = true)
    (w1 : r1.WellFormed) (w2 : r2.WellFormed)
    (hlo : r1.toRat ≤ (if neg then -1 else 1) * ((n : ℚ) / d))
    (hhi : (if neg then -1 else 1) * ((n : ℚ) / d) ≤ r2.toRat) :
    ∃ s q e, round neg n d = .finite s q e ∧ r1.toRat ≤ (Float64.finite s q e).toRat ∧
      (Float64.finite s q e).toRat ≤ r2.toRat := by
  have hv : (0 : ℚ) ≤ (n : ℚ) / d := by positivity
  cases r1 with
  | inf _ => simp [isFinite] at h1
  | nan => simp [isFinite] at h1
  | finite s1 m1 e1 =>
  cases r2 with
  | inf _ => simp [isFinite] at h2
  | nan => simp [isFinite] at h2
  | finite s2 m2 e2 =>
  have hp1 : (0 : ℚ) ≤ (m1 : ℚ) * (2 : ℚ) ^ e1 :=
    mul_nonneg (by positivity) (le_of_lt (two_zpow_pos _))
  have hp2 : (0 : ℚ) ≤ (m2 : ℚ) * (2 : ℚ) ^ e2 :=
    mul_nonneg (by positivity) (le_of_lt (two_zpow_pos _))
  rw [toRat_finite] at hlo hhi
  cases neg with
  | false =>
    simp only [Bool.false_eq_true, if_false, one_mul] at hlo hhi
    -- the upper bound is not negative
    have hs2 : (n : ℚ) / d ≤ (m2 : ℚ) * (2 : ℚ) ^ e2 := by
      cases s2 with
      | false => simpa using hhi
      | true =>
        simp only [if_true] at hhi
        linarith
    obtain ⟨hm2, he2a, he2b, _, _⟩ := w2
    obtain ⟨s, q, e, hr, hval, hsq⟩ := round_le false n d hd m2 e2 hm2 he2a he2b hs2
    have hs2' : (Float64.finite s2 m2 e2).toRat = (m2 : ℚ) * (2 : ℚ) ^ e2 := by
      rw [toRat_finite]
      cases s2 with
      | false => simp
      | true =>
        simp only [if_true] at hhi
        have : (m2 : ℚ) * (2 : ℚ) ^ e2 = 0 := by linarith
        simp [this]
    have hqpos : (0 : ℚ) ≤ (q : ℚ) * (2 : ℚ) ^ e :=
      mul_nonneg (by positivity) (le_of_lt (two_zpow_pos _))
    have hres : (Float64.finite s q e).toRat = (q : ℚ) * (2 : ℚ) ^ e := by
      rw [toRat_finite]
      by_cases hq0 : q = 0
      · simp [hq0]
      · rw [hsq hq0]; simp
    refine ⟨s, q, e, hr, ?_, ?_⟩
    · rw [hres, toRat_finite]
      cases s1 with
      | true =>
        simp only [if_true]
        linarith
      | false =>
        simp only [Bool.false_eq_true, if_false, one_mul] at hlo ⊢
        rcases Nat.eq_zero_or_pos m1 with hm10 | hm10
        · simp [hm10]; exact hqpos
        · rcases le_round false n d hd m1 e1 hm10 w1 hlo with hinf | ⟨q', e', hr', hval'⟩
          · rw [hr] at hinf; cases hinf
          · rw [hr] at hr'
            cases hr'
            exact hval'
    · rw [hres, hs2']
      exact hval
  | true =>
    simp only [if_true] at hlo hhi
    have hs1 : (n : ℚ) / d ≤ (m1 : ℚ) * (2 : ℚ) ^ e1 := by
      cases s1 with
      | false =>
        simp only [Bool.false_eq_true, if_false, one_mul] at hlo
        linarith
      | true =>
        simp only [if_true] at hlo
        linarith
    obtain ⟨hm1, he1a, he1b, _, _⟩ := w1
    obtain ⟨s, q, e, hr, hval, hsq⟩ := round_le true n d hd m1 e1 hm1 he1a he1b hs1
    have hs1' : (Float64.finite s1 m1 e1).toRat = -((m1 : ℚ) * (2 : ℚ) ^ e1) := by
      rw [toRat_finite]
      cases s1 with
      | true => simp
      | false =>
        simp only [Bool.false_eq_true, if_false, one_mul] at hlo
        have : (m1 : ℚ) * (2 : ℚ) ^ e1 = 0 := by linarith
        simp [this]
    have hqpos : (0 : ℚ) ≤ (q : ℚ) * (2 : ℚ) ^ e :=
      mul_nonneg (by positivity) (le_of_lt (two_zpow_pos _))
    have hres : (Float64.finite s q e).toRat = -((q : ℚ) * (2 : ℚ) ^ e) := by
      rw [toRat_finite]
      by_cases hq0 : q = 0
      · simp [hq0]
      · rw [hsq hq0]; simp
    refine ⟨s, q, e, hr, ?_, ?_⟩
    · rw [hres, hs1']
      linarith
    · rw [hres, toRat_finite]
      cases s2 with
      | false =>
        simp only [Bool.false_eq_true, if_false, one_mul]
        linarith
      | true =>
        simp only [if_true] at hhi ⊢
        rcases Nat.eq_zero_or_pos m2 with hm20 | hm20
        · simp [hm20]; exact hqpos
        · have hhi' : (m2 : ℚ) * (2 : ℚ) ^ e2 ≤ (n : ℚ) / d := by linarith
          rcases le_round true n d hd m2 e2 hm20 w2 hhi' with hinf | ⟨q', e', hr', hval'⟩
          · rw [hr] at hinf; cases hinf
          · rw [hr] at hr'
            cases hr'
            linarith

/-- An exact value that is a value of the format is returned as it is. -/
theorem round_eq_of_toRat (neg : Bool) (n d : Nat) (hd : 0 < d) (r : Float64)
    (hfin : r.isFinite = true) (wf : r.WellFormed)
    (h : (if neg then -1 else 1) * ((n : ℚ) / d) = r.toRat) :
    round neg n d = r := by
  have hdq : (0 : ℚ) < d := by exact_mod_cast hd
  cases r with
  | inf _ => simp [isFinite] at hfin
  | nan => simp [isFinite] at hfin
  | finite s m e =>
  rw [toRat_finite] at h
  rcases Nat.eq_zero_or_pos m with hm0 | hm0
  · -- the value is zero
    obtain ⟨_, _, _, hnorm, hz⟩ := wf
    have hs : s = false := hz hm0
    have he : e = -1074 := by
      rcases hnorm with h52 | h52
      · rw [hm0] at h52; norm_num at h52
      · exact h52
    have hn : n = 0 := by
      rw [hm0] at h
      simp only [Nat.cast_zero, zero_mul, mul_zero, mul_eq_zero] at h
      rcases h with h | h
      · cases neg <;> simp at h
      · rcases div_eq_zero_iff.mp h with h | h
        · exact_mod_cast h
        · exact absurd h (ne_of_gt hdq)
    rw [hn, hm0, hs, he]
    unfold round
    simp only [if_true]
    rfl
  · have hpos : (0 : ℚ) < (m : ℚ) * (2 : ℚ) ^ e :=
      mul_pos (by exact_mod_cast hm0) (two_zpow_pos _)
    have hv : (0 : ℚ) ≤ (n : ℚ) / d := by positivity
    have hsign : neg = s := by
      cases neg <;> cases s <;> simp at h ⊢ <;> linarith
    subst hsign
    have hval : (n : ℚ) / d = (m : ℚ) * (2 : ℚ) ^ e := by
      cases neg <;> simp at h <;> linarith
    exact round_exact neg n d hd m e hm0 wf hval


theorem round_nat_exact (neg : Bool) (n : Nat) (hn : n < 2 ^ 53) :
    ∃ s q e, round neg n 1 = .finite s q e ∧
      (Float64.finite s q e).toRat = (if neg then -1 else 1) * (n : ℚ) := by
  rcases Nat.eq_zero_or_pos n with h0 | hpos
  · refine ⟨false, 0, -1074, ?_, ?_⟩
    · unfold round; simp only [h0, if_true]; rfl
    · rw [h0, toRat_finite]; simp
  · obtain ⟨hL1, hL2⟩ := log2_self n hpos
    set L := log2 n n with hL
    have hL52 : L ≤ 52 := by
      by_contra hc
      have : 2 ^ 53 ≤ 2 ^ L := Nat.pow_le_pow_right (by norm_num) (by omega)
      omega
    have hm1 : 2 ^ 52 ≤ n * 2 ^ (52 - L) := by
      calc 2 ^ 52 = 2 ^ L * 2 ^ (52 - L) := by
            rw [← pow_add]; congr 1; omega
        _ ≤ n * 2 ^ (52 - L) := Nat.mul_le_mul_right _ hL1
    have hm2 : n * 2 ^ (52 - L) < 2 ^ 53 := by
      calc n * 2 ^ (52 - L) < 2 ^ (L + 1) * 2 ^ (52 - L) :=
            Nat.mul_lt_mul_of_pos_right hL2 (pow_pos (by norm_num) _)
        _ = 2 ^ 53 := by rw [← pow_add]; congr 1; omega
    have hwf : (Float64.finite neg (n * 2 ^ (52 - L)) ((L : Int) - 52)).WellFormed :=
      ⟨hm2, by omega, by omega, Or.inl hm1, fun h => by omega⟩
    have hval : ((n : ℚ)) / ((1 : Nat) : ℚ) =
        ((n * 2 ^ (52 - L) : Nat) : ℚ) * (2 : ℚ) ^ ((L : Int) - 52) := by
      push_cast
      rw [div_one, mul_assoc, ← zpow_natCast, ← zpow_add₀ (by norm_num : (2 : ℚ) ≠ 0)]
      have : ((52 - L : Nat) : Int) + ((L : Int) - 52) = 0 := by omega
      rw [this, zpow_zero, mul_one]
    have hr := round_exact neg n 1 (by norm_num) (n * 2 ^ (52 - L)) ((L : Int) - 52)
      (by omega) hwf hval
    refine ⟨neg, n * 2 ^ (52 - L), (L : Int) - 52, hr, ?_⟩
    rw [toRat_finite, ← hval]
    simp

/-- The conversion of an integer below `2 ^ 53` in size is exact. -/
theorem ofInt_spec (i : Int) (h : i.natAbs < 2 ^ 53) :
    (ofInt i).isFinite = true ∧ (ofInt i).WellFormed ∧ (ofInt i).toRat = i := by
  obtain ⟨s, q, e, hr, hv⟩ := round_nat_exact (decide (i < 0)) i.natAbs h
  have hwf := round_wellFormed (decide (i < 0)) i.natAbs 1 (by norm_num)
  unfold ofInt
  refine ⟨by rw [hr]; rfl, hwf, ?_⟩
  rw [hr, hv]
  by_cases hneg : i < 0
  · simp only [hneg, decide_True, if_true]
    have : ((i.natAbs : Int) : ℚ) = -(i : ℚ) := by
      rw [← Int.cast_neg]; congr 1; omega
    have h2 : ((i.natAbs : Nat) : ℚ) = ((i.natAbs : Int) : ℚ) := (Int.cast_natCast _).symm
    rw [h2, this]; ring
  · simp only [hneg, decide_False, Bool.false_eq_true, if_false, one_mul]
    have : ((i.natAbs : Int) : ℚ) = (i : ℚ) := by
      congr 1; omega
    have h2 : ((i.natAbs : Nat) : ℚ) = ((i.natAbs : Int) : ℚ) := (Int.cast_natCast _).symm
    rw [h2, this]

theorem ofNat_spec (n : Nat) (h : n < 2 ^ 53) :
    (OfNat.ofNat n : Float64).isFinite = true ∧ (OfNat.ofNat n : Float64).WellFormed ∧
      (OfNat.ofNat n : Float64).toRat = n := by
  have := ofInt_spec (n : Int) (by simpa using h)
  simpa [OfNat.ofNat] using this

theorem scaled_cast (s : Bool) (m : Nat) (e x : Int) (hx : x ≤ e) :
    ((scaled s m e x : Int) : ℚ) * (2 : ℚ) ^ x = (Float64.finite s m e).toRat := by
  rw [toRat_finite]
  unfold scaled
  have hpow : ((2 : ℚ) ^ (e - x).toNat) * (2 : ℚ) ^ x = (2 : ℚ) ^ e := by
    rw [← zpow_natCast, ← zpow_add₀ (by norm_num : (2 : ℚ) ≠ 0),
      Int.toNat_of_nonneg (by omega)]
    congr 1; ring
  cases s
  · simp only [Bool.false_eq_true, if_false, one_mul]
    push_cast
    rw [mul_assoc, hpow]
  · simp only [if_true]
    push_cast
    rw [neg_mul, mul_assoc, hpow]; ring

theorem lt_finite (s : Bool) (m : Nat) (e : Int) (t : Bool) (k : Nat) (f : Int) :
    (Float64.finite s m e).lt (Float64.finite t k f) = true ↔
      (Float64.finite s m e).toRat < (Float64.finite t k f).toRat := by
  unfold lt
  simp only [decide_eq_true_eq]
  rw [← scaled_cast s m e (min e f) (min_le_left _ _),
    ← scaled_cast t k f (min e f) (min_le_right _ _),
    mul_lt_mul_right (two_zpow_pos _)]
  exact Int.cast_lt.symm

theorem le_finite (s : Bool) (m : Nat) (e : Int) (t : Bool) (k : Nat) (f : Int) :
    (Float64.finite s m e).le (Float64.finite t k f) = true ↔
      (Float64.finite s m e).toRat ≤ (Float64.finite t k f).toRat := by
  unfold le
  simp only [decide_eq_true_eq]
  rw [← scaled_cast s m e (min e f) (min_le_left _ _),
    ← scaled_cast t k f (min e f) (min_le_right _ _),
    mul_le_mul_right (two_zpow_pos _)]
  exact Int.cast_le.symm


theorem div_value (s : Bool) (m : Nat) (e : Int) (t : Bool) (k : Nat) (f : Int) (hk : k ≠ 0) :
    (if xor s t then -1 else 1) *
        (((m * 2 ^ (e - f).toNat : Nat) : ℚ) / ((k * 2 ^ (f - e).toNat : Nat) : ℚ)) =
      (Float64.finite s m e).toRat / (Float64.finite t k f).toRat := by
  have hfe : e - f = -(f - e) := by ring
  rw [hfe, scaled_fraction m k (f - e), toRat_finite, toRat_finite]
  have hkq : (k : ℚ) ≠ 0 := by exact_mod_cast hk
  have h1 : (2 : ℚ) ^ e ≠ 0 := ne_of_gt (two_zpow_pos _)
  have h2 : (2 : ℚ) ^ f ≠ 0 := ne_of_gt (two_zpow_pos _)
  have h3 : (2 : ℚ) ^ (f - e) = (2 : ℚ) ^ f / (2 : ℚ) ^ e := zpow_sub₀ (by norm_num) _ _
  rw [h3]
  cases s <;> cases t <;> simp <;> field_simp

theorem div_finite_pos (s : Bool) (m : Nat) (e : Int) (t : Bool) (k : Nat) (f : Int)
    (hk : k ≠ 0) :
    (Float64.finite s m e).div (Float64.finite t k f) =
      round (xor s t) (m * 2 ^ (e - f).toNat) (k * 2 ^ (f - e).toNat) := by
  unfold div
  simp only [hk, if_false]

theorem toRat_ne_zero_finite (t : Bool) (k : Nat) (f : Int)
    (h : (Float64.finite t k f).toRat ≠ 0) : k ≠ 0 := by
  intro hk
  apply h
  rw [toRat_finite, hk]
  simp

/-- A quotient whose exact value lies between two values of the format is finite and lies
between them. -/
theorem div_between (a b r1 r2 : Float64) (ha : a.isFinite = true) (hb : b.isFinite = true)
    (hb0 : b.toRat ≠ 0)
    (h1 : r1.isFinite = true) (h2 : r2.isFinite = true)
    (w1 : r1.WellFormed) (w2 : r2.WellFormed)
    (hlo : r1.toRat ≤ a.toRat / b.toRat) (hhi : a.toRat / b.toRat ≤ r2.toRat) :
    (a.div b).isFinite = true ∧ r1.toRat ≤ (a.div b).toRat ∧ (a.div b).toRat ≤ r2.toRat := by
  cases a with
  | inf _ => simp [isFinite] at ha
  | nan => simp [isFinite] at ha
  | finite s m e =>
  cases b with
  | inf _ => simp [isFinite] at hb
  | nan => simp [isFinite] at hb
  | finite t k f =>
  have hk := toRat_ne_zero_finite t k f hb0
  have hkpos : 0 < k * 2 ^ (f - e).toNat :=
    Nat.mul_pos (Nat.pos_of_ne_zero hk) (pow_pos (by norm_num) _)
  rw [div_finite_pos s m e t k f hk]
  rw [← div_value s m e t k f hk] at hlo hhi
  obtain ⟨s', q, e', hr, hl, hh⟩ := round_between _ _ _ hkpos r1 r2 h1 h2 w1 w2 hlo hhi
  rw [hr]
  exact ⟨rfl, hl, hh⟩

/-- A quotient whose exact value is a value of the format is that value. -/
theorem div_eq_of_toRat (a b r : Float64) (ha : a.isFinite = true) (hb : b.isFinite = true)
    (hb0 : b.toRat ≠ 0) (hr : r.isFinite = true) (wr : r.WellFormed)
    (h : a.toRat / b.toRat = r.toRat) : a.div b = r := by
  cases a with
  | inf _ => simp [isFinite] at ha
  | nan => simp [isFinite] at ha
  | finite s m e =>
  cases b with
  | inf _ => simp [isFinite] at hb
  | nan => simp [isFinite] at hb
  | finite t k f =>
  have hk := toRat_ne_zero_finite t k f hb0
  have hkpos : 0 < k * 2 ^ (f - e).toNat :=
    Nat.mul_pos (Nat.pos_of_ne_zero hk) (pow_pos (by norm_num) _)
  rw [div_finite_pos s m e t k f hk]
  rw [← div_value s m e t k f hk] at h
  exact round_eq_of_toRat _ _ _ hkpos r hr wr h

theorem add_value (s : Bool) (m : Nat) (e : Int) (t : Bool) (k : Nat) (f : Int) :
    (if decide (scaled s m e (min e f) + scaled t k f (min e f) < 0) then -1 else 1) *
        ((((scaled s m e (min e f) + scaled t k f (min e f)).natAbs * 2 ^ (min e f).toNat : Nat)
          : ℚ) / ((2 ^ (-(min e f)).toNat : Nat) : ℚ)) =
      (Float64.finite s m e).toRat + (Float64.finite t k f).toRat := by
  rw [← scaled_cast s m e (min e f) (min_le_left _ _),
    ← scaled_cast t k f (min e f) (min_le_right _ _), ← add_mul, ← Int.cast_add]
  set c := scaled s m e (min e f) + scaled t k f (min e f) with hc
  set x := min e f with hx
  have hpow : (((2 : ℚ) ^ x.toNat) / (2 : ℚ) ^ (-x).toNat) = (2 : ℚ) ^ x :=
    (two_zpow_split x).symm
  push_cast
  rw [mul_div_assoc, hpow]
  have habs : ((c.natAbs : Nat) : ℚ) = ((c.natAbs : Int) : ℚ) := (Int.cast_natCast _).symm
  by_cases hneg : c < 0
  · simp only [hneg, decide_True, if_true]
    have : ((c.natAbs : Int) : ℚ) = -(c : ℚ) := by
      rw [← Int.cast_neg]; congr 1; omega
    rw [habs, this]; ring
  · simp only [hneg, decide_False, Bool.false_eq_true, if_false, one_mul]
    have : ((c.natAbs : Int) : ℚ) = (c : ℚ) := by
      congr 1; omega
    rw [habs, this]

theorem add_finite (s : Bool) (m : Nat) (e : Int) (t : Bool) (k : Nat) (f : Int) :
    (Float64.finite s m e).add (Float64.finite t k f) =
      round (decide (scaled s m e (min e f) + scaled t k f (min e f) < 0))
        ((scaled s m e (min e f) + scaled t k f (min e f)).natAbs * 2 ^ (min e f).toNat)
        (2 ^ (-(min e f)).toNat) := rfl

/-- A sum whose exact value lies between two values of the format is finite and lies
between them. -/
theorem add_between (a b r1 r2 : Float64) (ha : a.isFinite = true) (hb : b.isFinite = true)
    (h1 : r1.isFinite = true) (h2 : r2.isFinite = true)
    (w1 : r1.WellFormed) (w2 : r2.WellFormed)
    (hlo : r1.toRat ≤ a.toRat + b.toRat) (hhi : a.toRat + b.toRat ≤ r2.toRat) :
    (a.add b).isFinite = true ∧ r1.toRat ≤ (a.add b).toRat ∧ (a.add b).toRat ≤ r2.toRat := by
  cases a with
  | inf _ => simp [isFinite] at ha
  | nan => simp [isFinite] at ha
  | finite s m e =>
  cases b with
  | inf _ => simp [isFinite] at hb
  | nan => simp [isFinite] at hb
  | finite t k f =>
  rw [add_finite]
  rw [← add_value s m e t k f] at hlo hhi
  obtain ⟨s', q, e', hr, hl, hh⟩ :=
    round_between _ _ _ (pow_pos (by norm_num) _) r1 r2 h1 h2 w1 w2 hlo hhi
  rw [hr]
  exact ⟨rfl, hl, hh⟩

/-- A sum whose exact value is a value of the format is that value. -/
theorem add_eq_of_toRat (a b r : Float64) (ha : a.isFinite = true) (hb : b.isFinite = true)
    (hr : r.isFinite = true) (wr : r.WellFormed)
    (h : a.toRat + b.toRat = r.toRat) : a.add b = r := by
  cases a with
  | inf _ => simp [isFinite] at ha
  | nan => simp [isFinite] at ha
  | finite s m e =>
  cases b with
  | inf _ => simp [isFinite] at hb
  | nan => simp [isFinite] at hb
  | finite t k f =>
  rw [add_finite]
  rw [← add_value s m e t k f] at h
  exact round_eq_of_toRat _ _ _ (pow_pos (by norm_num) _) r hr wr h

end Float64

theorem round_cases (neg : Bool) (n d : Nat) (hd : 0 < d) :
    Float64.round neg n d = Float64.zero ∨ Float64.round neg n d = .inf neg ∨
      ∃ q e, Float64.round neg n d = .finite neg q e := by
  rcases Nat.eq_zero_or_pos n with hn | hn
  · left; unfold Float64.round; simp only [hn, if_true]
  · obtain ⟨q, e, _, _, _, _, _, hr⟩ := Float64.round_spec neg n d hn hd
    rw [hr]
    split
    · exact Or.inl rfl
    · split
      · split
        · exact Or.inr (Or.inl rfl)
        · exact Or.inr (Or.inr ⟨_, _, rfl⟩)
      · split
        · exact Or.inr (Or.inl rfl)
        · exact Or.inr (Or.inr ⟨_, _, rfl⟩)

theorem tdiv_tmod_hour (d : Int) :
    d = 3600000000000 * d.tdiv 3600000000000 + d.tmod 3600000000000 ∧
    (0 ≤ d → 0 ≤ d.tdiv 3600000000000 ∧ 0 ≤ d.tmod 3600000000000 ∧
      d.tmod 3600000000000 < 3600000000000) ∧
    (d ≤ 0 → d.tdiv 3600000000000 ≤ 0 ∧ d.tmod 3600000000000 ≤ 0 ∧
      -3600000000000 < d.tmod 3600000000000) := by
  have hsum := Int.tdiv_add_tmod d 3600000000000
  refine ⟨hsum.symm, ?_, ?_⟩
  · intro h
    rw [Int.tdiv_eq_ediv h (by norm_num), Int.tmod_eq_emod h (by norm_num)]
    omega
  · intro h
    have h1 : d.tdiv 3600000000000 = -((-d) / 3600000000000) := by
      have := Int.neg_tdiv (-d) 3600000000000
      rw [neg_neg] at this
      rw [this, Int.tdiv_eq_ediv (by omega) (by norm_num)]
    rw [h1] at hsum ⊢
    omega

/-- `Hours` of a duration: a finite value within one hour of the whole hours, of the sign
of the duration. -/
theorem Hours_spec (d : Int) (hlo : -(2 ^ 63) ≤ d) (hhi : d < 2 ^ 63) :
    (Hours d).isFinite = true ∧
    ((d.tdiv 3600000000000 : Int) : ℚ) - 1 ≤ (Hours d).toRat ∧
    (Hours d).toRat ≤ ((d.tdiv 3600000000000 : Int) : ℚ) + 1 ∧
    (0 ≤ d → 0 ≤ (Hours d).toRat) ∧ (d ≤ 0 → (Hours d).toRat ≤ 0) := by
  obtain ⟨hsum, hpos, hneg⟩ := tdiv_tmod_hour d
  set hour := d.tdiv 3600000000000 with hhour
  set nsec := d.tmod 3600000000000 with hnsec
  have hhour_small : hour.natAbs < 2 ^ 53 := by
    rcases le_total 0 d with h | h
    · have := hpos h; omega
    · have := hneg h; omega
  have hnsec_small : nsec.natAbs < 2 ^ 53 := by
    rcases le_total 0 d with h | h
    · have := hpos h; omega
    · have := hneg h; omega
  obtain ⟨fh1, fh2, fh3⟩ := Float64.ofInt_spec hour hhour_small
  obtain ⟨fn1, fn2, fn3⟩ := Float64.ofInt_spec nsec hnsec_small
  obtain ⟨fc1, fc2, fc3⟩ := Float64.ofNat_spec 3600000000000 (by norm_num)
  obtain ⟨f11, f12, f13⟩ := Float64.ofInt_spec 1 (by norm_num)
  obtain ⟨f01, f02, f03⟩ := Float64.ofInt_spec 0 (by norm_num)
  obtain ⟨fm1, fm2, fm3⟩ := Float64.ofInt_spec (-1) (by norm_num)
  have hc0 : (OfNat.ofNat 3600000000000 : Float64).toRat ≠ 0 := by rw [fc3]; norm_num
  -- the fraction of an hour
  have hx : ((Float64.ofInt nsec).div 3600000000000).isFinite = true ∧
      (0 ≤ d → 0 ≤ ((Float64.ofInt nsec).div 3600000000000).toRat ∧
        ((Float64.ofInt nsec).div 3600000000000).toRat ≤ 1) ∧
      (d ≤ 0 → -1 ≤ ((Float64.ofInt nsec).div 3600000000000).toRat ∧
        ((Float64.ofInt nsec).div 3600000000000).toRat ≤ 0) := by
    have hA : 0 ≤ d → ((Float64.ofInt nsec).div 3600000000000).isFinite = true ∧
        0 ≤ ((Float64.ofInt nsec).div 3600000000000).toRat ∧
        ((Float64.ofInt nsec).div 3600000000000).toRat ≤ 1 := by
      intro h
      obtain ⟨_, hn0, hn1⟩ := hpos h
      have hq0 : (0 : ℚ) ≤ (nsec : ℚ) := by exact_mod_cast hn0
      have hq1 : (nsec : ℚ) ≤ 3600000000000 := by exact_mod_cast (le_of_lt hn1)
      obtain ⟨r1, r2, r3⟩ := Float64.div_between (Float64.ofInt nsec) 3600000000000
        (Float64.ofInt 0) (Float64.ofInt 1) fn1 fc1 hc0 f01 f11 f02 f12
        (by rw [fn3, fc3, f03]; push_cast; positivity)
        (by rw [fn3, fc3, f13]; push_cast; rw [div_le_one (by norm_num)]; exact hq1)
      rw [f03] at r2
      rw [f13] at r3
      exact ⟨r1, by simpa using r2, by simpa using r3⟩
    have hB : d ≤ 0 → ((Float64.ofInt nsec).div 3600000000000).isFinite = true ∧
        -1 ≤ ((Float64.ofInt nsec).div 3600000000000).toRat ∧
        ((Float64.ofInt nsec).div 3600000000000).toRat ≤ 0 := by
      intro h
      obtain ⟨_, hn0, hn1⟩ := hneg h
      have hq0 : (nsec : ℚ) ≤ 0 := by exact_mod_cast hn0
      have hq1 : -3600000000000 ≤ (nsec : ℚ) := by exact_mod_cast (le_of_lt hn1)
      obtain ⟨r1, r2, r3⟩ := Float64.div_between (Float64.ofInt nsec) 3600000000000
        (Float64.ofInt (-1)) (Float64.ofInt 0) fn1 fc1 hc0 fm1 f01 fm2 f02
        (by rw [fn3, fc3, fm3]; push_cast; rw [le_div_iff₀ (by norm_num)]; linarith)
        (by rw [fn3, fc3, f03]; push_cast
            exact div_nonpos_of_nonpos_of_nonneg hq0 (by norm_num))
      rw [fm3] at r2
      rw [f03] at r3
      exact ⟨r1, by simpa using r2, by simpa using r3⟩
    refine ⟨?_, fun h => (hA h).2, fun h => (hB h).2⟩
    rcases le_total 0 d with h | h
    · exact (hA h).1
    · exact (hB h).1
  obtain ⟨hx1, hx2, hx3⟩ := hx
  set x := (Float64.ofInt nsec).div 3600000000000 with hxdef
  have hH : Hours d = (Float64.ofInt hour).add x := rfl
  rw [hH]
  have hxb : -1 ≤ x.toRat ∧ x.toRat ≤ 1 := by
    rcases le_total 0 d with h | h
    · have := hx2 h; constructor <;> linarith [this.1, this.2]
    · have := hx3 h; constructor <;> linarith [this.1, this.2]
  have hm1_small : (hour - 1).natAbs < 2 ^ 53 := by omega
  have hp1_small : (hour + 1).natAbs < 2 ^ 53 := by omega
  obtain ⟨fa1, fa2, fa3⟩ := Float64.ofInt_spec (hour - 1) hm1_small
  obtain ⟨fb1, fb2, fb3⟩ := Float64.ofInt_spec (hour + 1) hp1_small
  obtain ⟨s1, s2, s3⟩ := Float64.add_between (Float64.ofInt hour) x
    (Float64.ofInt (hour - 1)) (Float64.ofInt (hour + 1)) fh1 hx1 fa1 fb1 fa2 fb2
    (by rw [fh3, fa3]; push_cast; linarith [hxb.1])
    (by rw [fh3, fb3]; push_cast; linarith [hxb.2])
  rw [fa3] at s2
  rw [fb3] at s3
  push_cast at s2 s3
  refine ⟨s1, s2, s3, ?_, ?_⟩
  · intro h
    obtain ⟨hh0, _, _⟩ := hpos h
    have hhq : (0 : ℚ) ≤ (hour : ℚ) := by exact_mod_cast hh0
    obtain ⟨_, t2, _⟩ := Float64.add_between (Float64.ofInt hour) x
      (Float64.ofInt 0) (Float64.ofInt (hour + 1)) fh1 hx1 f01 fb1 f02 fb2
      (by rw [fh3, f03]; push_cast; linarith [(hx2 h).1])
      (by rw [fh3, fb3]; push_cast; linarith [hxb.2])
    rw [f03] at t2
    simpa using t2
  · intro h
    obtain ⟨hh0, _, _⟩ := hneg h
    have hhq : (hour : ℚ) ≤ 0 := by exact_mod_cast hh0
    obtain ⟨_, _, t3⟩ := Float64.add_between (Float64.ofInt hour) x
      (Float64.ofInt (hour - 1)) (Float64.ofInt 0) fh1 hx1 fa1 f01 fa2 f02
      (by rw [fh3, fa3]; push_cast; linarith [hxb.1])
      (by rw [fh3, f03]; push_cast; linarith [(hx3 h).2])
    rw [f03] at t3
    simpa using t3

theorem ofInt_pos_cases (T : Int) (hT : 0 < T) :
    Float64.ofInt T = .inf false ∨
      ((Float64.ofInt T).isFinite = true ∧ (Float64.ofInt T).WellFormed ∧
        0 ≤ (Float64.ofInt T).toRat) := by
  have hdec : decide (T < 0) = false := by simp; omega
  have hwf := Float64.round_wellFormed false T.natAbs 1 (by norm_num)
  unfold Float64.ofInt
  rw [hdec]
  rcases round_cases false T.natAbs 1 (by norm_num) with h | h | ⟨q, e, h⟩
  · rw [h]
    exact Or.inr ⟨rfl, Float64.zero_wellFormed, by simp [Float64.zero, Float64.toRat]⟩
  · exact Or.inl h
  · rw [h] at hwf ⊢
    refine Or.inr ⟨rfl, hwf, ?_⟩
    rw [Float64.toRat_finite]
    simp only [Bool.false_eq_true, if_false, one_mul]
    exact mul_nonneg (by positivity) (le_of_lt (Float64.two_zpow_pos _))

theorem weeks_spec (d : Int) (hlo : -(2 ^ 63) ≤ d) (hhi : d < 2 ^ 63) :
    ((Hours d).div 168).isFinite = true ∧
    (d < 604800000000000 → ((Hours d).div 168).toRat ≤ 1) := by
  obtain ⟨h1, h2, h3, h4, h5⟩ := Hours_spec d hlo hhi
  obtain ⟨hsum, hpos, hneg⟩ := tdiv_tmod_hour d
  obtain ⟨fc1, fc2, fc3⟩ := Float64.ofNat_spec 168 (by norm_num)
  have hc0 : (OfNat.ofNat 168 : Float64).toRat ≠ 0 := by rw [fc3]; norm_num
  obtain ⟨fB1, fB2, fB3⟩ := Float64.ofInt_spec 2562050 (by norm_num)
  obtain ⟨fN1, fN2, fN3⟩ := Float64.ofInt_spec (-2562050) (by norm_num)
  obtain ⟨f11, f12, f13⟩ := Float64.ofInt_spec 1 (by norm_num)
  have hhour : -2562048 ≤ d.tdiv 3600000000000 ∧ d.tdiv 3600000000000 ≤ 2562048 := by
    rcases le_total 0 d with h | h
    · have := hpos h; omega
    · have := hneg h; omega
  have hq1 : (-2562048 : ℚ) ≤ ((d.tdiv 3600000000000 : Int) : ℚ) := by exact_mod_cast hhour.1
  have hq2 : ((d.tdiv 3600000000000 : Int) : ℚ) ≤ 2562048 := by exact_mod_cast hhour.2
  obtain ⟨r1, r2, r3⟩ := Float64.div_between (Hours d) 168
    (Float64.ofInt (-2562050)) (Float64.ofInt 2562050) h1 fc1 hc0 fN1 fB1 fN2 fB2
    (by rw [fc3, fN3]; push_cast; rw [le_div_iff₀ (by norm_num)]; linarith)
    (by rw [fc3, fB3]; push_cast; rw [div_le_iff₀ (by norm_num)]; linarith)
  refine ⟨r1, ?_⟩
  intro hweek
  have hH : (Hours d).toRat ≤ 168 := by
    rcases le_total 0 d with h | h
    · have : d.tdiv 3600000000000 ≤ 167 := by have := hpos h; omega
      have hq : ((d.tdiv 3600000000000 : Int) : ℚ) ≤ 167 := by exact_mod_cast this
      linarith
    · have := h5 h; linarith
  obtain ⟨_, _, t3⟩ := Float64.div_between (Hours d) 168
    (Float64.ofInt (-2562050)) (Float64.ofInt 1) h1 fc1 hc0 fN1 f11 fN2 f12
    (by rw [fc3, fN3]; push_cast; rw [le_div_iff₀ (by norm_num)]; linarith)
    (by rw [fc3, f13]; push_cast; rw [div_le_iff₀ (by norm_num)]; linarith)
  rw [f13] at t3
  simpa using t3

theorem one_eq : (1 : Float64) = .finite false (2 ^ 52) (-52) := by rfl

/-- The quotient `float64(T) / max(1, weeks)` of `GetReport` is at most `float64(T)`, and
equal to it when less than a week has passed. -/
theorem average_spec (T d : Int) (hT : 0 < T) (hlo : -(2 ^ 63) ≤ d) (hhi : d < 2 ^ 63) :
    ((Float64.ofInt T).div
        (if ((Hours d).div 168).lt 1 then 1 else (Hours d).div 168)).le
      (Float64.ofInt T) = true ∧
    (d < 604800000000000 →
      (Float64.ofInt T).div
        (if ((Hours d).div 168).lt 1 then 1 else (Hours d).div 168) = Float64.ofInt T) := by
  obtain ⟨hw1, hw2⟩ := weeks_spec d hlo hhi
  obtain ⟨f11, f12, f13⟩ := Float64.ofNat_spec 1 (by norm_num)
  obtain ⟨f01, f02, f03⟩ := Float64.ofInt_spec 0 (by norm_num)
  have h10 : (OfNat.ofNat 1 : Float64).toRat ≠ 0 := by rw [f13]; norm_num
  set weeks := (Hours d).div 168 with hweeks
  -- division by one
  have hdiv1 : (Float64.ofInt T).div 1 = Float64.ofInt T := by
    rcases ofInt_pos_cases T hT with hinf | ⟨hf, hwf, _⟩
    · rw [hinf, one_eq]; rfl
    · exact Float64.div_eq_of_toRat _ _ _ hf f11 h10 hf hwf (by rw [f13]; simp)
  have hself : (Float64.ofInt T).le (Float64.ofInt T) = true := by
    rcases ofInt_pos_cases T hT with hinf | ⟨hf, _, _⟩
    · rw [hinf]; rfl
    · cases hT' : Float64.ofInt T with
      | inf _ => rw [hT'] at hf; simp [Float64.isFinite] at hf
      | nan => rw [hT'] at hf; simp [Float64.isFinite] at hf
      | finite s m e => rw [Float64.le_finite]
  have hwfin : ∃ s q e, weeks = Float64.finite s q e := by
    cases hwk : weeks with
    | inf _ => rw [hwk] at hw1; simp [Float64.isFinite] at hw1
    | nan => rw [hwk] at hw1; simp [Float64.isFinite] at hw1
    | finite s q e => exact ⟨s, q, e, rfl⟩
  obtain ⟨s, q, e, hwk⟩ := hwfin
  rw [hwk] at hw2 ⊢
  by_cases hlt : (Float64.finite s q e).lt 1 = true
  · rw [if_pos hlt, hdiv1]
    exact ⟨hself, fun _ => rfl⟩
  · rw [if_neg hlt]
    have hge : (1 : ℚ) ≤ (Float64.finite s q e).toRat := by
      rw [one_eq, Float64.lt_finite] at hlt
      have h1v : (Float64.finite false (2 ^ 52) (-52)).toRat = 1 := by
        rw [← one_eq]; exact f13.trans (by norm_num)
      rw [h1v] at hlt
      exact not_lt.mp hlt
    have hs : s = false := by
      cases s with
      | false => rfl
      | true =>
        rw [Float64.toRat_finite] at hge
        simp only [if_true] at hge
        have : (0 : ℚ) ≤ (q : ℚ) * (2 : ℚ) ^ e :=
          mul_nonneg (by positivity) (le_of_lt (Float64.two_zpow_pos _))
        linarith
    have hw0 : (Float64.finite s q e).toRat ≠ 0 := by linarith
    rcases ofInt_pos_cases T hT with hinf | ⟨hf, hwf, hnn⟩
    · rw [hinf, hs]
      exact ⟨rfl, fun _ => rfl⟩
    · constructor
      · obtain ⟨r1, r2, r3⟩ := Float64.div_between (Float64.ofInt T) (Float64.finite s q e)
          (Float64.ofInt 0) (Float64.ofInt T) hf rfl hw0 f01 hf f02 hwf
          (by rw [f03]; push_cast; exact div_nonneg hnn (by linarith))
          (div_le_self hnn hge)
        cases hT' : Float64.ofInt T with
        | inf _ => rw [hT'] at hf; simp [Float64.isFinite] at hf
        | nan => rw [hT'] at hf; simp [Float64.isFinite] at hf
        | finite s0 m0 e0 =>
          rw [hT'] at r1 r3
          cases hq : (Float64.finite s0 m0 e0).div (Float64.finite s q e) with
          | inf _ => rw [hq] at r1; simp [Float64.isFinite] at r1
          | nan => rw [hq] at r1; simp [Float64.isFinite] at r1
          | finite s1 m1 e1 =>
            rw [hq] at r3
            rw [Float64.le_finite]
            exact r3
      · intro hweek
        have hle := hw2 hweek
        have h1 : (Float64.finite s q e).toRat = 1 := le_antisymm hle hge
        exact Float64.div_eq_of_toRat _ _ _ hf rfl hw0 hf hwf (by rw [h1]; simp)

namespace Float64

/-- The rounded value of a result in the normal range is within one part in `2 ^ 53` of the
exact value. -/
theorem round_rel_err (neg : Bool) (n d : Nat) (hn : 0 < n) (hd : 0 < d)
    (hnormal : (2 : ℚ) ^ (-1022 : Int) ≤ (n : ℚ) / d)
    (hfin : (round neg n d).isFinite = true) :
    |(round neg n d).toRat - (if neg then -1 else 1) * ((n : ℚ) / d)| ≤
      (n : ℚ) / d * (2 : ℚ) ^ (-53 : Int) := by
  obtain ⟨q, e, he, hq, hd', hq1, hq2, hr⟩ := round_spec neg n d hn hd
  obtain ⟨hl1, hl2⟩ := floorLog2_spec n d hn hd
  have hl : -1022 ≤ floorLog2 n d := by
    have : (2 : ℚ) ^ (-1022 : Int) < (2 : ℚ) ^ (floorLog2 n d + 1) := lt_of_le_of_lt hnormal hl2
    have := two_zpow_lt_iff.mp this
    omega
  have hel : e = floorLog2 n d - 52 := by rw [he]; exact max_eq_right (by omega)
  have herr := roundHalfEven_err (n * 2 ^ (-e).toNat) (d * 2 ^ e.toNat) hd'
  rw [scaled_fraction, ← hq] at herr
  have hepos := two_zpow_pos e
  -- the value of the result is `q * 2 ^ e`
  have hval : (round neg n d).toRat = (if neg then -1 else 1) * ((q : ℚ) * (2 : ℚ) ^ e) := by
    by_cases h0 : q = 0
    · rw [hr, if_pos h0, h0]; simp [zero, toRat]
    · rw [hr, if_neg h0] at hfin
      rw [hr, if_neg h0]
      by_cases h53 : q = 2 ^ 53
      · rw [if_pos h53] at hfin ⊢
        by_cases h971 : 971 < e + 1
        · rw [if_pos h971] at hfin; simp [isFinite] at hfin
        · rw [if_neg h971, toRat_finite, h53, zpow_add₀ (by norm_num : (2 : ℚ) ≠ 0)]
          norm_num
          ring_nf
      · rw [if_neg h53] at hfin ⊢
        by_cases h971 : 971 < e
        · rw [if_pos h971] at hfin; simp [isFinite] at hfin
        · rw [if_neg h971, toRat_finite]
  rw [hval, ← mul_sub, abs_mul]
  have hsgn : |(if neg then (-1 : ℚ) else 1)| = 1 := by cases neg <;> simp
  rw [hsgn, one_mul]
  have hx : (q : ℚ) * (2 : ℚ) ^ e - (n : ℚ) / d =
      -(((n : ℚ) / d / (2 : ℚ) ^ e - q) * (2 : ℚ) ^ e) := by
    have h2 : (2 : ℚ) ^ e ≠ 0 := ne_of_gt hepos
    field_simp
    ring_nf
  rw [hx, abs_neg, abs_mul, abs_of_pos hepos]
  have h1 : |(n : ℚ) / d / (2 : ℚ) ^ e - q| * (2 : ℚ) ^ e ≤ 1 / 2 * (2 : ℚ) ^ e :=
    mul_le_mul_of_nonneg_right herr (le_of_lt hepos)
  have h2 : (1 : ℚ) / 2 * (2 : ℚ) ^ e = (2 : ℚ) ^ floorLog2 n d * (2 : ℚ) ^ (-53 : Int) := by
    rw [hel, ← zpow_add₀ (by norm_num : (2 : ℚ) ≠ 0),
      show floorLog2 n d - 52 = floorLog2 n d + -53 + 1 by ring,
      zpow_add₀ (by norm_num : (2 : ℚ) ≠ 0) _ 1]
    norm_num
    ring
  have h3 : (2 : ℚ) ^ floorLog2 n d * (2 : ℚ) ^ (-53 : Int) ≤
      (n : ℚ) / d * (2 : ℚ) ^ (-53 : Int) :=
    mul_le_mul_of_nonneg_right hl1 (le_of_lt (two_zpow_pos _))
  linarith

/-- A finite quotient in the normal range is within one part in `2 ^ 53` of the exact
quotient. -/
theorem div_rel_err (a b : Float64) (ha : a.isFinite = true) (hb : b.isFinite = true)
    (hb0 : b.toRat ≠ 0) (hnormal : (2 : ℚ) ^ (-1022 : Int) ≤ |a.toRat / b.toRat|)
    (hfin : (a.div b).isFinite = true) :
    |(a.div b).toRat - a.toRat / b.toRat| ≤ |a.toRat / b.toRat| * (2 : ℚ) ^ (-53 : Int) := by
  cases a with
  | inf _ => simp [isFinite] at ha
  | nan => simp [isFinite] at ha
  | finite s m e =>
  cases b with
  | inf _ => simp [isFinite] at hb
  | nan => simp [isFinite] at hb
  | finite t k f =>
  have hk := toRat_ne_zero_finite t k f hb0
  have hkpos : 0 < k * 2 ^ (f - e).toNat :=
    Nat.mul_pos (Nat.pos_of_ne_zero hk) (pow_pos (by norm_num) _)
  have hv := div_value s m e t k f hk
  rw [div_finite_pos s m e t k f hk] at hfin ⊢
  have hfr : (0 : ℚ) ≤ ((m * 2 ^ (e - f).toNat : Nat) : ℚ) / ((k * 2 ^ (f - e).toNat : Nat) : ℚ) :=
    by positivity
  have habs : |(Float64.finite s m e).toRat / (Float64.finite t k f).toRat| =
      ((m * 2 ^ (e - f).toNat : Nat) : ℚ) / ((k * 2 ^ (f - e).toNat : Nat) : ℚ) := by
    rw [← hv, abs_mul, abs_of_nonneg hfr]
    cases xor s t <;> simp
  rw [habs] at hnormal ⊢
  have hn0 : 0 < m * 2 ^ (e - f).toNat := by
    rcases Nat.eq_zero_or_pos (m * 2 ^ (e - f).toNat) with h0 | h0
    · rw [h0] at hnormal
      simp at hnormal
      exact absurd hnormal (not_le.mpr (two_zpow_pos _))
    · exact h0
  rw [← hv]
  exact round_rel_err _ _ _ hn0 hkpos hnormal hfin

/-- A finite sum in the normal range is within one part in `2 ^ 53` of the exact sum. -/
theorem add_rel_err (a b : Float64) (ha : a.isFinite = true) (hb : b.isFinite = true)
    (hnormal : (2 : ℚ) ^ (-1022 : Int) ≤ |a.toRat + b.toRat|)
    (hfin : (a.add b).isFinite = true) :
    |(a.add b).toRat - (a.toRat + b.toRat)| ≤ |a.toRat + b.toRat| * (2 : ℚ) ^ (-53 : Int) := by
  cases a with
  | inf _ => simp [isFinite] at ha
  | nan => simp [isFinite] at ha
  | finite s m e =>
  cases b with
  | inf _ => simp [isFinite] at hb
  | nan => simp [isFinite] at hb
  | finite t k f =>
  have hv := add_value s m e t k f
  rw [add_finite] at hfin ⊢
  set c := scaled s m e (min e f) + scaled t k f (min e f) with hc
  have hfr : (0 : ℚ) ≤ ((c.natAbs * 2 ^ (min e f).toNat : Nat) : ℚ) /
      ((2 ^ (-(min e f)).toNat : Nat) : ℚ) := by positivity
  have habs : |(Float64.finite s m e).toRat + (Float64.finite t k f).toRat| =
      ((c.natAbs * 2 ^ (min e f).toNat : Nat) : ℚ) / ((2 ^ (-(min e f)).toNat : Nat) : ℚ) := by
    rw [← hv, abs_mul, abs_of_nonneg hfr]
    cases decide (c < 0) <;> simp
  rw [habs] at hnormal ⊢
  have hn0 : 0 < c.natAbs * 2 ^ (min e f).toNat := by
    rcases Nat.eq_zero_or_pos (c.natAbs * 2 ^ (min e f).toNat) with h0 | h0
    · rw [h0] at hnormal
      simp at hnormal
      exact absurd hnormal (not_le.mpr (two_zpow_pos _))
    · exact h0
  rw [← hv]
  exact round_rel_err _ _ _ hn0 (pow_pos (by norm_num) _) hnormal hfin

end Float64

namespace Float64

end Float64

theorem rel_interval (c b u : ℚ) (h : |c - b| ≤ b * u) :
    (1 - u) * b ≤ c ∧ c ≤ (1 + u) * b := by
  rw [abs_le] at h
  constructor <;> nlinarith [h.1, h.2]

theorem max_one_scale (a b lo hi : ℚ) (hlo1 : lo ≤ 1) (hhi1 : 1 ≤ hi)
    (h1 : lo * a ≤ b) (h2 : b ≤ hi * a) :
    lo * max 1 a ≤ max 1 b ∧ max 1 b ≤ hi * max 1 a := by
  have hhi0 : 0 ≤ hi := by linarith
  constructor
  · rcases le_total 1 a with h | h
    · rw [max_eq_right h]
      exact le_trans h1 (le_max_right _ _)
    · rw [max_eq_left h, mul_one]
      exact le_trans hlo1 (le_max_left _ _)
  · apply max_le
    · have : (1 : ℚ) ≤ max 1 a := le_max_left _ _
      nlinarith
    · have : a ≤ max 1 a := le_max_right _ _
      nlinarith

theorem two_pow_neg53 : (2 : ℚ) ^ (-53 : Int) = 1 / 9007199254740992 := by
  rw [zpow_neg]; norm_num

theorem two_pow_neg50 : (2 : ℚ) ^ (-50 : Int) = 1 / 1125899906842624 := by
  rw [zpow_neg]; norm_num

theorem two_pow_neg1022_le : (2 : ℚ) ^ (-1022 : Int) ≤ 1 / 36028797018963968 := by
  rw [show (1 : ℚ) / 36028797018963968 = (2 : ℚ) ^ (-55 : Int) by rw [zpow_neg]; norm_num]
  exact Float64.two_zpow_le (by norm_num)

/-- `Hours` of a positive duration is within two roundings of the exact number of hours. -/
theorem Hours_accuracy (d : Int) (hpos : 0 < d) (hhi : d < 2 ^ 63) :
    (Hours d).isFinite = true ∧
    (1 - (2 : ℚ) ^ (-53 : Int)) ^ 2 * ((d : ℚ) / 3600000000000) ≤ (Hours d).toRat ∧
    (Hours d).toRat ≤ (1 + (2 : ℚ) ^ (-53 : Int)) ^ 2 * ((d : ℚ) / 3600000000000) := by
  obtain ⟨hfin, _, _, _, _⟩ := Hours_spec d (by omega) hhi
  obtain ⟨hsum, hp, _⟩ := tdiv_tmod_hour d
  obtain ⟨hh0, hn0, hn1⟩ := hp (le_of_lt hpos)
  set hour := d.tdiv 3600000000000 with hhour
  set nsec := d.tmod 3600000000000 with hnsec
  have hdq : (d : ℚ) / 3600000000000 = (hour : ℚ) + (nsec : ℚ) / 3600000000000 := by
    have : (d : ℚ) = 3600000000000 * (hour : ℚ) + (nsec : ℚ) := by exact_mod_cast hsum
    rw [this]; field_simp; ring
  obtain ⟨fh1, fh2, fh3⟩ := Float64.ofInt_spec hour (by omega)
  obtain ⟨fn1, fn2, fn3⟩ := Float64.ofInt_spec nsec (by omega)
  obtain ⟨fc1, fc2, fc3⟩ := Float64.ofNat_spec 3600000000000 (by norm_num)
  obtain ⟨f11, f12, f13⟩ := Float64.ofInt_spec 1 (by norm_num)
  obtain ⟨f01, f02, f03⟩ := Float64.ofInt_spec 0 (by norm_num)
  have hc0 : (OfNat.ofNat 3600000000000 : Float64).toRat ≠ 0 := by rw [fc3]; norm_num
  have hhq : (0 : ℚ) ≤ (hour : ℚ) := by exact_mod_cast hh0
  have hnq0 : (0 : ℚ) ≤ (nsec : ℚ) := by exact_mod_cast hn0
  have hnq1 : (nsec : ℚ) ≤ 3600000000000 := by exact_mod_cast (le_of_lt hn1)
  have hu : (2 : ℚ) ^ (-53 : Int) = 1 / 9007199254740992 := two_pow_neg53
  obtain ⟨x1, x2, x3⟩ := Float64.div_between (Float64.ofInt nsec) 3600000000000
    (Float64.ofInt 0) (Float64.ofInt 1) fn1 fc1 hc0 f01 f11 f02 f12
    (by rw [fn3, fc3, f03]; push_cast; positivity)
    (by rw [fn3, fc3, f13]; push_cast; rw [div_le_one (by norm_num)]; exact hnq1)
  set x := (Float64.ofInt nsec).div 3600000000000 with hxdef
  have hH : Hours d = (Float64.ofInt hour).add x := rfl
  rw [hH] at hfin ⊢
  refine ⟨hfin, ?_⟩
  rw [hdq, hu]
  -- the fraction of an hour is accurate
  have hx : (1 - 1 / 9007199254740992) * ((nsec : ℚ) / 3600000000000) ≤ x.toRat ∧
      x.toRat ≤ (1 + 1 / 9007199254740992) * ((nsec : ℚ) / 3600000000000) := by
    rcases eq_or_lt_of_le hn0 with hz | hnpos
    · have hx0 : x.toRat = 0 := by
        obtain ⟨_, y2, y3⟩ := Float64.div_between (Float64.ofInt nsec) 3600000000000
          (Float64.ofInt 0) (Float64.ofInt 0) fn1 fc1 hc0 f01 f01 f02 f02
          (by rw [fn3, fc3, f03, ← hz]; simp)
          (by rw [fn3, fc3, f03, ← hz]; simp)
        rw [f03] at y2 y3
        push_cast at y2 y3
        exact le_antisymm y3 y2
      rw [hx0, ← hz]
      simp
    · have hn1' : (1 : ℚ) ≤ (nsec : ℚ) := by exact_mod_cast hnpos
      have hquot : (Float64.ofInt nsec).toRat / (OfNat.ofNat 3600000000000 : Float64).toRat =
          (nsec : ℚ) / 3600000000000 := by rw [fn3, fc3]; norm_num
      have hqpos : (0 : ℚ) < (nsec : ℚ) / 3600000000000 := by positivity
      have herr := Float64.div_rel_err (Float64.ofInt nsec) 3600000000000 fn1 fc1 hc0
        (by
          rw [hquot, abs_of_pos hqpos]
          refine le_trans two_pow_neg1022_le ?_
          rw [div_le_div_iff₀ (by norm_num) (by norm_num)]
          linarith)
        x1
      rw [hquot, abs_of_pos hqpos, hu] at herr
      exact rel_interval _ _ _ herr
  -- the sum
  have hs0 : (0 : ℚ) ≤ (Float64.ofInt hour).toRat + x.toRat := by
    rw [fh3]
    have : (0 : ℚ) ≤ x.toRat := by
      have := hx.1
      have h2 : (0 : ℚ) ≤ (1 - 1 / 9007199254740992) * ((nsec : ℚ) / 3600000000000) := by
        positivity
      linarith
    linarith
  rcases eq_or_lt_of_le hs0 with hz | hspos
  · -- impossible for a positive duration
    exfalso
    rw [fh3] at hz
    have hxn : (0 : ℚ) ≤ x.toRat := by
      have h2 : (0 : ℚ) ≤ (1 - 1 / 9007199254740992) * ((nsec : ℚ) / 3600000000000) := by
        positivity
      linarith [hx.1]
    have hhour0 : (hour : ℚ) = 0 := by linarith
    have hx0 : x.toRat = 0 := by linarith
    have hns : (nsec : ℚ) = 0 := by
      have := hx.1
      rw [hx0] at this
      have h3 : (0 : ℚ) < (1 - 1 / 9007199254740992 : ℚ) := by norm_num
      by_contra hne
      have : (0 : ℚ) < (nsec : ℚ) := lt_of_le_of_ne hnq0 (Ne.symm hne)
      have : (0 : ℚ) < (1 - 1 / 9007199254740992) * ((nsec : ℚ) / 3600000000000) := by
        positivity
      linarith
    have h1 : hour = 0 := by exact_mod_cast hhour0
    have h2 : nsec = 0 := by exact_mod_cast hns
    omega
  · have hsnormal : (2 : ℚ) ^ (-1022 : Int) ≤ |(Float64.ofInt hour).toRat + x.toRat| := by
      rw [abs_of_pos hspos]
      refine le_trans two_pow_neg1022_le ?_
      rw [fh3]
      rcases eq_or_lt_of_le hh0 with hz | hhpos
      · -- no whole hour: the fraction is positive
        have hnpos : 0 < nsec := by omega
        have hn1' : (1 : ℚ) ≤ (nsec : ℚ) := by exact_mod_cast hnpos
        have := hx.1
        have h3 : (1 : ℚ) / 36028797018963968 ≤
            (1 - 1 / 9007199254740992) * ((nsec : ℚ) / 3600000000000) := by
          have : (1 - 1 / 9007199254740992 : ℚ) * (1 / 3600000000000) ≤
              (1 - 1 / 9007199254740992) * ((nsec : ℚ) / 3600000000000) := by
            apply mul_le_mul_of_nonneg_left _ (by norm_num)
            rw [div_le_div_iff₀ (by norm_num) (by norm_num)]
            linarith
          have h4 : (1 : ℚ) / 36028797018963968 ≤
              (1 - 1 / 9007199254740992 : ℚ) * (1 / 3600000000000) := by norm_num
          linarith
        rw [← hz]
        push_cast
        linarith
      · have h1 : (1 : ℚ) ≤ (hour : ℚ) := by exact_mod_cast hhpos
        have hxn : (0 : ℚ) ≤ x.toRat := by
          have h2 : (0 : ℚ) ≤ (1 - 1 / 9007199254740992) * ((nsec : ℚ) / 3600000000000) := by
            positivity
          linarith [hx.1]
        have : (1 : ℚ) / 36028797018963968 ≤ 1 := by norm_num
        linarith
    have herr := Float64.add_rel_err (Float64.ofInt hour) x fh1 x1 hsnormal hfin
    rw [abs_of_pos hspos, hu] at herr
    obtain ⟨e1, e2⟩ := rel_interval _ _ _ herr
    rw [fh3] at e1 e2 hspos
    have hq : (0 : ℚ) ≤ (nsec : ℚ) / 3600000000000 := by positivity
    constructor
    · have : (1 - 1 / 9007199254740992 : ℚ) * ((hour : ℚ) + (nsec : ℚ) / 3600000000000) ≤
          (hour : ℚ) + x.toRat := by nlinarith [hx.1]
      calc (1 - 1 / 9007199254740992 : ℚ) ^ 2 * ((hour : ℚ) + (nsec : ℚ) / 3600000000000)
          = (1 - 1 / 9007199254740992) *
              ((1 - 1 / 9007199254740992) * ((hour : ℚ) + (nsec : ℚ) / 3600000000000)) := by
            ring
        _ ≤ (1 - 1 / 9007199254740992) * ((hour : ℚ) + x.toRat) :=
            mul_le_mul_of_nonneg_left this (by norm_num)
        _ ≤ _ := e1
    · have : (hour : ℚ) + x.toRat ≤
          (1 + 1 / 9007199254740992 : ℚ) * ((hour : ℚ) + (nsec : ℚ) / 3600000000000) := by
        nlinarith [hx.2]
      calc ((Float64.ofInt hour).add x).toRat
          ≤ (1 + 1 / 9007199254740992) * ((hour : ℚ) + x.toRat) := e2
        _ ≤ (1 + 1 / 9007199254740992) *
              ((1 + 1 / 9007199254740992) * ((hour : ℚ) + (nsec : ℚ) / 3600000000000)) :=
            mul_le_mul_of_nonneg_left this (by norm_num)
        _ = _ := by ring

theorem weeks_accuracy (d : Int) (hpos : 0 < d) (hhi : d < 2 ^ 63) :
    ((Hours d).div 168).isFinite = true ∧
    (1 - (2 : ℚ) ^ (-53 : Int)) ^ 3 * ((d : ℚ) / 3600000000000 / 168) ≤
      ((Hours d).div 168).toRat ∧
    ((Hours d).div 168).toRat ≤
      (1 + (2 : ℚ) ^ (-53 : Int)) ^ 3 * ((d : ℚ) / 3600000000000 / 168) ∧
    ((Hours d).div 168).toRat ≤ 2562050 := by
  obtain ⟨hf, h1, h2⟩ := Hours_accuracy d hpos hhi
  obtain ⟨hw, _⟩ := weeks_spec d (by omega) hhi
  obtain ⟨_, _, hup, _, _⟩ := Hours_spec d (by omega) hhi
  obtain ⟨hsum, hp, _⟩ := tdiv_tmod_hour d
  obtain ⟨hh0, hn0, hn1⟩ := hp (le_of_lt hpos)
  obtain ⟨fc1, fc2, fc3⟩ := Float64.ofNat_spec 168 (by norm_num)
  have hc0 : (OfNat.ofNat 168 : Float64).toRat ≠ 0 := by rw [fc3]; norm_num
  have hu : (2 : ℚ) ^ (-53 : Int) = 1 / 9007199254740992 := two_pow_neg53
  rw [hu] at h1 h2 ⊢
  have hd1 : (1 : ℚ) ≤ (d : ℚ) := by exact_mod_cast hpos
  have hHq : (1 : ℚ) / 3600000000000 ≤ (d : ℚ) / 3600000000000 := by
    rw [div_le_div_iff₀ (by norm_num) (by norm_num)]
    linarith
  have hHpos : (0 : ℚ) < (Hours d).toRat := by
    have : (0 : ℚ) < (1 - 1 / 9007199254740992 : ℚ) ^ 2 * ((d : ℚ) / 3600000000000) := by
      positivity
    linarith
  have hquot : (Hours d).toRat / (OfNat.ofNat 168 : Float64).toRat = (Hours d).toRat / 168 := by
    rw [fc3]; norm_num
  have hqpos : (0 : ℚ) < (Hours d).toRat / 168 := by positivity
  have herr := Float64.div_rel_err (Hours d) 168 hf fc1 hc0
    (by
      rw [hquot, abs_of_pos hqpos]
      refine le_trans two_pow_neg1022_le ?_
      have h3 : (1 - 1 / 9007199254740992 : ℚ) ^ 2 * (1 / 3600000000000) ≤ (Hours d).toRat :=
        le_trans (mul_le_mul_of_nonneg_left hHq (by norm_num)) h1
      have h4 : (1 : ℚ) / 36028797018963968 ≤
          (1 - 1 / 9007199254740992 : ℚ) ^ 2 * (1 / 3600000000000) / 168 := by norm_num
      have h5 : (1 - 1 / 9007199254740992 : ℚ) ^ 2 * (1 / 3600000000000) / 168 ≤
          (Hours d).toRat / 168 := by
        rw [div_le_div_iff₀ (by norm_num) (by norm_num)]
        linarith
      linarith)
    hw
  rw [hquot, abs_of_pos hqpos, hu] at herr
  obtain ⟨e1, e2⟩ := rel_interval _ _ _ herr
  have hhourq : ((d.tdiv 3600000000000 : Int) : ℚ) ≤ 2562047 := by
    have : d.tdiv 3600000000000 ≤ 2562047 := by omega
    exact_mod_cast this
  refine ⟨hw, ?_, ?_, ?_⟩
  · calc (1 - 1 / 9007199254740992 : ℚ) ^ 3 * ((d : ℚ) / 3600000000000 / 168)
        = (1 - 1 / 9007199254740992) *
            ((1 - 1 / 9007199254740992) ^ 2 * ((d : ℚ) / 3600000000000) / 168) := by ring
      _ ≤ (1 - 1 / 9007199254740992) * ((Hours d).toRat / 168) := by
          apply mul_le_mul_of_nonneg_left _ (by norm_num)
          rw [div_le_div_iff₀ (by norm_num) (by norm_num)]
          linarith
      _ ≤ _ := e1
  · calc ((Hours d).div 168).toRat ≤ (1 + 1 / 9007199254740992) * ((Hours d).toRat / 168) := e2
      _ ≤ (1 + 1 / 9007199254740992) *
            ((1 + 1 / 9007199254740992) ^ 2 * ((d : ℚ) / 3600000000000) / 168) := by
          apply mul_le_mul_of_nonneg_left _ (by norm_num)
          rw [div_le_div_iff₀ (by norm_num) (by norm_num)]
          linarith
      _ = _ := by ring
  · have : (Hours d).toRat / 168 ≤ 2562048 / 168 := by
      rw [div_le_div_iff₀ (by norm_num) (by norm_num)]
      linarith
    have h6 : (1 + 1 / 9007199254740992 : ℚ) * ((Hours d).toRat / 168) ≤
        (1 + 1 / 9007199254740992) * (2562048 / 168) :=
      mul_le_mul_of_nonneg_left this (by norm_num)
    have h7 : (1 + 1 / 9007199254740992 : ℚ) * (2562048 / 168) ≤ 2562050 := by norm_num
    linarith

/-- The average of `GetReport` is within one part in `2 ^ 50` of `T / max(1, w)`, where `w`
is the exact number of weeks in the duration `d`. -/
theorem average_accuracy (T d : Int) (hT : 0 < T) (hT53 : T < 2 ^ 53)
    (hlo : -(2 ^ 63) ≤ d) (hhi : d < 2 ^ 63) :
    ((Float64.ofInt T).div
        (if ((Hours d).div 168).lt 1 then 1 else (Hours d).div 168)).isFinite = true ∧
    |((Float64.ofInt T).div
          (if ((Hours d).div 168).lt 1 then 1 else (Hours d).div 168)).toRat -
        (T : ℚ) / max 1 ((d : ℚ) / 3600000000000 / 168)| ≤
      (T : ℚ) / max 1 ((d : ℚ) / 3600000000000 / 168) * (2 : ℚ) ^ (-50 : Int) := by
  obtain ⟨fT1, fT2, fT3⟩ := Float64.ofInt_spec T (by omega)
  have hTq : (1 : ℚ) ≤ (T : ℚ) := by exact_mod_cast hT
  rcases le_or_lt d 0 with hd0 | hdpos
  · -- no time has passed: the average is `T`
    have heq := (average_spec T d hT hlo hhi).2 (by omega)
    rw [heq]
    have hw : (d : ℚ) / 3600000000000 / 168 ≤ 0 := by
      have : (d : ℚ) ≤ 0 := by exact_mod_cast hd0
      apply div_nonpos_of_nonpos_of_nonneg _ (by norm_num)
      exact div_nonpos_of_nonpos_of_nonneg this (by norm_num)
    rw [max_eq_left (by linarith), div_one, fT3, sub_self, abs_zero]
    exact ⟨fT1, by positivity⟩
  · obtain ⟨hw1, hw2, hw3, hw4⟩ := weeks_accuracy d hdpos hhi
    have hu : (2 : ℚ) ^ (-53 : Int) = 1 / 9007199254740992 := two_pow_neg53
    rw [hu] at hw2 hw3
    rw [two_pow_neg50]
    set wq : ℚ := (d : ℚ) / 3600000000000 / 168 with hwq
    have hwqpos : 0 < wq := by
      have : (0 : ℚ) < (d : ℚ) := by exact_mod_cast hdpos
      positivity
    obtain ⟨s, q, e, hwk⟩ : ∃ s q e, (Hours d).div 168 = Float64.finite s q e := by
      cases hwk : (Hours d).div 168 with
      | inf _ => rw [hwk] at hw1; simp [Float64.isFinite] at hw1
      | nan => rw [hwk] at hw1; simp [Float64.isFinite] at hw1
      | finite s q e => exact ⟨s, q, e, rfl⟩
    rw [hwk] at hw2 hw3 hw4 ⊢
    obtain ⟨f11, f12, f13⟩ := Float64.ofNat_spec 1 (by norm_num)
    obtain ⟨f01, f02, f03⟩ := Float64.ofInt_spec 0 (by norm_num)
    -- the divisor: `max(1, weeks)` as a value
    have hdiv : ∃ w : Float64, (if (Float64.finite s q e).lt 1 then 1 else Float64.finite s q e) = w ∧
        w.isFinite = true ∧ w.toRat = max 1 (Float64.finite s q e).toRat := by
      have h1v : (Float64.finite false (2 ^ 52) (-52)).toRat = 1 := by
        rw [← one_eq]; exact f13.trans (by norm_num)
      by_cases hlt : (Float64.finite s q e).lt 1 = true
      · refine ⟨1, by rw [if_pos hlt], f11, ?_⟩
        rw [one_eq, Float64.lt_finite, h1v] at hlt
        rw [max_eq_left (le_of_lt hlt)]
        exact f13.trans (by norm_num)
      · refine ⟨Float64.finite s q e, by rw [if_neg hlt], rfl, ?_⟩
        rw [one_eq, Float64.lt_finite, h1v] at hlt
        rw [max_eq_right (not_lt.mp hlt)]
    obtain ⟨w, hwdef, hwfin, hwval⟩ := hdiv
    rw [hwdef]
    obtain ⟨m1, m2⟩ := max_one_scale wq (Float64.finite s q e).toRat
      ((1 - 1 / 9007199254740992) ^ 3) ((1 + 1 / 9007199254740992) ^ 3)
      (by norm_num) (by norm_num) hw2 hw3
    rw [← hwval] at m1 m2
    have hW1 : (1 : ℚ) ≤ w.toRat := by rw [hwval]; exact le_max_left _ _
    have hW2 : w.toRat ≤ 2562050 := by
      rw [hwval]; exact max_le (by norm_num) hw4
    have hMpos : (0 : ℚ) < max 1 wq := lt_of_lt_of_le one_pos (le_max_left _ _)
    have hw0 : w.toRat ≠ 0 := by linarith
    have hquot : (Float64.ofInt T).toRat / w.toRat = (T : ℚ) / w.toRat := by rw [fT3]
    have hqpos : (0 : ℚ) < (T : ℚ) / w.toRat := by positivity
    obtain ⟨a1, _, _⟩ := Float64.div_between (Float64.ofInt T) w
      (Float64.ofInt 0) (Float64.ofInt T) fT1 hwfin hw0 f01 fT1 f02 fT2
      (by rw [f03, hquot]; push_cast; exact le_of_lt hqpos)
      (by rw [fT3]; exact div_le_self (by linarith) hW1)
    have herr := Float64.div_rel_err (Float64.ofInt T) w fT1 hwfin hw0
      (by
        rw [hquot, abs_of_pos hqpos]
        refine le_trans two_pow_neg1022_le ?_
        have h1 : (1 : ℚ) / 2562050 ≤ (T : ℚ) / w.toRat := by
          rw [div_le_div_iff₀ (by norm_num) (by linarith)]
          nlinarith
        have h2 : (1 : ℚ) / 36028797018963968 ≤ 1 / 2562050 := by norm_num
        linarith)
      a1
    rw [hquot, abs_of_pos hqpos, hu] at herr
    obtain ⟨e1, e2⟩ := rel_interval _ _ _ herr
    refine ⟨a1, ?_⟩
    -- `T / w` against `T / max(1, wq)`
    have hlo3 : (0 : ℚ) < (1 - 1 / 9007199254740992 : ℚ) ^ 3 := by norm_num
    have hhi3 : (0 : ℚ) < (1 + 1 / 9007199254740992 : ℚ) ^ 3 := by norm_num
    have hq1 : (T : ℚ) / w.toRat ≤
        (T : ℚ) / max 1 wq * (1 / (1 - 1 / 9007199254740992) ^ 3) := by
      rw [div_mul_div_comm, mul_one, div_le_div_iff₀ (by linarith) (by positivity)]
      nlinarith
    have hq2 : (T : ℚ) / max 1 wq * (1 / (1 + 1 / 9007199254740992) ^ 3) ≤
        (T : ℚ) / w.toRat := by
      rw [div_mul_div_comm, mul_one, div_le_div_iff₀ (by positivity) (by linarith)]
      nlinarith
    have hApos : (0 : ℚ) < (T : ℚ) / max 1 wq := by positivity
    rw [abs_le]
    constructor
    · have h3 : (1 - 1 / 9007199254740992 : ℚ) * ((T : ℚ) / max 1 wq *
          (1 / (1 + 1 / 9007199254740992) ^ 3)) ≤
          (1 - 1 / 9007199254740992) * ((T : ℚ) / w.toRat) :=
        mul_le_mul_of_nonneg_left hq2 (by norm_num)
      have h4 : (1 - 1 / 1125899906842624 : ℚ) ≤
          (1 - 1 / 9007199254740992) * (1 / (1 + 1 / 9007199254740992) ^ 3) := by norm_num
      have h5 := mul_le_mul_of_nonneg_left h4 (le_of_lt hApos)
      have h6 : (1 - 1 / 9007199254740992 : ℚ) * ((T : ℚ) / max 1 wq *
          (1 / (1 + 1 / 9007199254740992) ^ 3)) =
          (T : ℚ) / max 1 wq *
            ((1 - 1 / 9007199254740992) * (1 / (1 + 1 / 9007199254740992) ^ 3)) := by ring
      have h7 : (T : ℚ) / max 1 wq * (1 - 1 / 1125899906842624) =
          (T : ℚ) / max 1 wq - (T : ℚ) / max 1 wq * (1 / 1125899906842624) := by ring
      linarith
    · have h3 : (1 + 1 / 9007199254740992 : ℚ) * ((T : ℚ) / w.toRat) ≤
          (1 + 1 / 9007199254740992) * ((T : ℚ) / max 1 wq *
            (1 / (1 - 1 / 9007199254740992) ^ 3)) :=
        mul_le_mul_of_nonneg_left hq1 (by norm_num)
      have h4 : (1 + 1 / 9007199254740992 : ℚ) * (1 / (1 - 1 / 9007199254740992) ^ 3) ≤
          1 + 1 / 1125899906842624 := by norm_num
      have h5 := mul_le_mul_of_nonneg_left h4 (le_of_lt hApos)
      have h6 : (1 + 1 / 9007199254740992 : ℚ) * ((T : ℚ) / max 1 wq *
          (1 / (1 - 1 / 9007199254740992) ^ 3)) =
          (T : ℚ) / max 1 wq *
            ((1 + 1 / 9007199254740992) * (1 / (1 - 1 / 9007199254740992) ^ 3)) := by ring
      have h7 : (T : ℚ) / max 1 wq * (1 + 1 / 1125899906842624) =
          (T : ℚ) / max 1 wq + (T : ℚ) / max 1 wq * (1 / 1125899906842624) := by ring
      linarith

/-! ## The calendar -/

theorem isLeapYear_iff (y : Nat) :
    isLeapYear y = true ↔ y % 4 = 0 ∧ (y % 100 ≠ 0 ∨ y % 400 = 0) := by
  unfold isLeapYear
  simp

theorem daysInYear_eq (y : Nat) :
    daysInYear y = if y % 4 = 0 ∧ (y % 100 ≠ 0 ∨ y % 400 = 0) then 366 else 365 := by
  unfold daysInYear
  by_cases h : isLeapYear y = true
  · rw [if_pos h, if_pos ((isLeapYear_iff y).mp h)]
  · rw [if_neg h, if_neg (fun h' => h ((isLeapYear_iff y).mpr h'))]

theorem sum_daysInYear (y : Nat) :
    ((List.range (y + 1)).map daysInYear).sum + y / 100 =
      365 * (y + 1) + y / 4 + y / 400 + 1 := by
  induction y with
  | zero => rfl
  | succ k ih =>
    rw [List.range_succ, List.map_append, List.sum_append]
    simp only [List.map_cons, List.map_nil, List.sum_cons, List.sum_nil, Nat.add_zero]
    rw [daysInYear_eq]
    split <;> omega

theorem sum_daysInMonth (y m : Nat) (h1 : 1 ≤ m) (h12 : m ≤ 12) :
    ((List.range' 1 (m - 1)).map (daysInMonth y)).sum =
      (if m ≤ 2 then 31 * (m - 1)
       else (153 * (m - 3) + 2) / 5 + 59 + (if isLeapYear y then 1 else 0)) := by
  have hm : m = 1 ∨ m = 2 ∨ m = 3 ∨ m = 4 ∨ m = 5 ∨ m = 6 ∨ m = 7 ∨ m = 8 ∨ m = 9 ∨
      m = 10 ∨ m = 11 ∨ m = 12 := by omega
  rcases hm with h | h | h | h | h | h | h | h | h | h | h | h <;> subst h <;>
    by_cases hl : isLeapYear y = true <;>
    simp [List.range', daysInMonth, hl]

theorem leap_indicator (k : Nat) :
    ∃ i4 i100 i400 lp : Nat,
      (k + 1) / 4 = k / 4 + i4 ∧ (k + 1) / 100 = k / 100 + i100 ∧
      (k + 1) / 400 = k / 400 + i400 ∧
      (if isLeapYear (k + 1) = true then 1 else 0) = lp ∧ lp + i100 = i4 + i400 := by
  by_cases hl : isLeapYear (k + 1) = true
  · have hl' := (isLeapYear_iff (k + 1)).mp hl
    refine ⟨if (k + 1) % 4 = 0 then 1 else 0, if (k + 1) % 100 = 0 then 1 else 0,
      if (k + 1) % 400 = 0 then 1 else 0, 1, ?_, ?_, ?_, by rw [if_pos hl], ?_⟩
    · split <;> omega
    · split <;> omega
    · split <;> omega
    · split <;> split <;> split <;> omega
  · have hl' : ¬ ((k + 1) % 4 = 0 ∧ ((k + 1) % 100 ≠ 0 ∨ (k + 1) % 400 = 0)) :=
      fun h' => hl ((isLeapYear_iff (k + 1)).mpr h')
    refine ⟨if (k + 1) % 4 = 0 then 1 else 0, if (k + 1) % 100 = 0 then 1 else 0,
      if (k + 1) % 400 = 0 then 1 else 0, 0, ?_, ?_, ?_, by rw [if_neg hl], ?_⟩
    · split <;> omega
    · split <;> omega
    · split <;> omega
    · split <;> split <;> split <;> omega

theorem daysFromCivil_eq_dayNumber (y m d : Nat) (h : validCivil y m d) :
    daysFromCivil y m d = dayNumber y m d := by
  obtain ⟨hy, hm1, hm12, hd⟩ := h
  obtain ⟨k, rfl⟩ : ∃ k, y = k + 1 := ⟨y - 1, by omega⟩
  have hS := sum_daysInYear k
  have hM := sum_daysInMonth (k + 1) m hm1 hm12
  unfold dayNumber daysFromCivil
  generalize ((List.range (k + 1)).map daysInYear).sum = S at hS ⊢
  generalize ((List.range' 1 (m - 1)).map (daysInMonth (k + 1))).sum = Msum at hM ⊢
  by_cases hm2 : m ≤ 2
  · simp only [hm2, if_true, Nat.add_sub_cancel] at hM ⊢
    have hmp : (m + 9) % 12 = m + 9 := by omega
    have hmonth : (153 * (m + 9) + 2) / 5 = 275 + 31 * m := by omega
    rw [hmp, hmonth]
    have f1 : k / 4 = 100 * (k / 400) + k % 400 / 4 := by omega
    have f2 : k / 100 = 4 * (k / 400) + k % 400 / 100 := by omega
    have f3 : k % 400 / 100 ≤ k % 400 / 4 := by omega
    have f4 : k = 400 * (k / 400) + k % 400 := by omega
    rw [f1, f2] at hS
    generalize k % 400 / 4 = c at *
    generalize k % 400 / 100 = e at *
    generalize k % 400 = b at *
    generalize k / 400 = a at *
    subst f4
    omega
  · simp only [hm2, if_false] at hM ⊢
    have hmp : (m + 9) % 12 = m - 3 := by omega
    rw [hmp]
    obtain ⟨i4, i100, i400, lp, s1, s2, s3, s4, s5⟩ := leap_indicator k
    rw [s4] at hM
    have f1 : (k + 1) / 4 = 100 * ((k + 1) / 400) + (k + 1) % 400 / 4 := by omega
    have f2 : (k + 1) / 100 = 4 * ((k + 1) / 400) + (k + 1) % 400 / 100 := by omega
    have f3 : (k + 1) % 400 / 100 ≤ (k + 1) % 400 / 4 := by omega
    have f4 : k + 1 = 400 * ((k + 1) / 400) + (k + 1) % 400 := by omega
    rw [s1] at f1
    rw [s2] at f2
    rw [s3] at f1 f2 f4 ⊢
    generalize (153 * (m - 3) + 2) / 5 = Mp at *
    generalize (k + 1) % 400 / 4 = c at *
    generalize (k + 1) % 400 / 100 = e at *
    generalize (k + 1) % 400 = b at *
    generalize k / 4 = k4 at *
    generalize k / 100 = k100 at *
    generalize k / 400 = a at *
    omega

theorem Sub_scanTimestamp (now : Time) (first : SqlTimestamp)
    (hn : validCivil now.year now.month now.day)
    (hf : validCivil first.year first.month first.day) :
    now.Sub (scanTimestamp first) = toDuration (elapsedNanos now first) := by
  have h1 := daysFromCivil_eq_dayNumber _ _ _ hn
  have h2 := daysFromCivil_eq_dayNumber _ _ _ hf
  have hd : now.UnixNano - (scanTimestamp first).UnixNano = elapsedNanos now first := by
    simp only [Time.UnixNano, scanTimestamp, elapsedNanos, h1, h2]
    push_cast
    ring
  unfold Time.Sub toDuration
  simp only [hd]
  split
  · omega
  · split <;> omega

theorem toDuration_bounds (d : Int) :
    -(2 ^ 63) ≤ toDuration d ∧ toDuration d < 2 ^ 63 ∧
      (d < 604800000000000 → toDuration d < 604800000000000) := by
  unfold toDuration
  refine ⟨by omega, by omega, fun h => by omega⟩

/-! ## Order of the list -/

/-- C11 (the code at two failing inputs): user 1 creates a workout scheduled at
`2024-01-01T10:00:00+05:30` (04:30 UTC) and one scheduled at `2024-01-01T09:00:00Z`.
`ListWorkouts` orders by the stored text, so the 09:00 UTC workout comes first and the
list is not chronological.  Likewise a workout created at 09:30:00 without a scheduled
time is listed before one scheduled at 09:00:00Z the same day, the space of
`CURRENT_TIMESTAMP` sorting before the `T` of RFC 3339. -/
theorem list_order_is_textual_not_chronological :
    (ListWorkouts dbZones 1 "").map (fun w => w.Title) = ["Utc", "East"] ∧
    tEast.UnixNano < tUtc.UnixNano ∧
    ¬ chronological (ListWorkouts dbZones 1 "") ∧
    (ListWorkouts dbMixed 1 "").map (fun w => w.Title) = ["Unscheduled", "Utc"] ∧
    ¬ chronological (ListWorkouts dbMixed 1 "") := by
  refine ⟨by rfl, by decide, by decide, by rfl, by decide⟩

/-! ## Accounts -/

theorem GetUserByEmail_isSome (db : DB) (email : String)
    (h : ∃ usr ∈ db.users, usr.email = email) :
    ∃ r, db.users.find? (fun r => r.email == email) = some r ∧ r ∈ db.users ∧
      r.email = email ∧ GetUserByEmail db email = some (scanUser r) := by
  obtain ⟨usr, hmem, hemail⟩ := h
  cases hf : db.users.find? (fun r => r.email == email) with
  | none =>
    have := List.find?_eq_none.mp hf usr hmem
    simp [hemail] at this
  | some r =>
    have hp := List.find?_some hf
    simp only [beq_iff_eq] at hp
    exact ⟨r, rfl, List.mem_of_find?_eq_some hf, hp, by simp [GetUserByEmail, hf]⟩

theorem GetUserByEmail_eq_none_iff (db : DB) (email : String) :
    GetUserByEmail db email = none ↔ ∀ usr ∈ db.users, usr.email ≠ email := by
  unfold GetUserByEmail
  rw [Option.map_eq_none', List.find?_eq_none]
  simp only [beq_iff_eq]

/-- C15: when the database already holds a user with the email of a valid registration
request, `Register` answers 409 Conflict with an error body (no token, whatever the token
generator and the outcome of hashing), and the database, the `users` table in particular,
is the one before the call: no user is added and no row is modified. -/
theorem register_existing_email_conflicts (GenerateToken : Int → String → String) (db : DB)
    (req : RegisterRequest) (hash : Except String String) (ts : SqlTimestamp)
    (h : ∃ usr ∈ db.users, usr.email = req.Email) :
    AuthHandler.Register GenerateToken db (.ok req) hash ts =
      ({ status := 409, body := .error "email already registered" }, db) ∧
    (AuthHandler.Register GenerateToken db (.ok req) hash ts).1.status = 409 ∧
    (∀ token user,
      (AuthHandler.Register GenerateToken db (.ok req) hash ts).1.body ≠ .auth token user) ∧
    (AuthHandler.Register GenerateToken db (.ok req) hash ts).2.users = db.users := by
  obtain ⟨r, _, _, _, hget⟩ := GetUserByEmail_isSome db req.Email h
  have hreg : AuthHandler.Register GenerateToken db (.ok req) hash ts =
      ({ status := 409, body := .error "email already registered" }, db) := by
    simp only [AuthHandler.Register, hget]
  refine ⟨hreg, by rw [hreg], ?_, by rw [hreg]⟩
  intro token user
  rw [hreg]
  exact fun hc => Body.noConfusion hc

/-- C15 at a second registration of `a@example.com` in `dbUsers`. -/
theorem register_existing_email_conflicts_witness :
    (∃ usr ∈ dbUsers.users, usr.email = registerAgain.Email) ∧
    AuthHandler.Register sampleToken dbUsers (.ok registerAgain) (.ok "h3") ts1 =
      ({ status := 409, body := .error "email already registered" }, dbUsers) :=
  ⟨by decide,
   (register_existing_email_conflicts sampleToken dbUsers registerAgain (.ok "h3") ts1
     (by decide)).1⟩

/-- C16: `Login` answers 401 with the body `invalid credentials` when the email of the
request is unknown and when the password does not verify against the stored hash; the
response to a registered email with a wrong password equals the response to an email that
is not registered; and a 200 response is given only for a registered email whose password
verifies, and then carries a token for that user. -/
theorem login_rejections_are_uniform (GenerateToken : Int → String → String)
    (CompareHashAndPassword : String → String → Bool) (db db' : DB)
    (req req' : LoginRequest) :
    ((∀ usr ∈ db.users, usr.email ≠ req.Email) →
      AuthHandler.Login GenerateToken CompareHashAndPassword db (.ok req) =
        { status := 401, body := .error "invalid credentials" }) ∧
    (∀ user, GetUserByEmail db req.Email = some user →
      CompareHashAndPassword user.PasswordHash req.Password = false →
      AuthHandler.Login GenerateToken CompareHashAndPassword db (.ok req) =
        { status := 401, body := .error "invalid credentials" }) ∧
    (∀ user, GetUserByEmail db req.Email = some user →
      CompareHashAndPassword user.PasswordHash req.Password = false →
      (∀ usr ∈ db'.users, usr.email ≠ req'.Email) →
      AuthHandler.Login GenerateToken CompareHashAndPassword db (.ok req) =
        AuthHandler.Login GenerateToken CompareHashAndPassword db' (.ok req')) ∧
    ((AuthHandler.Login GenerateToken CompareHashAndPassword db (.ok req)).status = 200 →
      ∃ r ∈ db.users, r.email = req.Email ∧
        CompareHashAndPassword r.password_hash req.Password = true ∧
        AuthHandler.Login GenerateToken CompareHashAndPassword db (.ok req) =
          { status := 200, body := .auth (GenerateToken r.id r.email) (scanUser r) }) := by
  have hunk : ∀ (d : DB) (q : LoginRequest), (∀ usr ∈ d.users, usr.email ≠ q.Email) →
      AuthHandler.Login GenerateToken CompareHashAndPassword d (.ok q) =
        { status := 401, body := .error "invalid credentials" } := by
    intro d q hq
    have := (GetUserByEmail_eq_none_iff d q.Email).mpr hq
    simp only [AuthHandler.Login, this]
  have hbad : ∀ user, GetUserByEmail db req.Email = some user →
      CompareHashAndPassword user.PasswordHash req.Password = false →
      AuthHandler.Login GenerateToken CompareHashAndPassword db (.ok req) =
        { status := 401, body := .error "invalid credentials" } := by
    intro user hu hc
    simp [AuthHandler.Login, hu, hc]
  refine ⟨hunk db req, hbad, ?_, ?_⟩
  · intro user hu hc hq
    rw [hbad user hu hc, hunk db' req' hq]
  · intro hs
    cases hg : GetUserByEmail db req.Email with
    | none => simp [AuthHandler.Login, hg] at hs
    | some user =>
      cases hc : CompareHashAndPassword user.PasswordHash req.Password with
      | false => simp [AuthHandler.Login, hg, hc] at hs
      | true =>
        unfold GetUserByEmail at hg
        cases hf : db.users.find? (fun r => r.email == req.Email) with
        | none => simp [hf] at hg
        | some r =>
          simp only [hf, Option.map_some', Option.some.injEq] at hg
          have hp := List.find?_some hf
          simp only [beq_iff_eq] at hp
          subst hg
          refine ⟨r, List.mem_of_find?_eq_some hf, hp, hc, ?_⟩
          simp only [AuthHandler.Login, GetUserByEmail, hf, Option.map_some']
          simp only [scanUser] at hc
          simp [hc, scanUser]

/-- C16 at `dbUsers`: `a@example.com` with a wrong password and an unknown email get the
same 401, the right password gets 200. -/
theorem login_rejections_are_uniform_witness :
    AuthHandler.Login sampleToken sampleCompare dbUsers
        (.ok { Email := "a@example.com", Password := "wrong" }) =
      AuthHandler.Login sampleToken sampleCompare dbUsers
        (.ok { Email := "nobody@example.com", Password := "wrong" }) ∧
    (AuthHandler.Login sampleToken sampleCompare dbUsers
        (.ok { Email := "a@example.com", Password := "secret1" })).status = 200 :=
  ⟨(login_rejections_are_uniform sampleToken sampleCompare dbUsers dbUsers
      { Email := "a@example.com", Password := "wrong" }
      { Email := "nobody@example.com", Password := "wrong" }).2.2.1 _ rfl (by decide)
      (by decide),
   by decide⟩

/-! ## Middleware -/

/-- C17: on a route guarded by `AuthRequired`, a request whose `Authorization` header is
empty, does not start with `Bearer `, or carries a token that validation rejects gets 401
with an error body and leaves the database as it was, whatever the route's handler is
(the handler is not run); when validation succeeds the outcome is that of the handler run
with the user id and email of the validated claims. -/
theorem auth_required_guards_handler (ValidateToken : String → Except String Claims)
    (header : String) (next next' : Int → String → DB → Response × DB) (db : DB) :
    ((header = "" ∨ HasPrefix header "Bearer " = false ∨
        ∃ err, ValidateToken (TrimPrefix header "Bearer ") = .error err) →
      (AuthRequired ValidateToken header next db).1.status = 401 ∧
      (∃ msg, (AuthRequired ValidateToken header next db).1.body = .error msg) ∧
      (AuthRequired ValidateToken header next db).2 = db ∧
      AuthRequired ValidateToken header next db = AuthRequired ValidateToken header next' db) ∧
    (∀ claims, header ≠ "" → HasPrefix header "Bearer " = true →
      ValidateToken (TrimPrefix header "Bearer ") = .ok claims →
      AuthRequired ValidateToken header next db = next claims.UserID claims.Email db) := by
  constructor
  · intro h
    cases hc : (header == "" || !HasPrefix header "Bearer ") with
    | true =>
      simp only [AuthRequired, hc, if_true]
      exact ⟨trivial, ⟨_, rfl⟩, trivial, trivial⟩
    | false =>
      simp only [Bool.or_eq_false_iff, beq_eq_false_iff_ne, ne_eq, Bool.not_eq_false']
        at hc
      rcases h with h | h | ⟨err, h⟩
      · exact absurd h hc.1
      · rw [hc.2] at h; exact absurd h (by decide)
      · have hc' : (header == "" || !HasPrefix header "Bearer ") = false := by
          simp [hc.1, hc.2]
        simp only [AuthRequired, hc', h]
        exact ⟨rfl, ⟨_, rfl⟩, rfl, trivial⟩
  · intro claims hne hpre hv
    have hc : (header == "" || !HasPrefix header "Bearer ") = false := by
      simp [hne, hpre]
    simp only [AuthRequired, hc, hv]
    rfl

/-- C17 at `POST /workouts` of `dbUsers`: no header, a `Basic` header and a bad token are
answered 401 with the database unchanged; the token `good` runs the handler as user 1. -/
theorem auth_required_guards_handler_witness :
    AuthRequired sampleValidate ""
        (fun uid _ d => WorkoutHandler.Create d uid (.ok createPlain) ts0) dbUsers =
      ({ status := 401, body := .error "missing token" }, dbUsers) ∧
    AuthRequired sampleValidate "Basic good"
        (fun uid _ d => WorkoutHandler.Create d uid (.ok createPlain) ts0) dbUsers =
      ({ status := 401, body := .error "missing token" }, dbUsers) ∧
    AuthRequired sampleValidate "Bearer bad"
        (fun uid _ d => WorkoutHandler.Create d uid (.ok createPlain) ts0) dbUsers =
      ({ status := 401, body := .error "invalid token" }, dbUsers) ∧
    (AuthRequired sampleValidate "Bearer bad"
        (fun uid _ d => WorkoutHandler.Create d uid (.ok createPlain) ts0) dbUsers).2 =
      dbUsers ∧
    AuthRequired sampleValidate "Bearer good"
        (fun uid _ d => WorkoutHandler.Create d uid (.ok createPlain) ts0) dbUsers =
      WorkoutHandler.Create dbUsers 1 (.ok createPlain) ts0 := by
  have h := auth_required_guards_handler sampleValidate "Bearer bad"
    (fun uid _ d => WorkoutHandler.Create d uid (.ok createPlain) ts0)
    (fun uid _ d => WorkoutHandler.Create d uid (.ok createPlain) ts0) dbUsers
  have h' := auth_required_guards_handler sampleValidate "Bearer good"
    (fun uid _ d => WorkoutHandler.Create d uid (.ok createPlain) ts0)
    (fun uid _ d => WorkoutHandler.Create d uid (.ok createPlain) ts0) dbUsers
  exact ⟨by rfl, by rfl, by rfl, (h.1 (Or.inr (Or.inr ⟨_, rfl⟩))).2.2.1,
    h'.2 { UserID := 1, Email := "a@example.com" } (by decide) (by rfl) (by rfl)⟩

/-! ## The catalog handler -/

/-- C19 (the code at the failing input): with two strength exercises and one cardio
exercise in the catalog, `GET /exercises?category=cardio` answers 200 with all three
exercises, `Bench Press` of category `strength` among them: the handler does not read the
query parameter and `GetExercises` has no filter. -/
theorem exercise_list_ignores_category :
    ExerciseHandler.List dbCatalog "cardio" =
      { status := 200, body := .exercises (GetExercises dbCatalog) } ∧
    (GetExercises dbCatalog).map (fun e => (e.Name, e.Category)) =
      [("Running", "cardio"), ("Bench Press", "strength"), ("Push-Up", "strength")] ∧
    (∃ e ∈ GetExercises dbCatalog, e.Category ≠ "cardio") ∧
    ExerciseHandler.List dbCatalog "cardio" = ExerciseHandler.List dbCatalog "" := by
  refine ⟨rfl, by decide, by decide, rfl⟩

/-! ## Deleting an owned workout -/

theorem DeleteWorkout_owned (db : DB) (id u : Int)
    (hown : ∃ r ∈ db.workouts, r.id = id ∧ r.user_id = u) :
    DeleteWorkout db id u =
      (.ok (),
       { db with
         workouts := db.workouts.filter fun r => !(r.id == id && r.user_id == u),
         workout_exercises := db.entriesNotOf id }) := by
  obtain ⟨r, hr, hid, hu⟩ := hown
  have hpos : 0 < db.workouts.countP (fun r => r.id == id && r.user_id == u) := by
    rw [List.countP_pos_iff]
    exact ⟨r, hr, by simp [hid, hu]⟩
  have hne : (db.workouts.countP (fun r => r.id == id && r.user_id == u) == 0) = false := by
    rw [beq_eq_false_iff_ne]
    omega
  simp only [DeleteWorkout, deleteWorkout, hne, DB.entriesNotOf]
  rfl

theorem find?_filter_other (ws : List WorkoutRow) (id u id' u' : Int) (hne : id' ≠ id) :
    (ws.filter fun r => !(r.id == id && r.user_id == u)).find?
        (fun r => r.id == id' && r.user_id == u') =
      ws.find? (fun r => r.id == id' && r.user_id == u') := by
  rw [List.find?_filter]
  congr 1
  funext r
  by_cases h1 : r.id = id'
  · have h2 : (r.id == id) = false := by
      rw [beq_eq_false_iff_ne, h1]; exact hne
    simp only [h2, Bool.false_and, Bool.not_false, true_and, Bool.decide_eq_true]
  · have h2 : (r.id == id') = false := by
      rw [beq_eq_false_iff_ne]; exact h1
    simp [h2]

theorem filter_hit_eq_filter_id (ws : List WorkoutRow) (id u : Int)
    (hkey : (ws.map fun r => r.id).Nodup)
    (hown : ∃ r ∈ ws, r.id = id ∧ r.user_id = u) :
    (ws.filter fun r => !(r.id == id && r.user_id == u)) =
      ws.filter fun r => !(r.id == id) := by
  apply List.filter_congr
  intro r hr
  obtain ⟨r0, hr0, hid0, hu0⟩ := hown
  by_cases h1 : r.id = id
  · have : r = r0 := List.inj_on_of_nodup_map hkey hr hr0 (h1.trans hid0.symm)
    subst this
    simp [h1, hu0]
  · simp [h1]

/-- C18: for a workout owned by `u`, `DeleteWorkout` succeeds (`DELETE /workouts/:id`
answers 200); afterwards fetching the id as `u` is Not Found (404), no workout of `u`'s
list has the id, no entry of the workout remains, and every other workout with all its
entries is as before: the other rows of `workouts` are kept in order, the entries of every
other workout id are the same, and fetching any other id gives what it gave before. -/
theorem delete_owned_workout (db : DB) (id u : Int) (p : String)
    (hp : ParseInt p = some id)
    (hkey : (db.workouts.map fun r => r.id).Nodup)
    (hown : ∃ r ∈ db.workouts, r.id = id ∧ r.user_id = u) :
    ∃ db1, DeleteWorkout db id u = (.ok (), db1) ∧
      WorkoutHandler.Delete db u p = ({ status := 200, body := .message "deleted" }, db1) ∧
      GetWorkoutByID db1 id u = none ∧
      WorkoutHandler.Get db1 u p = { status := 404, body := .error "workout not found" } ∧
      (∀ s, ∀ w ∈ ListWorkouts db1 u s, w.ID ≠ id) ∧
      (∀ e ∈ db1.workout_exercises, e.workout_id ≠ id) ∧
      db1.workouts = db.workouts.filter (fun r => !(r.id == id)) ∧
      db1.entriesNotOf id = db.entriesNotOf id ∧
      (∀ id', id' ≠ id → db1.entriesOf id' = db.entriesOf id' ∧
        ∀ u', GetWorkoutByID db1 id' u' = GetWorkoutByID db id' u') ∧
      db1.users = db.users ∧ db1.exercises = db.exercises := by
  have hdel := DeleteWorkout_owned db id u hown
  refine ⟨_, hdel, ?_, ?_, ?_, ?_, ?_, ?_, ?_, ?_, rfl, rfl⟩
  · simp [WorkoutHandler.Delete, hp, hdel]
  · rw [GetWorkoutByID_eq_none_iff]
    intro r hr hid hu
    have := (List.mem_filter.mp hr).2
    simp [hid, hu] at this
  · have hn : GetWorkoutByID
        { db with
          workouts := db.workouts.filter fun r => !(r.id == id && r.user_id == u),
          workout_exercises := db.entriesNotOf id } id u = none := by
      rw [GetWorkoutByID_eq_none_iff]
      intro r hr hid hu
      have := (List.mem_filter.mp hr).2
      simp [hid, hu] at this
    simp only [WorkoutHandler.Get, hp, hn]
  · intro s w hw hid
    simp only [ListWorkouts, List.mem_map] at hw
    obtain ⟨r, hr, hrw⟩ := hw
    have hr1 := (List.perm_insertionSort _ _).mem_iff.mp hr
    have hr2 := List.mem_filter.mp hr1
    have hr3 := (List.mem_filter.mp hr2.1).2
    have hu : r.user_id = u := by
      have := hr2.2
      simp only [Bool.and_eq_true, beq_iff_eq] at this
      exact this.1
    have hrid : r.id = id := by rw [← hrw] at hid; exact hid
    simp [hrid, hu] at hr3
  · intro e he
    have := (List.mem_filter.mp he).2
    simpa using this
  · exact filter_hit_eq_filter_id db.workouts id u hkey hown
  · simp only [DB.entriesNotOf, List.filter_filter, Bool.and_self]
  · intro id' hne
    constructor
    · simp only [DB.entriesOf, DB.entriesNotOf, List.filter_filter]
      apply List.filter_congr
      intro e _
      by_cases h1 : e.workout_id = id'
      · simp [h1, hne]
      · simp [h1]
    · intro u'
      have hent : ∀ d : DB, d.workout_exercises = db.entriesNotOf id →
          d.exercises = db.exercises →
          getWorkoutExercises d id' = getWorkoutExercises db id' := by
        intro d hd hx
        simp only [getWorkoutExercises, hd, hx, DB.entriesNotOf, List.filter_filter]
        congr 1
        apply List.filter_congr
        intro e _
        by_cases h1 : e.workout_id = id'
        · simp [h1, hne]
        · simp [h1]
      simp only [GetWorkoutByID, find?_filter_other db.workouts id u id' u' hne]
      rw [hent { db with
          workouts := db.workouts.filter fun r => !(r.id == id && r.user_id == u),
          workout_exercises := db.entriesNotOf id } rfl rfl]

/-- C18 at user 1 deleting the own workout 1 of `dbOne`. -/
theorem delete_owned_workout_witness :
    ParseInt "1" = some 1 ∧
    (dbOne.workouts.map fun r => r.id).Nodup ∧
    (∃ r ∈ dbOne.workouts, r.id = 1 ∧ r.user_id = 1) ∧
    ∃ db1, DeleteWorkout dbOne 1 1 = (.ok (), db1) ∧
      WorkoutHandler.Get db1 1 "1" = { status := 404, body := .error "workout not found" } ∧
      db1.workouts = [] :=
  ⟨by rfl, by decide, by decide,
   (delete_owned_workout dbOne 1 1 "1" (by rfl) (by decide) (by decide)).imp fun _ h =>
     ⟨h.1, h.2.2.2.1, h.2.2.2.2.2.2.1.trans (by rfl)⟩⟩

/-! ## Status values -/

theorem UpdateWorkout_rows (db db1 : DB) (id u : Int) (req : UpdateWorkoutRequest) (now : Time)
    (ts : SqlTimestamp) (res : Option Workout)
    (h : UpdateWorkout db id u req now ts = (.ok res, db1)) :
    ∃ r0 ∈ db.workouts, ∀ r ∈ db1.workouts,
      r ∈ db.workouts ∨
        (r.status = req.Status.getD r0.status ∧
          r.completed_at = (if r.status = "completed" then some (Format now) else none)) := by
  unfold UpdateWorkout at h
  cases hg : GetWorkoutByID db id u with
  | none => simp [hg] at h
  | some existing =>
    obtain ⟨r0, hr0, hex⟩ := (GetWorkoutByID_eq_some_iff db id u existing).mp hg
    subst hex
    simp only [hg, Tx.Exec, updateWorkout, Begin] at h
    split at h
    · simp at h
    · next tx2 r2 hrep =>
      simp only [Prod.mk.injEq, Except.ok.injEq, Tx.Commit] at h
      obtain ⟨_, hdb1⟩ := h
      obtain ⟨_, _, hw, _, _⟩ := replaceExercises_ok id _ tx2 req.Exercises hrep
      rw [hdb1] at hw
      simp only at hw
      refine ⟨r0, List.mem_of_find?_eq_some hr0, ?_⟩
      intro r hr
      rw [hw] at hr
      obtain ⟨r', hr', hrr⟩ := List.mem_map.mp hr
      split at hrr
      · right
        rw [← hrr]
        refine ⟨?_, ?_⟩
        · cases req.Status <;> rfl
        · simp only [beq_iff_eq]
      · left
        rw [← hrr]; exact hr'

theorem Op_apply_status (P : String → Prop) (hp : P "pending") (db : DB) (op : Op)
    (hdb : ∀ r ∈ db.workouts, P r.status)
    (hop : ∀ s, op.suppliedStatus = some s → P s) :
    ∀ r ∈ (op.apply db).workouts, P r.status := by
  cases op with
  | register name email hash ts =>
    have : (CreateUser db name email hash ts).2.workouts = db.workouts := by
      unfold CreateUser insertUser
      by_cases hc : (db.users.any fun r => r.email == email) = true
      · simp only [hc, if_true]
      · simp only [hc]
        rfl
    simp only [Op.apply, this]
    exact hdb
  | create userID req ts =>
    simp only [Op.apply]
    rcases hc : CreateWorkout db userID req ts with ⟨res, d⟩
    cases res with
    | error err => rw [CreateWorkout_error db d userID req ts err hc]; exact hdb
    | ok w =>
      obtain ⟨_, _, row, rows, seq, hrow, _, _, _, hd, _⟩ :=
        CreateWorkout_ok db d userID req ts w hc
      intro r hr
      rw [hd] at hr
      rcases List.mem_append.mp hr with h1 | h1
      · exact hdb r h1
      · rw [List.mem_singleton] at h1
        rw [h1, hrow]; exact hp
  | update id userID req now ts =>
    simp only [Op.apply]
    rcases hc : UpdateWorkout db id userID req now ts with ⟨res, d⟩
    cases res with
    | error err => rw [UpdateWorkout_error db d id userID req now ts err hc]; exact hdb
    | ok w =>
      obtain ⟨r0, hr0, hall⟩ := UpdateWorkout_rows db d id userID req now ts w hc
      intro r hr
      rcases hall r hr with h1 | ⟨h1, _⟩
      · exact hdb r h1
      · rw [h1]
        cases hs : req.Status with
        | none => exact hdb r0 hr0
        | some s => exact hop s hs
  | delete id userID =>
    simp only [Op.apply, DeleteWorkout, deleteWorkout]
    intro r hr
    have hr' : r ∈ db.workouts.filter fun r => !(r.id == id && r.user_id == userID) := by
      split at hr <;> exact hr
    exact hdb r (List.mem_filter.mp hr').1

/-- C20 (as stated, refuted): on a fresh server (seeded catalog), and likewise on the
empty database, a user registers, creates a workout and sends `PUT /workouts/1` with
`{"status": "banana"}`.  The update succeeds and the stored status is `banana`. -/
theorem update_stores_any_status :
    (run dbSeeded opsBananaEntry).workouts.map (fun r => r.status) = ["banana"] ∧
    (run dbSeeded opsBananaEntry).workout_exercises.map (fun e => e.workout_id) = [1] ∧
    (∃ r ∈ (run dbSeeded opsBananaEntry).workouts, ¬ validStatus r.status) ∧
    (run DB.empty opsBanana).workouts.map (fun r => r.status) = ["banana"] ∧
    ∃ r ∈ (run DB.empty opsBanana).workouts, ¬ validStatus r.status := by
  refine ⟨by rfl, by rfl, by decide, by rfl, by decide⟩

/-- C20 (amended): in every database reached by registrations and by creates, updates and
deletes of workouts from a database in which every workout has the status `pending`,
`active` or `completed` (the empty database and the freshly seeded one hold no workout),
the status of every stored workout is one of these three provided every update request
that supplies a status supplies one of them; `UpdateWorkout` stores the supplied string as
it is. -/
theorem valid_status_kept_by_valid_requests (db0 : DB) (ops : List Op)
    (h0 : ∀ r ∈ db0.workouts, validStatus r.status)
    (hops : ∀ op ∈ ops, ∀ s, op.suppliedStatus = some s → validStatus s) :
    (∀ r ∈ (run db0 ops).workouts, validStatus r.status) ∧
    (∀ r ∈ (run DB.empty ops).workouts, validStatus r.status) ∧
    (∀ r ∈ (run dbSeeded ops).workouts, validStatus r.status) := by
  have key : ∀ (ops : List Op) (db : DB), (∀ r ∈ db.workouts, validStatus r.status) →
      (∀ op ∈ ops, ∀ s, op.suppliedStatus = some s → validStatus s) →
      ∀ r ∈ (run db ops).workouts, validStatus r.status := by
    intro ops
    induction ops with
    | nil => intro db hdb _; exact hdb
    | cons op rest ih =>
      intro db hdb hall
      simp only [run, List.foldl_cons]
      exact ih (op.apply db)
        (Op_apply_status validStatus (Or.inl rfl) db op hdb
          (hall op (List.mem_cons_self _ _)))
        (fun o ho => hall o (List.mem_cons_of_mem _ ho))
  have hseed : dbSeeded.workouts = [] := by rfl
  refine ⟨key ops db0 h0 hops, key ops DB.empty (by intro r hr; cases hr) hops,
    key ops dbSeeded (by intro r hr; rw [hseed] at hr; cases hr) hops⟩

/-- C20 (amended) on a fresh server: a registration, the creation of a workout with an
entry and an update to `completed`. -/
theorem valid_status_kept_by_valid_requests_witness :
    (∀ r ∈ dbSeeded.workouts, validStatus r.status) ∧
    (∀ op ∈ [Op.register "A" "a@example.com" "h1" ts0, Op.create 1 createPrivate ts0,
              Op.update 1 1 completeReq now1 ts1],
      ∀ s, op.suppliedStatus = some s → validStatus s) ∧
    (run dbSeeded [Op.register "A" "a@example.com" "h1" ts0, Op.create 1 createPrivate ts0,
        Op.update 1 1 completeReq now1 ts1]).workouts.map (fun r => r.status) =
      ["completed"] ∧
    (run dbSeeded [Op.register "A" "a@example.com" "h1" ts0, Op.create 1 createPrivate ts0,
        Op.update 1 1 completeReq now1 ts1]).workout_exercises.map (fun e => e.workout_id) =
      [1] ∧
    ∀ r ∈ (run dbSeeded [Op.register "A" "a@example.com" "h1" ts0,
        Op.create 1 createPrivate ts0, Op.update 1 1 completeReq now1 ts1]).workouts,
      validStatus r.status :=
  ⟨by decide, by decide, by rfl, by rfl,
   (valid_status_kept_by_valid_requests dbSeeded _ (by decide) (by decide)).1⟩

/-! ## Report: total volume -/

theorem filter_key_nil_or_singleton (ws : List WorkoutRow)
    (hk : (ws.map fun r => r.id).Nodup) (k : Int) (q : WorkoutRow → Bool) :
    ((ws.any fun w => w.id == k && q w) = false ∧
        (ws.filter fun w => w.id == k && q w) = []) ∨
    ((ws.any fun w => w.id == k && q w) = true ∧
        ∃ w ∈ ws, w.id = k ∧ q w = true ∧ (ws.filter fun w => w.id == k && q w) = [w]) := by
  induction ws with
  | nil => left; exact ⟨rfl, rfl⟩
  | cons a t ih =>
    simp only [List.map_cons, List.nodup_cons, List.mem_map, not_exists, not_and] at hk
    by_cases ha : (a.id == k && q a) = true
    · right
      have hak : a.id = k := by
        simp only [Bool.and_eq_true, beq_iff_eq] at ha; exact ha.1
      have hq : q a = true := by
        simp only [Bool.and_eq_true] at ha; exact ha.2
      have ht : (t.filter fun w => w.id == k && q w) = [] := by
        rw [List.filter_eq_nil_iff]
        intro w hw hc
        simp only [Bool.and_eq_true, beq_iff_eq] at hc
        exact hk.1 w hw (hc.1.trans hak.symm)
      refine ⟨by simp [List.any_cons, ha], a, List.mem_cons_self _ _, hak, hq, ?_⟩
      rw [List.filter_cons, if_pos ha, ht]
    · have ha' : (a.id == k && q a) = false := by simpa using ha
      rcases ih hk.2 with ⟨h1, h2⟩ | ⟨h1, w, hw, hwk, hwq, h2⟩
      · left
        refine ⟨by simp only [List.any_cons, ha', h1, Bool.or_self], ?_⟩
        rw [List.filter_cons, if_neg ha, h2]
      · right
        refine ⟨by simp only [List.any_cons, ha', h1, Bool.or_true], w,
          List.mem_cons_of_mem _ hw, hwk, hwq, ?_⟩
        rw [List.filter_cons, if_neg ha, h2]

theorem usageRows_entry (db : DB) (u : Int) (e : WorkoutExerciseRow)
    (hkW : (db.workouts.map fun r => r.id).Nodup)
    (hkE : (db.exercises.map fun c => c.ID).Nodup)
    (hfk : ∃ c ∈ db.exercises, c.ID = e.exercise_id) :
    ((db.exercises.filter fun c => c.ID == e.exercise_id).flatMap fun c =>
      (db.workouts.filter fun w => w.id == e.workout_id && w.user_id == u).map
        fun _ => (e.exercise_id, c.Name)) =
    if db.ownsEntry u e then
      (db.exercises.filter fun c => c.ID == e.exercise_id).map fun c => (e.exercise_id, c.Name)
    else [] := by
  obtain ⟨c, hc, hid⟩ := hfk
  have h1 := filter_key_eq_singleton db.exercises hkE c hc
  rw [hid] at h1
  rcases filter_key_nil_or_singleton db.workouts hkW e.workout_id (fun w => w.user_id == u)
    with ⟨ha, hf⟩ | ⟨ha, w, _, _, _, hf⟩
  · have ho : db.ownsEntry u e = false := ha
    simp [h1, hf, ho]
  · have ho : db.ownsEntry u e = true := ha
    simp [h1, hf, ho]

theorem usageRows_count_aux (db : DB) (u : Int)
    (hkW : (db.workouts.map fun r => r.id).Nodup)
    (hkE : (db.exercises.map fun c => c.ID).Nodup) (k : Int) :
    ∀ es : List WorkoutExerciseRow,
      (∀ e ∈ es, ∃ c ∈ db.exercises, c.ID = e.exercise_id) →
      (es.flatMap fun we =>
        (db.exercises.filter fun e => e.ID == we.exercise_id).flatMap fun e =>
          (db.workouts.filter fun w => w.id == we.workout_id && w.user_id == u).map
            fun _ => (we.exercise_id, e.Name)).countP (fun r => r.1 == k) =
        es.countP fun e => e.exercise_id == k && db.ownsEntry u e
  | [], _ => rfl
  | e :: t, hfk => by
    obtain ⟨c, hc, hid⟩ := hfk e (List.mem_cons_self _ _)
    have h1 := filter_key_eq_singleton db.exercises hkE c hc
    rw [hid] at h1
    rw [List.flatMap_cons, List.countP_append,
      usageRows_count_aux db u hkW hkE k t (fun x hx => hfk x (List.mem_cons_of_mem _ hx)),
      usageRows_entry db u e hkW hkE ⟨c, hc, hid⟩, h1, List.countP_cons]
    cases ho : db.ownsEntry u e with
    | true =>
      by_cases hk : e.exercise_id = k
      · simp [hk, Nat.add_comm]
      · simp [hk]
    | false => simp

theorem usageRows_count (db : DB) (u : Int)
    (hkW : (db.workouts.map fun r => r.id).Nodup)
    (hkE : (db.exercises.map fun c => c.ID).Nodup)
    (hfk : ∀ e ∈ db.workout_exercises, ∃ c ∈ db.exercises, c.ID = e.exercise_id) (k : Int) :
    (usageRows db u).countP (fun r => r.1 == k) = db.usageCount u k :=
  usageRows_count_aux db u hkW hkE k db.workout_exercises hfk

theorem usageRows_mem (db : DB) (u : Int) (r : Int × String) (hr : r ∈ usageRows db u) :
    ∃ e ∈ db.workout_exercises, db.ownsEntry u e = true ∧ e.exercise_id = r.1 ∧
      ∃ c ∈ db.exercises, c.ID = r.1 ∧ c.Name = r.2 := by
  unfold usageRows at hr
  simp only [List.mem_flatMap, List.mem_filter, List.mem_map, beq_iff_eq,
    Bool.and_eq_true] at hr
  obtain ⟨e, he, c, ⟨hc, hcid⟩, w, ⟨hw, hwid, hwu⟩, hrw⟩ := hr
  refine ⟨e, he, ?_, by rw [← hrw], c, hc, by rw [← hrw]; exact hcid, by rw [← hrw]⟩
  simp only [DB.ownsEntry, List.any_eq_true, Bool.and_eq_true, beq_iff_eq]
  exact ⟨w, hw, hwid, hwu⟩

theorem usageRows_nil (db : DB) (u : Int)
    (h : ∀ e ∈ db.workout_exercises, db.ownsEntry u e = false) : usageRows db u = [] := by
  cases hrows : usageRows db u with
  | nil => rfl
  | cons r t =>
    obtain ⟨e, he, ho, _⟩ := usageRows_mem db u r (by rw [hrows]; exact List.mem_cons_self _ _)
    rw [h e he] at ho
    exact absurd ho (by decide)

theorem mostUsed_spec (rows : List (Int × String)) :
    (rows = [] → mostUsed rows = none) ∧
    (rows ≠ [] → ∃ r ∈ rows, mostUsed rows = some r.2 ∧
      ∀ k, rows.countP (fun x => x.1 == k) ≤ rows.countP (fun x => x.1 == r.1)) := by
  constructor
  · intro h; subst h; rfl
  · intro hne
    have hkeys : ∀ k, k ∈ ((rows.map fun r => r.1).dedup).insertionSort (fun a b => b ≤ a) ↔
        ∃ r ∈ rows, r.1 = k := by
      intro k
      rw [(List.perm_insertionSort _ _).mem_iff, List.mem_dedup, List.mem_map]
    cases ha : (((rows.map fun r => r.1).dedup).insertionSort (fun a b => b ≤ a)).argmax
        (fun k => rows.countP fun r => r.1 == k) with
    | none =>
      rw [List.argmax_eq_none] at ha
      obtain ⟨r, t, hrt⟩ := List.exists_cons_of_ne_nil hne
      have : r.1 ∈ ((rows.map fun r => r.1).dedup).insertionSort (fun a b => b ≤ a) :=
        (hkeys r.1).mpr ⟨r, by rw [hrt]; exact List.mem_cons_self _ _, rfl⟩
      rw [ha] at this
      exact absurd this (List.not_mem_nil _)
    | some k =>
      have hk := List.argmax_mem ha
      obtain ⟨r0, hr0, hr0k⟩ := (hkeys k).mp hk
      cases hf : rows.find? (fun r => r.1 == k) with
      | none =>
        have := List.find?_eq_none.mp hf r0 hr0
        simp [hr0k] at this
      | some r =>
        have hrk : r.1 = k := by
          have := List.find?_some hf
          simpa using this
        refine ⟨r, List.mem_of_find?_eq_some hf, ?_, ?_⟩
        · simp only [mostUsed, ha, hf, Option.map_some']
        · intro k'
          rw [hrk]
          by_cases hk' : ∃ x ∈ rows, x.1 = k'
          · exact List.le_of_mem_argmax ((hkeys k').mpr hk') ha
          · have : rows.countP (fun x => x.1 == k') = 0 := by
              rw [List.countP_eq_zero]
              intro x hx hc
              exact hk' ⟨x, hx, by simpa using hc⟩
            rw [this]
            exact Nat.zero_le _

/-- C13: the report's most-used exercise is the empty string when no entry belongs to a
workout of the user; otherwise it is the name of a catalog exercise whose number of
entries in the user's workouts is at least that of every other exercise id.  Entries of
other users' workouts are not counted (`usageCount` counts the user's entries only). -/
theorem report_most_used_exercise (SUM : RealAggregate) (db : DB) (u : Int) (now : Time)
    (hkW : (db.workouts.map fun r => r.id).Nodup)
    (hkE : (db.exercises.map fun c => c.ID).Nodup)
    (hfk : ∀ e ∈ db.workout_exercises, ∃ c ∈ db.exercises, c.ID = e.exercise_id) :
    ((∀ e ∈ db.workout_exercises, db.ownsEntry u e = false) →
      (GetReport SUM db u now).MostUsedExercise = "") ∧
    ((∃ e ∈ db.workout_exercises, db.ownsEntry u e = true) →
      ∃ c ∈ db.exercises, (GetReport SUM db u now).MostUsedExercise = c.Name ∧
        0 < db.usageCount u c.ID ∧
        ∀ k, db.usageCount u k ≤ db.usageCount u c.ID) := by
  have hrep : (GetReport SUM db u now).MostUsedExercise =
      match mostUsed (usageRows db u) with
      | some name => name
      | none => "" := rfl
  constructor
  · intro h
    rw [hrep, usageRows_nil db u h]
    rfl
  · rintro ⟨e, he, ho⟩
    have hpos : 0 < db.usageCount u e.exercise_id := by
      unfold DB.usageCount
      rw [List.countP_pos_iff]
      exact ⟨e, he, by simp [ho]⟩
    have hne : usageRows db u ≠ [] := by
      intro hnil
      have := usageRows_count db u hkW hkE hfk e.exercise_id
      rw [hnil] at this
      simp only [List.countP_nil] at this
      omega
    obtain ⟨r, hr, hm, hmax⟩ := (mostUsed_spec (usageRows db u)).2 hne
    obtain ⟨_, _, _, _, c, hc, hcid, hcn⟩ := usageRows_mem db u r hr
    refine ⟨c, hc, ?_, ?_, ?_⟩
    · rw [hrep, hm, hcn]
    · have := hmax e.exercise_id
      rw [usageRows_count db u hkW hkE hfk, usageRows_count db u hkW hkE hfk] at this
      rw [hcid]; omega
    · intro k
      have := hmax k
      rw [usageRows_count db u hkW hkE hfk, usageRows_count db u hkW hkE hfk] at this
      rw [hcid]; exact this

/-- C13 at `dbReport`: user 1 has one entry of exercise 1 and two of exercise 2 (the entry
of user 2's workout does not count), so the most used exercise is `Push-Up`; in `dbUsers`
user 1 has no entry and the name is empty. -/
theorem report_most_used_exercise_witness :
    (dbReport.workouts.map fun r => r.id).Nodup ∧
    (dbReport.exercises.map fun c => c.ID).Nodup ∧
    (∀ e ∈ dbReport.workout_exercises, ∃ c ∈ dbReport.exercises, c.ID = e.exercise_id) ∧
    (GetReport plainSum dbReport 1 now1).MostUsedExercise = "Push-Up" ∧
    dbReport.usageCount 1 1 = 1 ∧ dbReport.usageCount 1 2 = 2 ∧
    (GetReport plainSum dbUsers 1 now1).MostUsedExercise = "" :=
  ⟨by decide, by decide, by decide, by rfl, by decide, by decide,
   (report_most_used_exercise plainSum dbUsers 1 now1 (by decide) (by decide) (by decide)).1
     (by decide)⟩

/-! ## Text order of `CURRENT_TIMESTAMP` values -/

theorem cons_lt_cons_iff_lex {α : Type} [LinearOrder α] (a b : α) (l l' : List α) :
    a :: l < b :: l' ↔ a < b ∨ (a = b ∧ l < l') := by
  constructor
  · intro h
    cases h with
    | cons h' => exact Or.inr ⟨rfl, h'⟩
    | rel h' => exact Or.inl h'
  · rintro (h | ⟨rfl, h⟩)
    · exact List.Lex.rel h
    · exact List.Lex.cons h

theorem digitChar_lt_iff (a b : Nat) :
    (digitChar a < digitChar b ↔ a % 10 < b % 10) ∧
    (digitChar a = digitChar b ↔ a % 10 = b % 10) := by
  have key : ∀ i j : Fin 10,
      (Char.ofNat (48 + i.val) < Char.ofNat (48 + j.val) ↔ i.val < j.val) ∧
      (Char.ofNat (48 + i.val) = Char.ofNat (48 + j.val) ↔ i.val = j.val) := by decide
  exact key ⟨a % 10, Nat.mod_lt _ (by decide)⟩ ⟨b % 10, Nat.mod_lt _ (by decide)⟩

theorem pad2_lt_iff (a b : Nat) (ha : a < 100) (hb : b < 100) (r1 r2 : List Char) :
    pad2 a ++ r1 < pad2 b ++ r2 ↔ a < b ∨ (a = b ∧ r1 < r2) := by
  simp only [pad2, List.cons_append, List.nil_append, cons_lt_cons_iff_lex,
    (digitChar_lt_iff _ _).1, (digitChar_lt_iff _ _).2]
  by_cases hR : r1 < r2
  · simp only [hR, and_true]; omega
  · simp only [hR, and_false, or_false]; omega

theorem pad4_eq_pad2 (n : Nat) : pad4 n = pad2 (n / 100) ++ pad2 (n % 100) := by
  have h1 : n / 100 / 10 % 10 = n / 1000 % 10 := by omega
  have h2 : n % 100 / 10 % 10 = n / 10 % 10 := by omega
  have h3 : n % 100 % 10 = n % 10 := by omega
  simp only [pad4, pad2, digitChar, h1, h2, h3, List.cons_append, List.nil_append]

theorem pad4_lt_iff (a b : Nat) (ha : a < 10000) (hb : b < 10000) (r1 r2 : List Char) :
    pad4 a ++ r1 < pad4 b ++ r2 ↔ a < b ∨ (a = b ∧ r1 < r2) := by
  rw [pad4_eq_pad2, pad4_eq_pad2, List.append_assoc, List.append_assoc,
    pad2_lt_iff _ _ (by omega) (by omega), pad2_lt_iff _ _ (by omega) (by omega)]
  by_cases hR : r1 < r2
  · simp only [hR, and_true]; omega
  · simp only [hR, and_false, or_false]; omega

theorem sep_lt_iff (c : Char) (r1 r2 : List Char) : c :: r1 < c :: r2 ↔ r1 < r2 := by
  rw [cons_lt_cons_iff_lex]
  constructor
  · rintro (h | ⟨_, h⟩)
    · exact absurd h (lt_irrefl _)
    · exact h
  · intro h; exact Or.inr ⟨rfl, h⟩

theorem SqlTimestamp_text_lt_iff (a b : SqlTimestamp) (ha : a.fits) (hb : b.fits) :
    a.text.data < b.text.data ↔ a.fields < b.fields := by
  obtain ⟨ha1, ha2, ha3, ha4, ha5, ha6⟩ := ha
  obtain ⟨hb1, hb2, hb3, hb4, hb5, hb6⟩ := hb
  have hlast : pad2 a.second < pad2 b.second ↔ a.second < b.second := by
    have := pad2_lt_iff a.second b.second ha6 hb6 [] []
    simpa using this
  simp only [SqlTimestamp.text, SqlTimestamp.fields, cons_lt_cons_iff_lex,
    List.append_assoc, List.cons_append]
  rw [pad4_lt_iff _ _ ha1 hb1, sep_lt_iff, pad2_lt_iff _ _ ha2 hb2, sep_lt_iff,
    pad2_lt_iff _ _ ha3 hb3, sep_lt_iff, pad2_lt_iff _ _ ha4 hb4, sep_lt_iff,
    pad2_lt_iff _ _ ha5 hb5, sep_lt_iff, hlast]
  simp

/-! ## Report: average per week -/

theorem minTimestamp_spec : ∀ (l : List SqlTimestamp), l ≠ [] →
    ∃ m, minTimestamp l = some m ∧ m ∈ l ∧ ∀ t ∈ l, ¬ t.text.data < m.text.data
  | [], h => absurd rfl h
  | t :: ts, _ => by
    cases hts : ts with
    | nil =>
      refine ⟨t, rfl, List.mem_cons_self _ _, ?_⟩
      intro x hx
      rw [List.mem_singleton] at hx
      rw [hx]; exact lt_irrefl _
    | cons a rest =>
      obtain ⟨m, hm, hmem, hmin⟩ := minTimestamp_spec (a :: rest) (List.cons_ne_nil _ _)
      have hstep : minTimestamp (t :: a :: rest) =
          (match minTimestamp (a :: rest) with
            | none => some t
            | some m => if m.text.data < t.text.data then some m else some t) := rfl
      rw [hstep, hm]
      by_cases hlt : m.text.data < t.text.data
      · refine ⟨m, by simp only [hlt, if_true], List.mem_cons_of_mem _ hmem, ?_⟩
        intro x hx
        rcases List.mem_cons.mp hx with rfl | hx'
        · exact lt_asymm hlt
        · exact hmin x hx'
      · refine ⟨t, by simp only [hlt, if_false], List.mem_cons_self _ _, ?_⟩
        intro x hx
        rcases List.mem_cons.mp hx with rfl | hx'
        · exact lt_irrefl _
        · intro hxt
          have h1 := not_lt.mp (hmin x hx')
          exact hlt (lt_of_le_of_lt h1 hxt)

/-- C14 (as stated, refuted): on a fresh server a user registers and creates one workout;
the report is read 15 days later, so `T = 1` and `w = 360 / 168`.  The report's average is
the float64 0.4666666666666667 (8406719304424926 × 2⁻⁵⁴), which is not `T / max(1, w)`
= 7/15: no float64 is. -/
theorem average_is_rounded :
    dbFirst.createdAts 1 = [ts0] ∧
    elapsedNanos nowDay15 ts0 = 15 * 24 * 3600000000000 ∧
    (GetReport plainSum dbFirst 1 nowDay15).AvgWorkoutsPerWeek =
      .finite false 8406719304424926 (-54) ∧
    (Float64.finite false 8406719304424926 (-54)).toRat ≠
      ((dbFirst.createdAts 1).length : ℚ) /
        max 1 ((elapsedNanos nowDay15 ts0 : ℚ) / 3600000000000 / 168) := by
  have h1 : dbFirst.createdAts 1 = [ts0] := by rfl
  have h2 : elapsedNanos nowDay15 ts0 = 15 * 24 * 3600000000000 := by decide!
  refine ⟨h1, h2, by decide!, ?_⟩
  rw [h1, h2]
  norm_num [Float64.toRat]

/-- C14 (amended): for a user with `T > 0` workouts the report's average workouts per
week is the float64 quotient `float64(T) / max(1, w)`, where `w = d.Hours() / 168` in
float64 arithmetic and `d` is the `time.Duration` from the creation of the user's earliest
workout to the time of the report (`elapsedNanos`, counted by the calendar, and kept
within 64 bits).  It never exceeds `float64(T)`, which is `T` itself for `T < 2 ^ 53`, and
it equals `float64(T)` whenever the earliest workout is less than one week old; for
`T < 2 ^ 53` it is within one part in `2 ^ 50` of the exact quotient `T / max(1, w)`, `w`
being the exact number of weeks in `d`.  For a user without workouts it is 0.  The earliest workout is the one `MIN(created_at)` selects: the
least `created_at` text, which for `CURRENT_TIMESTAMP` texts is the least (year, month,
day, hour, minute, second). -/
theorem report_average_per_week (SUM : RealAggregate) (db : DB) (u : Int) (now : Time)
    (hnow : validCivil now.year now.month now.day)
    (hcreated : ∀ t ∈ db.createdAts u, validCivil t.year t.month t.day) :
    (GetReport SUM db u now).TotalWorkouts = ((db.createdAts u).length : Int) ∧
    ((db.createdAts u).length = 0 →
      (GetReport SUM db u now).AvgWorkoutsPerWeek = Float64.zero) ∧
    (0 < (db.createdAts u).length →
      ∃ first, minTimestamp (db.createdAts u) = some first ∧ first ∈ db.createdAts u ∧
        (∀ t ∈ db.createdAts u, ¬ t.text.data < first.text.data) ∧
        ((∀ t ∈ db.createdAts u, t.fits) → ∀ t ∈ db.createdAts u, first.fields ≤ t.fields) ∧
        (GetReport SUM db u now).AvgWorkoutsPerWeek =
          (Float64.ofInt (db.createdAts u).length).div
            (if ((Hours (toDuration (elapsedNanos now first))).div 168).lt 1 then 1
             else (Hours (toDuration (elapsedNanos now first))).div 168) ∧
        (GetReport SUM db u now).AvgWorkoutsPerWeek.le
          (Float64.ofInt (db.createdAts u).length) = true ∧
        (elapsedNanos now first < 604800000000000 →
          (GetReport SUM db u now).AvgWorkoutsPerWeek =
            Float64.ofInt (db.createdAts u).length) ∧
        ((db.createdAts u).length < 2 ^ 53 →
          (Float64.ofInt (db.createdAts u).length).toRat = (db.createdAts u).length ∧
          (GetReport SUM db u now).AvgWorkoutsPerWeek.isFinite = true ∧
          |(GetReport SUM db u now).AvgWorkoutsPerWeek.toRat -
              ((db.createdAts u).length : ℚ) /
                max 1 ((toDuration (elapsedNanos now first) : ℚ) / 3600000000000 / 168)| ≤
            ((db.createdAts u).length : ℚ) /
                max 1 ((toDuration (elapsedNanos now first) : ℚ) / 3600000000000 / 168) *
              (2 : ℚ) ^ (-50 : Int))) := by
  have hlen : (db.createdAts u).length = (db.workouts.filter fun w => w.user_id == u).length := by
    simp [DB.createdAts]
  have havg : (GetReport SUM db u now).AvgWorkoutsPerWeek =
      match minTimestamp (db.createdAts u) with
      | some first =>
        if ((db.createdAts u).length : Int) > 0 then
          (Float64.ofInt (db.createdAts u).length).div
            (if ((Hours (now.Sub (scanTimestamp first))).div 168).lt 1 then 1
             else (Hours (now.Sub (scanTimestamp first))).div 168)
        else Float64.zero
      | none => Float64.zero := by
    simp only [GetReport, DB.createdAts, List.length_map]
  refine ⟨by simp [GetReport, hlen], ?_, ?_⟩
  · intro h0
    have hnil : db.createdAts u = [] := List.length_eq_zero.mp h0
    rw [havg, hnil]
    rfl
  · intro hpos
    have hne : db.createdAts u ≠ [] := by
      intro h; rw [h] at hpos; exact absurd hpos (by decide)
    obtain ⟨first, hfirst, hmem, hmin⟩ := minTimestamp_spec (db.createdAts u) hne
    have hposI : ((db.createdAts u).length : Int) > 0 := by exact_mod_cast hpos
    have hsub := Sub_scanTimestamp now first hnow (hcreated first hmem)
    obtain ⟨hb1, hb2, hb3⟩ := toDuration_bounds (elapsedNanos now first)
    have hval : (GetReport SUM db u now).AvgWorkoutsPerWeek =
        (Float64.ofInt (db.createdAts u).length).div
          (if ((Hours (toDuration (elapsedNanos now first))).div 168).lt 1 then 1
           else (Hours (toDuration (elapsedNanos now first))).div 168) := by
      rw [havg, hfirst]
      simp only [hposI, if_true, hsub]
    obtain ⟨hle, heq⟩ := average_spec ((db.createdAts u).length : Int)
      (toDuration (elapsedNanos now first)) hposI hb1 hb2
    refine ⟨first, hfirst, hmem, hmin, ?_, hval, ?_, ?_, ?_⟩
    · intro hfit t ht
      have := hmin t ht
      rw [SqlTimestamp_text_lt_iff t first (hfit t ht) (hfit first hmem)] at this
      exact not_lt.mp this
    · rw [hval]; exact hle
    · intro hw
      rw [hval]; exact heq (hb3 hw)
    · intro hsmall
      have h53 : ((db.createdAts u).length : Int) < 2 ^ 53 := by exact_mod_cast hsmall
      have hexact :=
        (Float64.ofInt_spec ((db.createdAts u).length : Int) (by simpa using hsmall)).2.2
      obtain ⟨hfin, hacc⟩ := average_accuracy ((db.createdAts u).length : Int)
        (toDuration (elapsedNanos now first)) hposI h53 hb1 hb2
      rw [← hval] at hfin hacc
      refine ⟨by simpa using hexact, hfin, ?_⟩
      simpa using hacc

/-- C14 (amended) on a fresh server with one workout created at `ts0`: read 15 days later
the average is the float64 0.4666666666666667, read 3 days later it is 1; for a user
without workouts it is 0. -/
theorem report_average_per_week_witness :
    validCivil nowDay15.year nowDay15.month nowDay15.day ∧
    (∀ t ∈ dbFirst.createdAts 1, validCivil t.year t.month t.day) ∧
    0 < (dbFirst.createdAts 1).length ∧
    (GetReport plainSum dbFirst 1 nowDay15).AvgWorkoutsPerWeek =
      .finite false 8406719304424926 (-54) ∧
    (GetReport plainSum dbFirst 1 nowDay15).AvgWorkoutsPerWeek.le
      (Float64.ofInt (dbFirst.createdAts 1).length) = true ∧
    (GetReport plainSum dbFirst 1 nowDay3).AvgWorkoutsPerWeek = 1 ∧
    (dbFirst.createdAts 2).length = 0 ∧
    (GetReport plainSum dbFirst 2 nowDay15).AvgWorkoutsPerWeek = Float64.zero := by
  have h := report_average_per_week plainSum dbFirst 1 nowDay15 (by decide) (by decide)
  have h' := report_average_per_week plainSum dbFirst 2 nowDay15 (by decide) (by decide)
  obtain ⟨first, _, _, _, _, _, hle, _, _⟩ := h.2.2 (by decide)
  exact ⟨by decide, by decide, by decide, by decide!, hle, by decide!, by decide,
    h'.2.1 (by decide)⟩

/-! ## The hypotheses of the report properties hold in every reachable database -/

theorem CreateUser_frame (db : DB) (name email hash : String) (ts : SqlTimestamp) :
    (CreateUser db name email hash ts).2.exercises = db.exercises ∧
    (CreateUser db name email hash ts).2.workouts = db.workouts ∧
    (CreateUser db name email hash ts).2.workout_exercises = db.workout_exercises ∧
    (CreateUser db name email hash ts).2.seq_workout_exercises = db.seq_workout_exercises := by
  unfold CreateUser insertUser
  by_cases hc : (db.users.any fun r => r.email == email) = true
  · simp only [hc, if_true, and_self]
  · simp only [hc]
    exact ⟨rfl, rfl, rfl, rfl⟩

theorem Op_apply_consistent (db : DB) (op : Op) (h : db.Consistent) :
    (op.apply db).Consistent := by
  cases op with
  | register name email hash ts =>
    obtain ⟨h1, h2, h3, h4⟩ := CreateUser_frame db name email hash ts
    simp only [Op.apply, DB.Consistent, h1, h2, h3, h4]
    exact h
  | create userID req ts => exact (Consistent_kept db 0 userID req emptyUpdate now0 ts h).1
  | update id userID req now ts =>
    exact (Consistent_kept db id userID createPlain req now ts h).2.1
  | delete id userID =>
    exact (Consistent_kept db id userID createPlain emptyUpdate now0 ts0 h).2.2

theorem Op_apply_exercise_refs (db : DB) (op : Op)
    (h : ∀ e ∈ db.workout_exercises, ∃ c ∈ db.exercises, c.ID = e.exercise_id) :
    ∀ e ∈ (op.apply db).workout_exercises,
      ∃ c ∈ (op.apply db).exercises, c.ID = e.exercise_id := by
  have hrows : ∀ (rows : List WorkoutExerciseRow) (L : List WorkoutExerciseRequest),
      rows.map WorkoutExerciseRow.toRequest = L →
      (∀ x ∈ L, ∃ c ∈ db.exercises, c.ID = x.ExerciseID) →
      ∀ e ∈ rows, ∃ c ∈ db.exercises, c.ID = e.exercise_id := by
    intro rows L hmap hall e he
    exact hall e.toRequest (by rw [← hmap]; exact List.mem_map_of_mem _ he)
  cases op with
  | register name email hash ts =>
    obtain ⟨h1, _, h3, _⟩ := CreateUser_frame db name email hash ts
    simp only [Op.apply, h1, h3]
    exact h
  | create userID req ts =>
    simp only [Op.apply]
    rcases hc : CreateWorkout db userID req ts with ⟨res, d⟩
    cases res with
    | error err => rw [CreateWorkout_error db d userID req ts err hc]; exact h
    | ok w =>
      obtain ⟨_, hall, row, rows, seq, _, hmap, _, _, hd, _⟩ :=
        CreateWorkout_ok db d userID req ts w hc
      intro e he
      rw [hd] at he ⊢
      rcases List.mem_append.mp he with h1 | h1
      · exact h e h1
      · exact hrows rows req.Exercises hmap hall e h1
  | update id userID req now ts =>
    simp only [Op.apply]
    rcases hc : UpdateWorkout db id userID req now ts with ⟨res, d⟩
    cases res with
    | error err => rw [UpdateWorkout_error db d id userID req now ts err hc]; exact h
    | ok w =>
      obtain ⟨_, _, _, _, _, _, _, _, _, _, _, _, _, _, _, _, hx, hnone, hsome⟩ :=
        UpdateWorkout_ok db d id userID req now ts w hc
      intro e he
      rw [hx]
      cases hex : req.Exercises with
      | none => rw [hnone hex] at he; exact h e he
      | some L =>
        obtain ⟨hall, rows, hmap, _, _, hd⟩ := hsome L hex
        rw [hd] at he
        rcases List.mem_append.mp he with h1 | h1
        · exact h e (List.mem_filter.mp h1).1
        · exact hrows rows L hmap hall e h1
  | delete id userID =>
    simp only [Op.apply, DeleteWorkout, deleteWorkout]
    intro e he
    have hmem : e ∈ db.workout_exercises := by
      split at he
      · simp only at he
        exact he
      · simp only at he
        exact (List.mem_filter.mp he).1
    obtain ⟨c, hc, hid⟩ := h e hmem
    refine ⟨c, ?_, hid⟩
    split <;> exact hc

/-- The keys of `workouts` and `exercises` and the references from `workout_exercises` to
`exercises`, which the report properties assume, hold in every database reached from a
database that has them, the empty one in particular. -/
theorem reachable_keeps_keys (db : DB) (ops : List Op) (h : db.Consistent)
    (hfk : ∀ e ∈ db.workout_exercises, ∃ c ∈ db.exercises, c.ID = e.exercise_id) :
    (run db ops).Consistent ∧
    ∀ e ∈ (run db ops).workout_exercises,
      ∃ c ∈ (run db ops).exercises, c.ID = e.exercise_id := by
  induction ops generalizing db with
  | nil => exact ⟨h, hfk⟩
  | cons op rest ih =>
    simp only [run, List.foldl_cons]
    exact ih (op.apply db) (Op_apply_consistent db op h) (Op_apply_exercise_refs db op hfk)

/-! ## Seeding of the exercise catalog -/

theorem seedLoop_spec : ∀ (es : List seeder.Exercise) (db : DB),
    (∀ x ∈ db.exercises, x.ID ≤ db.seq_exercises) →
    (db.exercises.map fun x => x.ID).Nodup →
    (seedLoop db es).1 = .ok () ∧
    (seedLoop db es).2.exercises.map Exercise.toSeed = db.exercises.map Exercise.toSeed ++ es ∧
    ((seedLoop db es).2.exercises.map fun x => x.ID).Nodup ∧
    (seedLoop db es).2.users = db.users ∧
    (seedLoop db es).2.workouts = db.workouts ∧
    (seedLoop db es).2.workout_exercises = db.workout_exercises ∧
    (seedLoop db es).2.seq_users = db.seq_users ∧
    (seedLoop db es).2.seq_workouts = db.seq_workouts ∧
    (seedLoop db es).2.seq_workout_exercises = db.seq_workout_exercises
  | [], db, _, hnd => by
    refine ⟨rfl, ?_, hnd, rfl, rfl, rfl, rfl, rfl, rfl⟩
    rw [List.append_nil]
    rfl
  | e :: es, db, hb, hnd => by
    have hstep : seedLoop db (e :: es) =
        seedLoop
          { db with
            exercises := db.exercises ++
              [{ ID := nextRowid db.seq_exercises (db.exercises.map fun x => x.ID),
                 Name := e.Name, Description := e.Description, Category := e.Category,
                 MuscleGroup := e.MuscleGroup }],
            seq_exercises := nextRowid db.seq_exercises (db.exercises.map fun x => x.ID) }
          es := rfl
    rw [hstep]
    have hfresh : ∀ x ∈ db.exercises,
        x.ID < nextRowid db.seq_exercises (db.exercises.map fun x => x.ID) := fun x hx =>
      nextRowid_gt_mem _ _ _ (List.mem_map_of_mem (fun x => x.ID) hx)
    obtain ⟨h1, h2, h3, h4⟩ := seedLoop_spec es
      { db with
        exercises := db.exercises ++
          [{ ID := nextRowid db.seq_exercises (db.exercises.map fun x => x.ID),
             Name := e.Name, Description := e.Description, Category := e.Category,
             MuscleGroup := e.MuscleGroup }],
        seq_exercises := nextRowid db.seq_exercises (db.exercises.map fun x => x.ID) }
      (by
        intro x hx
        rcases List.mem_append.mp hx with h | h
        · exact le_of_lt (hfresh x h)
        · rw [List.mem_singleton] at h
          rw [h])
      (by
        simp only [List.map_append, List.map_cons, List.map_nil]
        refine List.Nodup.append hnd (List.nodup_singleton _) ?_
        intro a ha hb
        rw [List.mem_singleton] at hb
        obtain ⟨x, hx, rfl⟩ := List.mem_map.mp ha
        exact absurd hb (ne_of_lt (hfresh x hx)))
    refine ⟨h1, ?_, h3, h4⟩
    rw [h2]
    simp only [List.map_append, List.map_cons, List.map_nil, List.append_assoc,
      List.singleton_append, Exercise.toSeed]

/-- C21: `SeedExercises` never fails.  Run on an empty catalog it leaves a catalog whose
rows carry, in order, exactly the names, descriptions, categories and muscle groups of the
34 entries of the reference list, under pairwise different keys, and it changes no other
table.  Run on a non-empty catalog it returns the database as it was.  Hence a second run
changes nothing: running it twice gives the database of running it once. -/
theorem seed_exercises_idempotent (db : DB) :
    (SeedExercises db).1 = .ok () ∧
    (db.exercises = [] →
      (SeedExercises db).2.exercises.map Exercise.toSeed = seeder.exercises ∧
      (SeedExercises db).2.exercises.length = 34 ∧
      ((SeedExercises db).2.exercises.map fun x => x.ID).Nodup ∧
      (SeedExercises db).2.users = db.users ∧
      (SeedExercises db).2.workouts = db.workouts ∧
      (SeedExercises db).2.workout_exercises = db.workout_exercises) ∧
    (db.exercises ≠ [] → SeedExercises db = (.ok (), db)) ∧
    SeedExercises (SeedExercises db).2 = (.ok (), (SeedExercises db).2) := by
  have hfull : ∀ d : DB, d.exercises ≠ [] → SeedExercises d = (.ok (), d) := by
    intro d hd
    have hpos : d.exercises.length > 0 := List.length_pos.mpr hd
    simp only [SeedExercises, hpos, if_true]
  by_cases he : db.exercises = []
  · have hrun : SeedExercises db = seedLoop db seeder.exercises := by
      simp only [SeedExercises, he, List.length_nil, gt_iff_lt, lt_self_iff_false, if_false]
    obtain ⟨h1, h2, h3, h4, h5, h6, _⟩ := seedLoop_spec seeder.exercises db
      (by rw [he]; intro x hx; cases hx) (by rw [he]; exact List.nodup_nil)
    rw [he, List.map_nil, List.nil_append] at h2
    rw [← hrun] at h1 h2 h3 h4 h5 h6
    have hlen : (SeedExercises db).2.exercises.length = 34 := by
      have := congrArg List.length h2
      rw [List.length_map] at this
      rw [this]; rfl
    refine ⟨h1, fun _ => ⟨h2, hlen, h3, h4, h5, h6⟩, fun hne => absurd he hne, ?_⟩
    apply hfull
    intro hnil
    rw [hnil] at hlen
    cases hlen
  · have hsame := hfull db he
    refine ⟨by rw [hsame], fun h => absurd h he, fun _ => hsame, ?_⟩
    rw [hsame]
    exact hsame

theorem seed_exercises_idempotent_witness :
    DB.empty.exercises = [] ∧
    (SeedExercises DB.empty).2.exercises.map Exercise.toSeed = seeder.exercises ∧
    ((SeedExercises DB.empty).2.exercises.map fun x => x.ID) = List.range' 1 34 ∧
    dbCatalog.exercises ≠ [] ∧
    SeedExercises dbCatalog = (.ok (), dbCatalog) :=
  ⟨rfl, ((seed_exercises_idempotent DB.empty).2.1 rfl).1, by rfl, by decide,
    (seed_exercises_idempotent dbCatalog).2.2.1 (by decide)⟩

/-! ## The completed timestamp -/

theorem Op_apply_completedIffStamped (db : DB) (op : Op) (hdb : db.completedIffStamped) :
    (op.apply db).completedIffStamped := by
  unfold DB.completedIffStamped at hdb ⊢
  cases op with
  | register name email hash ts =>
    have : (CreateUser db name email hash ts).2.workouts = db.workouts := by
      unfold CreateUser insertUser
      by_cases hc : (db.users.any fun r => r.email == email) = true
      · simp only [hc, if_true]
      · simp only [hc]
        rfl
    simp only [Op.apply, this]
    exact hdb
  | create userID req ts =>
    simp only [Op.apply]
    rcases hc : CreateWorkout db userID req ts with ⟨res, d⟩
    cases res with
    | error err => rw [CreateWorkout_error db d userID req ts err hc]; exact hdb
    | ok w =>
      obtain ⟨_, _, row, rows, seq, hrow, _, _, _, hd, _⟩ :=
        CreateWorkout_ok db d userID req ts w hc
      intro r hr
      rw [hd] at hr
      rcases List.mem_append.mp hr with h1 | h1
      · exact hdb r h1
      · rw [List.mem_singleton] at h1
        rw [h1, hrow]
        have hne : ¬ ("pending" = "completed") := by decide
        exact ⟨fun h => absurd rfl h, fun h => absurd h hne⟩
  | update id userID req now ts =>
    simp only [Op.apply]
    rcases hc : UpdateWorkout db id userID req now ts with ⟨res, d⟩
    cases res with
    | error err => rw [UpdateWorkout_error db d id userID req now ts err hc]; exact hdb
    | ok w =>
      obtain ⟨r0, _, hall⟩ := UpdateWorkout_rows db d id userID req now ts w hc
      intro r hr
      rcases hall r hr with h1 | ⟨_, h2⟩
      · exact hdb r h1
      · rw [h2]
        by_cases hs : r.status = "completed"
        · simp only [hs, if_true]
          exact ⟨fun _ => trivial, fun _ h => by cases h⟩
        · simp only [hs, if_false]
          exact ⟨fun h => absurd rfl h, fun h => h.elim⟩
  | delete id userID =>
    simp only [Op.apply, DeleteWorkout, deleteWorkout]
    intro r hr
    have hr' : r ∈ db.workouts.filter fun r => !(r.id == id && r.user_id == userID) := by
      split at hr <;> exact hr
    exact hdb r (List.mem_filter.mp hr').1

theorem run_completedIffStamped : ∀ (ops : List Op) (db : DB),
    db.completedIffStamped → (run db ops).completedIffStamped
  | [], _, h => h
  | op :: ops, db, h =>
    run_completedIffStamped ops (op.apply db) (Op_apply_completedIffStamped db op h)

/-- C22: in every database reached from the empty one (or from any database in which the
property holds) by registrations and by `CreateWorkout`, `UpdateWorkout` and
`DeleteWorkout` calls, every stored workout has a non-null `completed_at` exactly when its
status is `completed`, and so has every workout fetched from it.  A successful
`CreateWorkout` appends a row with status `pending` and a null `completed_at`.  A
successful `UpdateWorkout` leaves the row of the workout with the status of the request
(the old one when the request has none) and with `completed_at` equal to the RFC 3339
text of the current time when that status is `completed` and null otherwise, so a
completed workout that is given another status loses its completed timestamp; every
other row is a row of the database before. -/
theorem completed_timestamp_iff_completed :
    (∀ ops : List Op, (run DB.empty ops).completedIffStamped) ∧
    (∀ (db0 : DB) (ops : List Op), db0.completedIffStamped →
      (run db0 ops).completedIffStamped ∧
      ∀ id u w, GetWorkoutByID (run db0 ops) id u = some w →
        (w.CompletedAt ≠ none ↔ w.Status = "completed")) ∧
    (∀ (db db1 : DB) (u : Int) (req : CreateWorkoutRequest) (ts : SqlTimestamp)
        (res : Option Workout),
      CreateWorkout db u req ts = (.ok res, db1) →
      ∃ row : WorkoutRow, db1.workouts = db.workouts ++ [row] ∧
        row.status = "pending" ∧ row.completed_at = none) ∧
    (∀ (db db1 : DB) (id u : Int) (req : UpdateWorkoutRequest) (now : Time)
        (ts : SqlTimestamp) (res : Option Workout),
      UpdateWorkout db id u req now ts = (.ok res, db1) →
      (∃ r0 r1 : WorkoutRow,
        db.workouts.find? (fun r => r.id == id && r.user_id == u) = some r0 ∧
        db1.workouts.find? (fun r => r.id == id && r.user_id == u) = some r1 ∧
        res = some (scanWorkout r1 (getWorkoutExercises db1 id)) ∧
        r1.status = req.Status.getD r0.status ∧
        r1.completed_at = (if r1.status = "completed" then some (Format now) else none) ∧
        (∀ s, req.Status = some s → s ≠ "completed" → r1.completed_at = none)) ∧
      ∀ r ∈ db1.workouts, r ∈ db.workouts ∨
        r.completed_at = (if r.status = "completed" then some (Format now) else none)) := by
  refine ⟨fun ops => run_completedIffStamped ops DB.empty (by decide), ?_, ?_, ?_⟩
  · intro db0 ops h0
    have hinv := run_completedIffStamped ops db0 h0
    refine ⟨hinv, ?_⟩
    intro id u w hw
    obtain ⟨r, hr, _, _, rfl⟩ := GetWorkoutByID_eq_some _ id u w hw
    have := hinv r hr
    simp only [scanWorkout]
    rw [← this]
    cases r.completed_at <;> simp
  · intro db db1 u req ts res h
    obtain ⟨_, _, row, rows, seq, hrow, _, _, _, hd, _⟩ := CreateWorkout_ok db db1 u req ts res h
    refine ⟨row, by rw [hd], by rw [hrow], by rw [hrow]⟩
  · intro db db1 id u req now ts res h
    obtain ⟨r0, r1, h0, h1, hres, _, _, _, _, _, hst, _, hca, _⟩ :=
      UpdateWorkout_ok db db1 id u req now ts res h
    refine ⟨⟨r0, r1, h0, h1, hres, hst, hca, ?_⟩, ?_⟩
    · intro s hs hne
      rw [hca, hst, hs]
      simp only [Option.getD_some, hne, if_false]
    · obtain ⟨_, _, hall⟩ := UpdateWorkout_rows db db1 id u req now ts res h
      intro r hr
      rcases hall r hr with h2 | ⟨_, h2⟩
      · exact Or.inl h2
      · exact Or.inr h2

theorem completed_timestamp_iff_completed_witness :
    DB.empty.completedIffStamped ∧
    (run DB.empty (opsLifecycle.take 3)).workouts.map
        (fun r => (r.status, r.completed_at)) = [("completed", some (Format now0))] ∧
    (run DB.empty (opsLifecycle.take 4)).workouts.map
        (fun r => (r.status, r.completed_at)) = [("completed", some (Format now1))] ∧
    (run DB.empty opsLifecycle).workouts.map
        (fun r => (r.status, r.completed_at)) = [("active", none)] ∧
    (run DB.empty opsLifecycle).completedIffStamped :=
  ⟨by decide, by rfl, by rfl, by rfl,
    (completed_timestamp_iff_completed.2.1 DB.empty opsLifecycle (by decide)).1⟩

end Forge
